import Mathlib

/-!
# BFD daemon: control-packet codec, session state machine, packet admission

Shallow embedding of `pkg/packet/bfd/bfd.go`, `pkg/server/peerstate.go`,
`pkg/server/watcher.go`, `pkg/server/peer.go` and `pkg/server/server.go`.

Conventions of the embedding.

* Go `int8` values (`Version`, `DiagnosticCode`, `SessionState`, `Bool`,
  `AuthenticationType`, `AuthKeyId`) are `Int`; `uint8`/`uint32` values and
  bytes are `Nat`.  The conversions `byte(x)` and `int8(b)` are `byte` and
  `int8` below, and every truncating operation carries its explicit `% 2^w`.
* A Go `[]byte` and a Go `string` are both `List Nat` (a list of bytes).
* A function that can hit a run-time panic (index out of range) returns `Run`,
  whose constructor `panic` stands for that panic.
* The session code is embedded sequentially: an operation posted to the
  management mailbox is executed at the point where it is posted.  The method
  `handlePacket` is given as a whole and also in its two parts around its two
  commits, so that the ticker branch running between them can be expressed.
-/

namespace Bfd

/-! ## pkg/packet/bfd/bfd.go -/

/-- Go conversion `byte(x)` of an `int8` (or of an `int`): the value modulo 256. -/
def byte (x : Int) : Nat := (x % 256).toNat

/-- Go conversion `int8(b)` of a byte: two's complement reading. -/
def int8 (b : Nat) : Int := if b % 256 < 128 then ((b % 256 : Nat) : Int) else ((b % 256 : Nat) : Int) - 256

-- SessionState
def AdminDown : Int := 0
def Down : Int := 1
def Init : Int := 2
def Up : Int := 3

-- DiagnosticCode
def NoDiagnostic : Int := 0
def ControlDetectionTimeExpired : Int := 1
def EchoFunctionFailed : Int := 2
def NeighborSignaledSessionDown : Int := 3
def ForwardingPlaneReset : Int := 4
def PathDown : Int := 5
def ConcatenatedPathDown : Int := 6
def AdministrativelyDown : Int := 7
def ReverseConcatenatedPathDown : Int := 8

-- AuthenticationType
def Reserved : Int := 0
def SimplePassword : Int := 1
def KeyedMD5 : Int := 2
def MeticulousKeyedMD5 : Int := 3
def KeyedSHA1 : Int := 4
def MeticulousKeyedSHA1 : Int := 5

-- Bool
def No : Int := 0
def Yes : Int := 1

def MINIMUM_SIZE : Nat := 24
def MAXIMUM_SIZE : Nat := MINIMUM_SIZE + 28

/-- Error values of the packages `bfd` and `server`; `External` stands for an
error value handed back by a library call (`net`, `strconv`). -/
inductive Err where
  | ErrPasswordInvalidLength
  | ErrInvalidAuthenticationType
  | ErrInvalidPacketLength
  | ErrInvalidAddress
  | ErrInvalidPort
  | ErrSessionAdminDown
  | ErrNotImplemented
  | ErrInvalidDetectionMultiplierSupplied
  | ErrPeerNotFound
  | ErrInvalidVersion
  | ErrInvalidDetectMultiplier
  | ErrInvalidMultiPoint
  | ErrInvalidMyDiscriminator
  | ErrInvalidYourDiscriminator
  | ErrInvalidPacket
  | ErrYourDiscriminatorNotFound
  | ErrInvalidTTL
  | ErrInvalidIP
  | External (code : Nat)
  deriving DecidableEq, Repr

/-- Outcome of a method with a pointer receiver that may panic: either it
returns, leaving the receiver as `recv` and giving the error value `err`
(`none` is Go `nil`), or it panics (an index out of range, or an explicit
`panic` call). -/
inductive Run (σ : Type) where
  | ret (recv : σ) (err : Option Err)
  | panic
  deriving DecidableEq, Repr

structure SimplePasswordHeader where
  AuthKeyId : Int := 0
  Password : List Nat := []
  deriving DecidableEq, Repr

/-- The struct `ControlPacket`.  The interface field `AuthenticationHeader` has
`*SimplePasswordHeader` as its only implementation; `none` is the nil interface. -/
@[ext]
structure ControlPacket where
  Version : Int := 0
  DiagnosticCode : Int := 0
  State : Int := 0
  Poll : Int := 0
  Final : Int := 0
  ControlPlaneIndependent : Int := 0
  Demand : Int := 0
  Multipoint : Int := 0
  DetectMultiplier : Nat := 0
  MyDiscriminator : Nat := 0
  YourDiscriminator : Nat := 0
  DesiredMinTxInterval : Nat := 0
  RequiredMinRxInterval : Nat := 0
  RequiredMinEchoInterval : Nat := 0
  AuthenticationHeader : Option SimplePasswordHeader := none
  deriving DecidableEq, Repr

/-- Result of `binary.BigEndian.Uint32(buf[off:])` when `off + 3 < len(buf)`. -/
def Uint32 (buf : List Nat) (off : Nat) : Nat :=
  buf.getD off 0 * 2 ^ 24 + buf.getD (off + 1) 0 * 2 ^ 16 + buf.getD (off + 2) 0 * 2 ^ 8
    + buf.getD (off + 3) 0

/-- The four bytes `binary.BigEndian.PutUint32` writes for `v`. -/
def PutUint32 (v : Nat) : List Nat :=
  [v / 2 ^ 24 % 256, v / 2 ^ 16 % 256, v / 2 ^ 8 % 256, v % 256]

/-- The method `(*SimplePasswordHeader).UnmarshalBinary`. -/
def SimplePasswordHeader.UnmarshalBinary (s : SimplePasswordHeader) (buf : List Nat) :
    Run SimplePasswordHeader :=
  match buf[0]? with
  | none => Run.panic
  | some t =>
    if int8 t ≠ SimplePassword then Run.ret s (some Err.ErrInvalidAuthenticationType)
    else
      match buf[1]? with
      | none => Run.panic
      | some l =>
        if buf.length ≠ l then Run.ret s (some Err.ErrInvalidPacketLength)
        else
          match buf[2]? with
          | none => Run.panic
          | some k => Run.ret { s with AuthKeyId := int8 k, Password := buf.drop 3 } none

/-- The method `(*SimplePasswordHeader).MarshalBinary`. -/
def SimplePasswordHeader.MarshalBinary (s : SimplePasswordHeader) : Except Err (List Nat) :=
  if s.Password.length < 1 ∨ s.Password.length > 16 then Except.error Err.ErrPasswordInvalidLength
  else
    Except.ok ([byte SimplePassword, (3 + s.Password.length) % 256, byte s.AuthKeyId] ++ s.Password)

/-- The method `(*SimplePasswordHeader).IsValid`. -/
def SimplePasswordHeader.IsValid (s : SimplePasswordHeader) (key : List Nat) (_packet : List Nat) :
    Bool :=
  decide (s.Password = key)

/-- The method `(*ControlPacket).UnmarshalBinary`.  Indices 0..23 are read with
`getD` after the length check has established `24 ≤ len(buf)`; index 24 is
read with `[24]?` because nothing has established that it exists. -/
def ControlPacket.UnmarshalBinary (c : ControlPacket) (buf : List Nat) : Run ControlPacket :=
  if buf.length < MINIMUM_SIZE then Run.ret c (some Err.ErrInvalidPacketLength)
  else
    let l := buf.getD 3 0
    if buf.length ≠ l then Run.ret c (some Err.ErrInvalidPacketLength)
    else
      let c1 : ControlPacket :=
        { c with
          Version := int8 ((buf.getD 0 0 &&& 0xE0) >>> 5)
          DiagnosticCode := int8 (buf.getD 0 0 &&& 0x1F)
          State := int8 ((buf.getD 1 0 &&& 0xC0) >>> 6)
          Poll := int8 ((buf.getD 1 0 >>> 5) &&& 1)
          Final := int8 ((buf.getD 1 0 >>> 4) &&& 1)
          ControlPlaneIndependent := int8 ((buf.getD 1 0 >>> 3) &&& 1)
          Demand := int8 ((buf.getD 1 0 >>> 1) &&& 1)
          Multipoint := int8 ((buf.getD 1 0 >>> 0) &&& 1)
          DetectMultiplier := buf.getD 2 0
          MyDiscriminator := Uint32 buf 4
          YourDiscriminator := Uint32 buf 8
          DesiredMinTxInterval := Uint32 buf 12
          RequiredMinRxInterval := Uint32 buf 16
          RequiredMinEchoInterval := Uint32 buf 20 }
      if (buf.getD 1 0 >>> 2) &&& 1 = 1 then
        match buf[24]? with
        | none => Run.panic
        | some t =>
          if int8 t = SimplePassword then
            match SimplePasswordHeader.UnmarshalBinary {} (buf.drop 24) with
            | Run.panic => Run.panic
            | Run.ret _ (some e) => Run.ret c1 (some e)
            | Run.ret pw none => Run.ret { c1 with AuthenticationHeader := some pw } none
          else Run.ret c1 (some Err.ErrInvalidAuthenticationType)
      else Run.ret c1 none

/-- The value `MarshalBinary` stores in `buf[0]`. -/
def ControlPacket.byte0 (c : ControlPacket) : Nat :=
  ((byte c.Version <<< 5) % 256) ||| byte c.DiagnosticCode

/-- The value `MarshalBinary` first stores in `buf[1]` (before the A bit is set). -/
def ControlPacket.byte1 (c : ControlPacket) : Nat :=
  ((byte c.State <<< 6) % 256) ||| ((byte c.Poll <<< 5) % 256)
    ||| ((byte c.Final <<< 4) % 256) ||| ((byte c.ControlPlaneIndependent <<< 3) % 256)
    ||| ((byte c.Demand <<< 1) % 256) ||| byte c.Multipoint

/-- The first 24 bytes `MarshalBinary` produces, given the final values of
`buf[1]` and `buf[3]`. -/
def ControlPacket.header (c : ControlPacket) (b1 b3 : Nat) : List Nat :=
  [c.byte0, b1, c.DetectMultiplier % 256, b3] ++ PutUint32 c.MyDiscriminator
    ++ PutUint32 c.YourDiscriminator ++ PutUint32 c.DesiredMinTxInterval
    ++ PutUint32 c.RequiredMinRxInterval ++ PutUint32 c.RequiredMinEchoInterval

/-- The method `(*ControlPacket).MarshalBinary`. -/
def ControlPacket.MarshalBinary (c : ControlPacket) : Except Err (List Nat) :=
  match c.AuthenticationHeader with
  | none => Except.ok (c.header c.byte1 (24 % 256))
  | some h =>
    match h.MarshalBinary with
    | Except.error e => Except.error e
    | Except.ok bytes =>
      Except.ok
        (c.header (c.byte1 ||| ((byte Yes <<< 2) % 256)) ((24 + bytes.length) % 256) ++ bytes)

/-- The method `(*ControlPacket).GetAuthenticationType`. -/
def ControlPacket.GetAuthenticationType (c : ControlPacket) : Int :=
  match c.AuthenticationHeader with
  | none => Reserved
  | some _ => SimplePassword



/-! ## pkg/server/peerstate.go -/

structure PeerState where
  discriminator : Nat := 0
  sessionState : Int := 0
  diagnosticCode : Int := 0
  desiredMinTxInterval : Nat := 0
  requiredMinRxInterval : Nat := 0
  detectMultiplier : Nat := 0
  demandMode : Bool := false
  deriving DecidableEq, Repr

/-- The type `PeerStateUpdate func(*PeerState)`: an update of a snapshot under construction. -/
abbrev PeerStateUpdate := PeerState → PeerState

def setDetectMultiplier (multiplier : Nat) : PeerStateUpdate :=
  fun state => { state with detectMultiplier := multiplier }

def setRequiredMinRxInterval (required : Nat) : PeerStateUpdate :=
  fun state => { state with requiredMinRxInterval := required }

def setDesiredMinTxInterval (desired : Nat) : PeerStateUpdate :=
  fun state => { state with desiredMinTxInterval := desired }

def setSessionState (sessionState : Int) : PeerStateUpdate :=
  fun state => { state with sessionState := sessionState }

def setDiagnosticCode (diagnostic : Int) : PeerStateUpdate :=
  fun state => { state with diagnosticCode := diagnostic }

def setDemandMode (demandMode : Bool) : PeerStateUpdate :=
  fun state => { state with demandMode := demandMode }

def setDiscriminator (discriminator : Nat) : PeerStateUpdate :=
  fun state => { state with discriminator := discriminator }

/-- The method `(*PeerState).Clone`: copy every field, then run the updates in list order. -/
def PeerState.Clone (state : PeerState) (updates : List PeerStateUpdate) : PeerState :=
  let newstate : PeerState :=
    { discriminator := state.discriminator
      sessionState := state.sessionState
      diagnosticCode := state.diagnosticCode
      desiredMinTxInterval := state.desiredMinTxInterval
      requiredMinRxInterval := state.requiredMinRxInterval
      detectMultiplier := state.detectMultiplier
      demandMode := state.demandMode }
  updates.foldl (fun s update => update s) newstate

/-- The message `api.PeerState` built by `ToApi`: session state and diagnostic. -/
structure ApiPeerState where
  State : Int
  Diagnostic : Int
  deriving DecidableEq, Repr

/-- The message `api.PeerStateResponse`. -/
structure PeerStateResponse where
  Local : ApiPeerState
  Remote : ApiPeerState
  deriving DecidableEq, Repr

def PeerState.ToApi (state : PeerState) : ApiPeerState :=
  { State := state.sessionState, Diagnostic := state.diagnosticCode }

/-! ## pkg/server/watcher.go -/

/-- The struct `watcher`, as its consumer sees it: `ch` holds the events put
into the queue and not yet consumed (oldest first); `closed` tells whether
`ch.Close()` has been called, after which the drained stream ends. -/
structure watcher where
  ch : List PeerStateResponse := []
  closed : Bool := false
  deriving DecidableEq, Repr

/-- The function `NewWatcher`. -/
def NewWatcher : watcher := {}

/-- The method `(*watcher).Notify`. -/
def watcher.Notify (w : watcher) (state : PeerStateResponse) : watcher :=
  { w with ch := w.ch ++ [state] }

/-! ## pkg/server/server.go: helpers and admission checks -/

/-- The function `max` of server.go, on `uint32`. -/
def max (v1 v2 : Nat) : Nat := if v1 < v2 then v2 else v1

/-- The function `min` of server.go, on `uint32`. -/
def min (v1 v2 : Nat) : Nat := if v1 < v2 then v1 else v2

/-- The function `checkPacket`; `none` is the nil error. -/
def checkPacket (p : ControlPacket) : Option Err :=
  if p.Version ≠ 1 then some Err.ErrInvalidVersion
  else if p.DetectMultiplier = 0 then some Err.ErrInvalidDetectMultiplier
  else if p.Multipoint = Yes then some Err.ErrInvalidMultiPoint
  else if p.MyDiscriminator = 0 then some Err.ErrInvalidMyDiscriminator
  else if p.YourDiscriminator = 0 ∧ (p.State ≠ Down ∧ p.State ≠ AdminDown) then
    some Err.ErrInvalidYourDiscriminator
  else none

/-! ## pkg/server/peer.go -/

/-- The constant `OFFLINE_TIMEOUT`: 20 seconds in microseconds. -/
def OFFLINE_TIMEOUT : Nat := 20 * 1000 * 1000

/-- Nanoseconds per `time.Microsecond`. -/
def Microsecond : Nat := 1000

/-- The struct `net.UDPAddr`: an IP address (4 or 16 bytes) and a port. -/
structure UDPAddr where
  IP : List Nat := []
  Port : Int := 0
  deriving DecidableEq, Repr

/-- The session, as far as `handlePacket`, the timing loop and the state setters
use it.  `localState` and `remoteState` are the fields `local` and `remote`
(`local` is a reserved word here).  `watchers` holds the registered watchers;
`conn` holds the datagrams written to the transmit socket so far (oldest
first); `ticker` and `expiry` hold the `time.Duration` (nanoseconds) each timer
was last reset to; `control` tells whether the channel `control` of the started
session has been closed. -/
structure Peer where
  uuid : List Nat := []
  Name : List Nat := []
  Address : UDPAddr := {}
  SourcePort : Int := 0
  Interval : Nat := 0
  localState : PeerState := {}
  remoteState : PeerState := {}
  AuthType : Int := 0
  PollActive : Bool := false
  conn : List (List Nat) := []
  ticker : Nat := 0
  expiry : Nat := 0
  IsMultiHop : Bool := false
  control : Bool := false
  watchers : List watcher := []
  deriving DecidableEq, Repr

def Peer.GetLocal (p : Peer) : PeerState := p.localState

def Peer.GetRemote (p : Peer) : PeerState := p.remoteState

def Peer.GetAuthenticationType (p : Peer) : Int := p.AuthType

/-- The method `(*Peer).NewPacket`. -/
def Peer.NewPacket (p : Peer) (poll final : Int) : ControlPacket :=
  let l := p.GetLocal
  let r := p.GetRemote
  { Version := 1
    State := l.sessionState
    Poll := poll
    Final := final
    Demand := No
    DetectMultiplier := l.detectMultiplier
    MyDiscriminator := l.discriminator
    YourDiscriminator := r.discriminator
    DesiredMinTxInterval := l.desiredMinTxInterval
    RequiredMinRxInterval := l.requiredMinRxInterval
    RequiredMinEchoInterval := 0 }

/-- The method `(*Peer).Send`: the marshalled bytes (nil when marshalling
fails) are written to the connection. -/
def Peer.Send (p : Peer) (packet : ControlPacket) : Peer :=
  let b := match packet.MarshalBinary with
    | Except.ok bytes => bytes
    | Except.error _ => []
  { p with conn := p.conn ++ [b] }

/-- The method `(*Peer).NotifyWatchers`. -/
def Peer.NotifyWatchers (p : Peer) (state : PeerStateResponse) : Peer :=
  { p with watchers := p.watchers.map (fun w => w.Notify state) }

/-- The method `(*Peer).ApplyLocalState`. -/
def Peer.ApplyLocalState (p : Peer) (updates : List PeerStateUpdate) : Peer :=
  let old_state := p.localState
  let p1 : Peer := { p with localState := p.localState.Clone updates }
  if old_state.sessionState ≠ p1.localState.sessionState then
    let p2 : Peer :=
      if p1.localState.sessionState = Up then
        { p1 with localState := p1.localState.Clone [setDesiredMinTxInterval p1.Interval] }
      else p1
    p2.NotifyWatchers { Local := p2.GetLocal.ToApi, Remote := p2.GetRemote.ToApi }
  else p1

/-- The method `(*Peer).ApplyRemoteState`. -/
def Peer.ApplyRemoteState (p : Peer) (updates : List PeerStateUpdate) : Peer :=
  { p with remoteState := p.remoteState.Clone updates }

/-- The method `(*Peer).scheduleExpiry`. -/
def Peer.scheduleExpiry (p : Peer) (interval : Nat) : Peer :=
  { p with expiry := interval * Microsecond }

/-- The method `(*Peer).scheduleSend`. -/
def Peer.scheduleSend (p : Peer) (interval : Nat) : Peer :=
  { p with ticker := interval * Microsecond }

/-- The `case <-peer.expiry.C` branch of `(*Peer).handle`. -/
def Peer.handleExpiry (peer : Peer) : Peer :=
  let l := peer.GetLocal
  if l.sessionState = Init ∨ l.sessionState = Up then
    let peer1 := peer.ApplyLocalState
      [setDiagnosticCode ControlDetectionTimeExpired, setSessionState Down]
    peer1.ApplyRemoteState [setRequiredMinRxInterval 1]
  else peer

/-- The local updates `lu` that `handlePacket` collects from the transition table. -/
def localUpdates (l : PeerState) (packet : ControlPacket) : List PeerStateUpdate :=
  if packet.State = AdminDown then
    if l.sessionState ≠ Down then
      [setDiagnosticCode NeighborSignaledSessionDown, setSessionState Down]
    else []
  else if l.sessionState = Down then
    if packet.State = Down then [setDiagnosticCode NoDiagnostic, setSessionState Init]
    else if packet.State = Init then [setDiagnosticCode NoDiagnostic, setSessionState Up]
    else []
  else if l.sessionState = Init then
    if packet.State = Init ∨ packet.State = Up then
      [setDiagnosticCode NoDiagnostic, setSessionState Up]
    else []
  else
    if packet.State = Down then
      [setDiagnosticCode NeighborSignaledSessionDown, setSessionState Down]
    else []

/-- The method `(*Peer).handlePacket`: the session afterwards and the error
returned (`none` is nil). -/
def Peer.handlePacket (peer : Peer) (packet : ControlPacket) : Peer × Option Err :=
  if peer.GetAuthenticationType ≠ packet.GetAuthenticationType then
    (peer, some Err.ErrInvalidAuthenticationType)
  else if packet.GetAuthenticationType ≠ Reserved then
    (peer, some Err.ErrNotImplemented)
  else
    let l := peer.GetLocal
    let r := peer.GetRemote
    let ru : List PeerStateUpdate :=
      [ setSessionState packet.State
      , setDemandMode (decide (packet.Demand = Yes))
      , setDiscriminator packet.MyDiscriminator
      , setRequiredMinRxInterval packet.RequiredMinRxInterval
      , setDetectMultiplier packet.DetectMultiplier ]
    let peer1 : Peer :=
      if peer.PollActive = true ∧ packet.Final = Yes then { peer with PollActive := false }
      else peer
    if l.sessionState = AdminDown then (peer1, some Err.ErrSessionAdminDown)
    else
      let lu := localUpdates l packet
      let l1 := l.Clone lu
      let r1 := r.Clone ru
      let peer2 := peer1.ApplyLocalState lu
      let peer3 := peer2.ApplyRemoteState ru
      let peer4 := if packet.Poll = Yes then peer3.Send (peer3.NewPacket No Yes) else peer3
      let negotiatedRx := max l1.requiredMinRxInterval packet.DesiredMinTxInterval
      if l1.sessionState = Up then
        let detectionTime := (negotiatedRx * r1.detectMultiplier) % 2 ^ 32
        (peer4.scheduleExpiry detectionTime, none)
      else (peer4.scheduleExpiry OFFLINE_TIMEOUT, none)

/-- Where a call of `handlePacket` stands when `peer.ApplyLocalState(lu)`
(peer.go:556) has returned: it has returned early with the given error, or the
local updates are committed and the remote updates are not yet; the session is
given as the other goroutines see it at that point. -/
inductive Progress where
  | returned (peer : Peer) (err : Err)
  | localCommitted (peer : Peer)
  deriving DecidableEq, Repr

/-- The method `(*Peer).handlePacket` up to and including the statement
`peer.ApplyLocalState(lu)` (peer.go:417-556). -/
def Peer.handlePacketBegin (peer : Peer) (packet : ControlPacket) : Progress :=
  if peer.GetAuthenticationType ≠ packet.GetAuthenticationType then
    Progress.returned peer Err.ErrInvalidAuthenticationType
  else if packet.GetAuthenticationType ≠ Reserved then
    Progress.returned peer Err.ErrNotImplemented
  else
    let l := peer.GetLocal
    let peer1 : Peer :=
      if peer.PollActive = true ∧ packet.Final = Yes then { peer with PollActive := false }
      else peer
    if l.sessionState = AdminDown then Progress.returned peer1 Err.ErrSessionAdminDown
    else Progress.localCommitted (peer1.ApplyLocalState (localUpdates l packet))

/-- The method `(*Peer).handlePacket` from the statement
`peer.ApplyRemoteState(ru)` on (peer.go:557-613).  `l` and `r` are the
snapshots the call read on entry, which its local variables `local` and
`remote` are computed from; `peer` is the session as it is when the call goes
on, which `ApplyRemoteState` and `NewPacket` read. -/
def Peer.handlePacketEnd (l r : PeerState) (peer : Peer) (packet : ControlPacket) : Peer :=
  let ru : List PeerStateUpdate :=
    [ setSessionState packet.State
    , setDemandMode (decide (packet.Demand = Yes))
    , setDiscriminator packet.MyDiscriminator
    , setRequiredMinRxInterval packet.RequiredMinRxInterval
    , setDetectMultiplier packet.DetectMultiplier ]
  let l1 := l.Clone (localUpdates l packet)
  let r1 := r.Clone ru
  let peer3 := peer.ApplyRemoteState ru
  let peer4 := if packet.Poll = Yes then peer3.Send (peer3.NewPacket No Yes) else peer3
  let negotiatedRx := max l1.requiredMinRxInterval packet.DesiredMinTxInterval
  if l1.sessionState = Up then
    peer4.scheduleExpiry ((negotiatedRx * r1.detectMultiplier) % 2 ^ 32)
  else peer4.scheduleExpiry OFFLINE_TIMEOUT

/-! ## pkg/server/peer.go: parameter changes and the transmit timer -/

/-- The method `(*Peer).SetDesiredMinTxInterval`; `Run.panic` is the
`panic("Not implemented")` of the delayed-apply branch. -/
def Peer.SetDesiredMinTxInterval (p : Peer) (desiredMinTx : Nat) : Run Peer :=
  let state := p.GetLocal
  if desiredMinTx > state.desiredMinTxInterval ∧ state.sessionState = Up then Run.panic
  else Run.ret (p.ApplyLocalState [setDesiredMinTxInterval desiredMinTx]) none

/-- The `sendInterval` the ticker branch computes from `preSendInterval`, the
value `j` drawn by `rand.Intn(25)` and the local detect multiplier; every
operation is on `uint32`. -/
def sendInterval (preSendInterval j detectMultiplier : Nat) : Nat :=
  let jittered :=
    (preSendInterval + 2 ^ 32 - (preSendInterval * j % 2 ^ 32) / 100) % 2 ^ 32
  if detectMultiplier = 1 then min jittered ((preSendInterval * 90 % 2 ^ 32) / 100)
  else jittered

/-- The `case <-peer.ticker.C` branch of `(*Peer).handle`; `j` is the value
`rand.Intn(25)` returns, so `j < 25`. -/
def Peer.handleTicker (peer : Peer) (j : Nat) : Run Peer :=
  let l := peer.GetLocal
  let r := peer.GetRemote
  let peer1 := if r.requiredMinRxInterval > 0 then peer.Send (peer.NewPacket No No) else peer
  let step : Run (Peer × PeerState) :=
    if l.sessionState ≠ Up then
      match peer1.SetDesiredMinTxInterval 1000000 with
      | Run.panic => Run.panic
      | Run.ret peer2 _ => Run.ret (peer2, l.Clone [setDesiredMinTxInterval 1000000]) none
    else Run.ret (peer1, l) none
  match step with
  | Run.panic => Run.panic
  | Run.ret (peer2, l1) _ =>
    let preSendInterval := max l1.desiredMinTxInterval r.requiredMinRxInterval
    Run.ret (peer2.scheduleSend (sendInterval preSendInterval j l1.detectMultiplier)) none

/-! ## pkg/server/server.go: receive path and dispatch -/

set_option linter.dupNamespace false in
/-- The struct `packet`: source address and decoded control packet. -/
structure packet where
  addr : UDPAddr := {}
  packet : ControlPacket := {}
  deriving DecidableEq, Repr

/-- The server, as far as the receive path and the dispatcher use it.
`Sessions` is the map from discriminator to session, as the list of its
entries in iteration order; `inbound` is the content of the inbound channel,
oldest first. -/
structure BfdServer where
  Sessions : List (Nat × Peer) := []
  inbound : List packet := []
  deriving DecidableEq, Repr

/-- The prefix of an IPv4 address in 16-byte form (`v4InV6Prefix` of package net). -/
def v4InV6Prefix : List Nat := [0, 0, 0, 0, 0, 0, 0, 0, 0, 0, 0xff, 0xff]

/-- The method `net.IP.Equal` of the standard library: equal byte sequences, or
an IPv4 address and the same address in 16-byte form. -/
def IPEqual (ip x : List Nat) : Bool :=
  if ip.length = x.length then decide (ip = x)
  else if ip.length = 4 ∧ x.length = 16 then
    decide (x.take 12 = v4InV6Prefix) && decide (ip = x.drop 12)
  else if ip.length = 16 ∧ x.length = 4 then
    decide (ip.take 12 = v4InV6Prefix) && decide (ip.drop 12 = x)
  else false

/-- Hand the packet to the first session, in iteration order, that `sel`
selects: that session handles the packet in place and its error is the result;
`none` when no session is selected. -/
def dispatch (sel : Nat × Peer → Bool) (p : ControlPacket) :
    List (Nat × Peer) → Option (List (Nat × Peer) × Option Err)
  | [] => none
  | (k, peer) :: rest =>
    if sel (k, peer) then
      some ((k, (peer.handlePacket p).1) :: rest, (peer.handlePacket p).2)
    else
      match dispatch sel p rest with
      | none => none
      | some (rest1, e) => some ((k, peer) :: rest1, e)

/-- The method `(*BfdServer).handlePacket`. -/
def BfdServer.handlePacket (s : BfdServer) (pkt : packet) : BfdServer × Option Err :=
  let p := pkt.packet
  if checkPacket p ≠ none then (s, some Err.ErrInvalidPacket)
  else if p.YourDiscriminator ≠ 0 then
    match dispatch (fun e => decide (e.1 = p.YourDiscriminator)) p s.Sessions with
    | none => (s, some Err.ErrYourDiscriminatorNotFound)
    | some (ss, e) => ({ s with Sessions := ss }, e)
  else
    match dispatch (fun e => IPEqual e.2.Address.IP pkt.addr.IP) p s.Sessions with
    | none => (s, some Err.ErrPeerNotFound)
    | some (ss, e) => ({ s with Sessions := ss }, e)

/-- The method `(*BfdServer).readIncomingPacket`.  `read` is what
`conn.ReadMsgUDP(b, oob)` returned (an error, or the payload size and the source
address); `b` and `oob` are the two buffers after the read. -/
def BfdServer.readIncomingPacket (s : BfdServer) (read : Except Err (Nat × UDPAddr))
    (b oob : List Nat) : Run BfdServer :=
  match read with
  | Except.error err => Run.ret s (some err)
  | Except.ok (n, addr) =>
    match oob[16]? with
    | none => Run.panic
    | some ttl =>
      if ttl ≠ 255 then Run.ret s (some Err.ErrInvalidTTL)
      else
        match ControlPacket.UnmarshalBinary {} (b.take n) with
        | Run.panic => Run.panic
        | Run.ret _ (some err) => Run.ret s (some err)
        | Run.ret pkt none =>
          Run.ret { s with inbound := s.inbound ++ [{ addr := addr, packet := pkt }] } none

/-! ## pkg/server/peer.go: construction, setters, Enable and Disable -/

/-- Nanoseconds per `time.Hour`. -/
def Hour : Nat := 3600 * 1000 * 1000 * 1000

/-- The function `NewPeer`.  `uuid` is the value `uuid.NewV4()` returns and
`address` the `net.IP` passed in (`none` is the nil IP). -/
def NewPeer (uuid : List Nat) (address : Option (List Nat)) (port : Int) : Except Err Peer :=
  match address with
  | none => Except.error Err.ErrInvalidAddress
  | some ip =>
    if port < 1 ∨ port > 65535 then Except.error Err.ErrInvalidPort
    else
      Except.ok
        { uuid := uuid
          Address := { IP := ip, Port := port }
          ticker := 5 * Hour
          expiry := 5 * Hour
          localState :=
            { sessionState := Down, discriminator := 0, desiredMinTxInterval := 1000000,
              requiredMinRxInterval := 0, detectMultiplier := 1 }
          remoteState := { sessionState := Down, requiredMinRxInterval := 1 } }

/-- The method `(*Peer).SetRequiredMinRxInterval`; `Run.panic` is the
`panic("Not implemented")` of the delayed-apply branch. -/
def Peer.SetRequiredMinRxInterval (p : Peer) (requiredMinRx : Nat) : Run Peer :=
  let state := p.GetLocal
  if requiredMinRx < state.requiredMinRxInterval ∧ state.sessionState = Up then Run.panic
  else Run.ret (p.ApplyLocalState [setRequiredMinRxInterval requiredMinRx]) none

/-- The method `(*Peer).SetDetectMultiplier`. -/
def Peer.SetDetectMultiplier (p : Peer) (detectMultiplier : Nat) : Peer :=
  p.ApplyLocalState [setDetectMultiplier detectMultiplier]

/-- The method `(*Peer).Enable`. -/
def Peer.Enable (p : Peer) : Peer :=
  let l := p.GetLocal
  if l.sessionState = AdminDown then p.ApplyLocalState [setSessionState Down] else p

/-- The method `(*Peer).Disable`. -/
def Peer.Disable (p : Peer) : Peer :=
  let l := p.GetLocal
  if l.sessionState ≠ AdminDown then p.ApplyLocalState [setSessionState AdminDown] else p

/-! ## pkg/server/server.go: AddPeer and GetPeerByUuid -/

/-- The constant `BFD_PORT`. -/
def BFD_PORT : Int := 3784

/-- The message `api.Peer` of an AddPeer request; the three numbers are `uint32`. -/
structure ApiPeer where
  Name : List Nat := []
  Address : List Nat := []
  DesiredMinTxInterval : Nat := 0
  RequiredMinRxInterval : Nat := 0
  DetectMultiplier : Nat := 0
  IsMultiHop : Bool := false
  deriving DecidableEq, Repr

/-- What `AddPeer` obtains from outside the package: the two library functions
`net.ParseIP` and `strconv.Atoi`, the values drawn by `rand.Uint32()` and
`rand.Intn(65535-49152)`, the value of `uuid.NewV4()`, and the error of
`dialUDP` (`none` when the socket was opened). -/
structure AddPeerEnv where
  ParseIP : List Nat → Option (List Nat)
  Atoi : List Nat → Except Err Int
  randUint32 : Nat
  randIntn : Nat
  uuid : List Nat
  dialErr : Option Err

/-- The byte of the character `:`. -/
def colon : Nat := 58

/-- The function `strings.Contains(s, ":")`. -/
def containsColon (s : List Nat) : Bool := s.any (fun c => decide (c = colon))

/-- The function `strings.Split(s, ":")`: the pieces between the colons. -/
def splitColon : List Nat → List (List Nat)
  | [] => [[]]
  | c :: rest =>
    if c = colon then [] :: splitColon rest
    else
      match splitColon rest with
      | [] => [[c]]
      | part :: parts => (c :: part) :: parts

/-- The assignment `m[k] = v` on a map given as its entry list: an entry with
the key is replaced, otherwise a new entry is added. -/
def mapInsert (k : Nat) (v : Peer) : List (Nat × Peer) → List (Nat × Peer)
  | [] => [(k, v)]
  | (k1, v1) :: rest => if k1 = k then (k, v) :: rest else (k1, v1) :: mapInsert k v rest

/-- The method `(*BfdServer).AddPeer`: the server afterwards and the result. -/
def BfdServer.AddPeer (s : BfdServer) (env : AddPeerEnv) (api_peer : ApiPeer) :
    BfdServer × Except Err Peer :=
  if api_peer.DetectMultiplier = 0 then (s, Except.error Err.ErrInvalidDetectionMultiplierSupplied)
  else
    let discriminator := env.randUint32
    let sourcePort : Int := 49152 + (env.randIntn : Int)
    let parsed : Except Err (List Nat × Int) :=
      if containsColon api_peer.Address then
        let parts := splitColon api_peer.Address
        match env.Atoi (parts.getD 1 []) with
        | Except.error err => Except.error err
        | Except.ok port => Except.ok (parts.getD 0 [], port)
      else Except.ok (api_peer.Address, BFD_PORT)
    match parsed with
    | Except.error err => (s, Except.error err)
    | Except.ok (address, port) =>
      match NewPeer env.uuid (env.ParseIP address) port with
      | Except.error err => (s, Except.error err)
      | Except.ok peer =>
        let peer1 : Peer :=
          { peer with
            Name := api_peer.Name
            SourcePort := sourcePort
            Interval := api_peer.DesiredMinTxInterval
            localState :=
              { sessionState := Down
                discriminator := discriminator
                desiredMinTxInterval := 1000000
                requiredMinRxInterval := (api_peer.RequiredMinRxInterval * 1000) % 2 ^ 32
                detectMultiplier := api_peer.DetectMultiplier % 256 }
            remoteState := { sessionState := Down, requiredMinRxInterval := 1 } }
        match env.dialErr with
        | some err => (s, Except.error err)
        | none =>
          let peer2 := peer1.scheduleExpiry OFFLINE_TIMEOUT
          let peer3 := peer2.scheduleSend peer2.localState.desiredMinTxInterval
          ({ s with Sessions := mapInsert discriminator peer3 s.Sessions }, Except.ok peer3)

/-- The method `(*BfdServer).GetPeerByUuid`. -/
def BfdServer.GetPeerByUuid (s : BfdServer) (uuid : List Nat) : Except Err Peer :=
  match s.Sessions.find? (fun e => decide (e.2.uuid = uuid)) with
  | some e => Except.ok e.2
  | none => Except.error Err.ErrPeerNotFound

/-! ## pkg/server/server.go and peer.go: DeletePeer, Shutdown, MonitorPeer -/

/-- The method `(*Peer).Watch`: a new watcher is appended to the list. -/
def Peer.Watch (p : Peer) : Peer :=
  { p with watchers := p.watchers ++ [NewWatcher] }

/-- The method `(*Peer).Shutdown`: `close(p.control)`, which panics when the
channel is closed already. -/
def Peer.Shutdown (p : Peer) : Run Peer :=
  if p.control = true then Run.panic else Run.ret { p with control := true } none

/-- The statement `delete(m, k)` on a map given as its entry list. -/
def mapDelete (k : Nat) (m : List (Nat × Peer)) : List (Nat × Peer) :=
  m.filter (fun e => decide (e.1 ≠ k))

/-- The method `(*BfdServer).DeletePeer`.  The receiver part of the result is
the server afterwards together with the session object that was shut down
(`none` when no session was found): the object outlives its registry entry,
its watchers and a running MonitorPeer still hold it. -/
def BfdServer.DeletePeer (s : BfdServer) (uuid : List Nat) : Run (BfdServer × Option Peer) :=
  match s.GetPeerByUuid uuid with
  | Except.error err => Run.ret (s, none) (some err)
  | Except.ok peer =>
    let s1 : BfdServer := { s with Sessions := mapDelete peer.GetLocal.discriminator s.Sessions }
    match peer.Shutdown with
    | Run.panic => Run.panic
    | Run.ret peer1 _ => Run.ret (s1, some peer1) none

/-- One round of the `select` in the loop of `MonitorPeer`, on the watcher the
call registered; `cancelled` tells whether `ctx.Done()` is closed.  The result
is `none` when neither case is ready (the call waits); otherwise the watcher
after the round and whether the method returned: the `ctx.Done()` case returns,
the event case hands the oldest queued event to the callback (on a closed and
drained stream it hands over nil) and loops.  When both cases are ready the
runtime may take either; the `ctx.Done()` case is taken here. -/
def monitorRound (cancelled : Bool) (w : watcher) : Option (watcher × Bool) :=
  if cancelled = true then some (w, true)
  else
    match w.ch with
    | _ :: rest => some ({ w with ch := rest }, false)
    | [] => if w.closed = true then some (w, false) else none

/-- Whether the loop of `MonitorPeer` has returned within the given number of
rounds, when no further event arrives. -/
def monitorLoop (cancelled : Bool) : Nat → watcher → Bool
  | 0, _ => false
  | fuel + 1, w =>
    match monitorRound cancelled w with
    | none => false
    | some (_, true) => true
    | some (w1, false) => monitorLoop cancelled fuel w1

/-! ## Registry invariant, a tick during handlePacket, and the admission rule -/

/-- The registry as AddPeer builds it: the keys are pairwise distinct (it is a
map), so are the uuids (each comes from `uuid.NewV4()`), every session is
stored under its local discriminator, and its control channel is open. -/
def BfdServer.wellFormed (s : BfdServer) : Prop :=
  (s.Sessions.map (fun e => e.1)).Nodup ∧
  (s.Sessions.map (fun e => e.2.uuid)).Nodup ∧
  ∀ e ∈ s.Sessions, e.1 = e.2.localState.discriminator ∧ e.2.control = false

/-- A call of `handlePacket` during which the transmit timer fires once, after
the local updates are committed and before the remote updates are (between
peer.go:556 and peer.go:557).  `handlePacket` runs on the dispatcher goroutine
and the ticker branch on the goroutine of the session; each commit is a mailbox
operation of its own and no lock spans the two.  `j` is the jitter value drawn. -/
def Peer.handlePacketTick (peer : Peer) (packet : ControlPacket) (j : Nat) : Run Peer :=
  match peer.handlePacketBegin packet with
  | Progress.returned p err => Run.ret p (some err)
  | Progress.localCommitted mid =>
    match mid.handleTicker j with
    | Run.panic => Run.panic
    | Run.ret q _ => Run.ret (Peer.handlePacketEnd peer.GetLocal peer.GetRemote q packet) none

/-- The admission rule on the discriminator a packet names: yourDiscriminator
may be zero only in state Down or AdminDown. -/
def admissible (k : ControlPacket) : Prop :=
  k.YourDiscriminator = 0 → k.State = Down ∨ k.State = AdminDown

/-- The admission rule read off a datagram the way `UnmarshalBinary` reads it:
when bytes 8..11, yourDiscriminator, are zero, the state bits of byte 1 say
Down or AdminDown. -/
def admissibleBytes (d : List Nat) : Prop :=
  Uint32 d 8 = 0 →
    int8 ((d.getD 1 0 &&& 0xC0) >>> 6) = Down ∨ int8 ((d.getD 1 0 &&& 0xC0) >>> 6) = AdminDown

/-- A condition on a session: the local state is one of the four states, the
remote discriminator is a nonzero `uint32` whenever the local state is Init or
Up, and every datagram written so far obeys the admission rule. -/
def Peer.sound (p : Peer) : Prop :=
  (p.localState.sessionState = AdminDown ∨ p.localState.sessionState = Down ∨
    p.localState.sessionState = Init ∨ p.localState.sessionState = Up) ∧
  (p.localState.sessionState = Init ∨ p.localState.sessionState = Up →
    p.remoteState.discriminator ≠ 0) ∧
  p.remoteState.discriminator < 2 ^ 32 ∧
  ∀ d ∈ p.conn, admissibleBytes d

/-! ## Well-formedness of packets, and big-endian values -/

/-- The ranges the Go field types of `SimplePasswordHeader` impose: `AuthKeyId`
is an `int8` and `Password` is a string of bytes. -/
def SimplePasswordHeader.wellTyped (h : SimplePasswordHeader) : Prop :=
  -128 ≤ h.AuthKeyId ∧ h.AuthKeyId ≤ 127 ∧ ∀ x ∈ h.Password, x < 256

/-- The ranges the Go field types of `ControlPacket` impose on the unsigned
fields (`uint8`, `uint32`) and on an attached header. -/
def ControlPacket.wellTyped (p : ControlPacket) : Prop :=
  p.DetectMultiplier < 256 ∧ p.MyDiscriminator < 2 ^ 32 ∧ p.YourDiscriminator < 2 ^ 32 ∧
  p.DesiredMinTxInterval < 2 ^ 32 ∧ p.RequiredMinRxInterval < 2 ^ 32 ∧
  p.RequiredMinEchoInterval < 2 ^ 32 ∧
  ∀ h ∈ p.AuthenticationHeader, h.wellTyped

/-- A validly constructed packet: version 1, diagnostic in 0..31, state one of
AdminDown, Down, Init, Up, every flag No or Yes, and either no authentication
header or a SimplePassword header whose password has 1 to 16 bytes. -/
def ControlPacket.valid (p : ControlPacket) : Prop :=
  p.Version = 1 ∧ (0 ≤ p.DiagnosticCode ∧ p.DiagnosticCode ≤ 31) ∧
  (p.State = AdminDown ∨ p.State = Down ∨ p.State = Init ∨ p.State = Up) ∧
  (p.Poll = No ∨ p.Poll = Yes) ∧ (p.Final = No ∨ p.Final = Yes) ∧
  (p.ControlPlaneIndependent = No ∨ p.ControlPlaneIndependent = Yes) ∧
  (p.Demand = No ∨ p.Demand = Yes) ∧ (p.Multipoint = No ∨ p.Multipoint = Yes) ∧
  ∀ h ∈ p.AuthenticationHeader, 1 ≤ h.Password.length ∧ h.Password.length ≤ 16

/-- Every element of the list is a byte. -/
def isBytes (b : List Nat) : Prop := ∀ x ∈ b, x < 256

/-- The number a sequence of bytes denotes, most significant byte first. -/
def beValue (bs : List Nat) : Nat := bs.foldl (fun acc b => acc * 256 + b) 0

/-- The packet `UnmarshalBinary` builds from the first three bytes and the five
32-bit values of a datagram, with the given authentication header. -/
def decodeFixed (x0 x1 x2 my yr tx rx ec : Nat) (a : Option SimplePasswordHeader) :
    ControlPacket :=
  { Version := int8 ((x0 &&& 0xE0) >>> 5)
    DiagnosticCode := int8 (x0 &&& 0x1F)
    State := int8 ((x1 &&& 0xC0) >>> 6)
    Poll := int8 ((x1 >>> 5) &&& 1)
    Final := int8 ((x1 >>> 4) &&& 1)
    ControlPlaneIndependent := int8 ((x1 >>> 3) &&& 1)
    Demand := int8 ((x1 >>> 1) &&& 1)
    Multipoint := int8 ((x1 >>> 0) &&& 1)
    DetectMultiplier := x2
    MyDiscriminator := my
    YourDiscriminator := yr
    DesiredMinTxInterval := tx
    RequiredMinRxInterval := rx
    RequiredMinEchoInterval := ec
    AuthenticationHeader := a }

/-! ## Concrete sessions and packets used as examples -/

/-- A session whose local snapshot is in the given state, in the manner of the
tests of peer_test.go. -/
def examplePeer (st : Int) : Peer :=
  { localState := { sessionState := st, discriminator := 9, detectMultiplier := 1 } }

/-- An unauthenticated packet carrying the given state. -/
def examplePacket (st : Int) : ControlPacket :=
  { Version := 1, State := st, DetectMultiplier := 3, MyDiscriminator := 7 }

/-- An Up packet announcing desiredMinTxInterval 33554432 and detect multiplier 128. -/
def wrapPacket : ControlPacket :=
  { Version := 1, State := Up, DetectMultiplier := 128, MyDiscriminator := 7
    YourDiscriminator := 9, DesiredMinTxInterval := 33554432 }

/-- The valid packet of TestCheckPacketValid. -/
def validPacket : ControlPacket :=
  { Version := 1, DetectMultiplier := 1, MyDiscriminator := 2343, YourDiscriminator := 0
    State := Down }

/-- The 12 bytes of TestControlPacketInvalidPacketLength. -/
def shortBytes : List Nat :=
  [32, 166, 0, 37, 0, 79, 211, 106, 0, 105, 208, 84]

/-- The 32 bytes of TestControlPacketInvalidPacketLength2, whose length field says 37. -/
def mismatchBytes : List Nat :=
  [32, 166, 0, 37, 0, 79, 211, 106, 0, 105, 208, 84, 0, 105, 208, 84, 0, 105, 208, 84,
   0, 105, 208, 84, 0, 105, 208, 84, 0, 105, 208, 84]

/-- A 24-byte datagram with version 1, state Down, the A bit set, detect
multiplier 3, length field 24, myDiscriminator 1 and no trailer. -/
def authNoTrailerBytes : List Nat :=
  [32, 68, 3, 24, 0, 0, 0, 1, 0, 0, 0, 0, 0, 15, 66, 64, 0, 15, 66, 64, 0, 0, 0, 0]

/-- A 25-byte datagram with the A bit set, length field 25, and a one-byte
trailer holding only the authType SimplePassword. -/
def authOneByteTrailerBytes : List Nat :=
  [32, 68, 3, 25, 0, 0, 0, 1, 0, 0, 0, 0, 0, 15, 66, 64, 0, 15, 66, 64, 0, 0, 0, 0, 1]

/-- The packet of TestControlPacketMarshalBinary. -/
def goldenPacket : ControlPacket :=
  { Version := 1, State := Init, Poll := Yes, Demand := Yes, MyDiscriminator := 5231466
    YourDiscriminator := 6934612, DesiredMinTxInterval := 1000000
    RequiredMinRxInterval := 2000000, RequiredMinEchoInterval := 23052 }

/-- The target bytes of TestControlPacketMarshalBinary: the second byte is
`Init<<6 | Yes<<5 | Yes<<1`, that is 0xA2. -/
def goldenBytes : List Nat :=
  [0x20, 0xA2, 0x00, 0x18, 0x00, 0x4F, 0xD3, 0x6A, 0x00, 0x69, 0xD0, 0x54,
   0x00, 0x0F, 0x42, 0x40, 0x00, 0x1E, 0x84, 0x80, 0x00, 0x00, 0x5A, 0x0C]

/-- The 24 bytes the specification states for the same packet: the second byte is 0x62. -/
def specGoldenBytes : List Nat :=
  [0x20, 0x62, 0x00, 0x18, 0x00, 0x4F, 0xD3, 0x6A, 0x00, 0x69, 0xD0, 0x54,
   0x00, 0x0F, 0x42, 0x40, 0x00, 0x1E, 0x84, 0x80, 0x00, 0x00, 0x5A, 0x0C]

/-- The packet of TestControlPacketWithSimplePassword with the password HelloWorld. -/
def passwordPacket : ControlPacket :=
  { goldenPacket with
    AuthenticationHeader :=
      some { AuthKeyId := 5, Password := [72, 101, 108, 108, 111, 87, 111, 114, 108, 100] } }

/-- The target bytes of TestControlPacketWithSimplePassword. -/
def passwordBytes : List Nat :=
  [32, 166, 0, 37, 0, 79, 211, 106, 0, 105, 208, 84, 0, 15, 66, 64, 0, 30, 132, 128,
   0, 0, 90, 12, 1, 13, 5, 72, 101, 108, 108, 111, 87, 111, 114, 108, 100]

/-- The golden datagram followed by one more byte, with the length field set to
25 and the A bit clear. -/
def extraByteBytes : List Nat :=
  [0x20, 0xA2, 0x00, 0x19, 0x00, 0x4F, 0xD3, 0x6A, 0x00, 0x69, 0xD0, 0x54,
   0x00, 0x0F, 0x42, 0x40, 0x00, 0x1E, 0x84, 0x80, 0x00, 0x00, 0x5A, 0x0C, 0x00]

/-- A session with local detect multiplier 1 whose remote snapshot announces
requiredMinRxInterval 47721859 microseconds. -/
def cappedPeer : Peer :=
  { localState := { sessionState := Up, discriminator := 9, desiredMinTxInterval := 1000000
                    detectMultiplier := 1 }
    remoteState := { sessionState := Up, discriminator := 7, requiredMinRxInterval := 47721859
                     detectMultiplier := 3 } }

/-- A session with local detect multiplier 3 and the same remote snapshot. -/
def jitterPeer : Peer :=
  { localState := { sessionState := Up, discriminator := 9, desiredMinTxInterval := 1000000
                    detectMultiplier := 3 }
    remoteState := { sessionState := Up, discriminator := 7, requiredMinRxInterval := 47721859
                     detectMultiplier := 3 } }

/-- The ancillary bytes of TestHandleIncomingPacketsWrongTTL: byte 16 is 254. -/
def wrongTTLOob : List Nat := [0, 0, 0, 0, 0, 0, 0, 0, 0, 0, 0, 0, 0, 0, 0, 0, 254]

/-- The address 127.0.0.1 in 16-byte form, as `net.ParseIP` returns it. -/
def loopback16 : List Nat := [0, 0, 0, 0, 0, 0, 0, 0, 0, 0, 0xff, 0xff, 127, 0, 0, 1]

/-- A server with one session, registered under discriminator 9, whose peer is 127.0.0.1. -/
def exampleServer : BfdServer :=
  { Sessions := [(9, { examplePeer Down with Address := { IP := loopback16, Port := 3784 } })] }

/-- A datagram from 127.0.0.1 (4-byte form) carrying a Down packet with yourDiscriminator 0. -/
def exampleDatagram : packet :=
  { addr := { IP := [127, 0, 0, 1], Port := 15662 }, packet := examplePacket Down }

/-- A Down packet announcing requiredMinRxInterval 1000000. -/
def downPacket : ControlPacket :=
  { Version := 1, State := Down, DetectMultiplier := 3, MyDiscriminator := 7
    YourDiscriminator := 9, DesiredMinTxInterval := 1000000, RequiredMinRxInterval := 1000000 }

/-- The session an Up session becomes when it handles `downPacket`: local state
Down with diagnostic NeighborSignaledSessionDown. -/
def signaledDownPeer : Peer := ((examplePeer Up).handlePacket downPacket).1

/-- An Up session with desiredMinTxInterval 40 and requiredMinRxInterval 150,
in the manner of TestSetDesiredMinTxInterval and TestSetRequiredMinRxInterval. -/
def upPeer : Peer :=
  { localState := { sessionState := Up, discriminator := 9, desiredMinTxInterval := 40
                    requiredMinRxInterval := 150, detectMultiplier := 1 } }

/-- The bytes of TestControlPacketInvalidAuthType: the password datagram with authType 9. -/
def wrongAuthTypeBytes : List Nat :=
  [32, 166, 0, 37, 0, 79, 211, 106, 0, 105, 208, 84, 0, 15, 66, 64, 0, 30, 132, 128,
   0, 0, 90, 12, 9, 13, 5, 72, 101, 108, 108, 111, 87, 111, 114, 108, 100]

/-- The bytes of TestCascadeSimplePasswordError: the password datagram with trailer length 12. -/
def wrongAuthLenBytes : List Nat :=
  [32, 166, 0, 37, 0, 79, 211, 106, 0, 105, 208, 84, 0, 15, 66, 64, 0, 30, 132, 128,
   0, 0, 90, 12, 1, 12, 5, 72, 101, 108, 108, 111, 87, 111, 114, 108, 100]

/-- The string `127.0.0.1`. -/
def loopbackString : List Nat := [49, 50, 55, 46, 48, 46, 48, 46, 49]

/-- The string `127.0.0.1:4000`. -/
def loopbackPortString : List Nat := loopbackString ++ [58, 52, 48, 48, 48]

/-- An example of `net.ParseIP`: it knows the address 127.0.0.1 only. -/
def exampleParseIP (str : List Nat) : Option (List Nat) :=
  if str = loopbackString then some loopback16 else none

/-- An example of `strconv.Atoi`: a nonempty string of decimal digits. -/
def exampleAtoi (str : List Nat) : Except Err Int :=
  if str ≠ [] ∧ str.all (fun c => decide (48 ≤ c ∧ c ≤ 57)) then
    Except.ok ((str.foldl (fun acc c => acc * 10 + (c - 48)) 0 : Nat) : Int)
  else Except.error (Err.External 0)

/-- An environment of AddPeer in which the discriminator drawn is `d`, the uuid
is `u` and the socket opens. -/
def exampleEnv (d : Nat) (u : List Nat) : AddPeerEnv :=
  { ParseIP := exampleParseIP, Atoi := exampleAtoi, randUint32 := d, randIntn := 1000,
    uuid := u, dialErr := none }

/-- The request of TestAddPeerValidAddressWithoutPort, with intervals of 100 ms. -/
def exampleRequest : ApiPeer :=
  { Address := loopbackString, DesiredMinTxInterval := 100, RequiredMinRxInterval := 100
    DetectMultiplier := 1 }

/-- The local snapshot of the session a successful AddPeer returns, if any. -/
def addedLocal (r : BfdServer × Except Err Peer) : Option PeerState :=
  match r.2 with
  | Except.ok peer => some peer.localState
  | Except.error _ => none

/-- Whether GetPeerByUuid finds a session. -/
def found (r : Except Err Peer) : Bool :=
  match r with
  | Except.ok _ => true
  | Except.error _ => false

/-- The packet of the password test with the empty password. -/
def emptyPasswordPacket : ControlPacket :=
  { goldenPacket with AuthenticationHeader := some { AuthKeyId := 5, Password := [] } }

/-- A Down session with configured Interval 300000 and two registered watchers,
the second of which has one event queued. -/
def watchedPeer : Peer :=
  { examplePeer Down with
    Interval := 300000
    watchers := [{}, { ch := [{ Local := { State := Down, Diagnostic := 0 },
                                Remote := { State := Down, Diagnostic := 0 } }] }] }

/-- An unauthenticated Down session with local discriminator 7, the other end
of `examplePeer Down`. -/
def otherPeer : Peer :=
  { localState := { sessionState := Down, discriminator := 7, detectMultiplier := 3 } }

/-- An Up session with detect multiplier 3 whose base transmit interval is 100
microseconds. -/
def hundredPeer : Peer :=
  { localState := { sessionState := Up, discriminator := 9, desiredMinTxInterval := 100
                    detectMultiplier := 3 }
    remoteState := { sessionState := Up, discriminator := 7, requiredMinRxInterval := 100
                     detectMultiplier := 3 } }

/-- The duration the transmit timer is armed with after a run of the ticker
branch, if it returned. -/
def armedTicker (r : Run Peer) : Option Nat :=
  match r with
  | Run.ret p _ => some p.ticker
  | Run.panic => none

/-- A 26-byte datagram with the A bit set, length field 26, and a two-byte
trailer: authType SimplePassword and trailer length 2. -/
def authTwoByteTrailerBytes : List Nat :=
  [32, 68, 3, 26, 0, 0, 0, 1, 0, 0, 0, 0, 0, 15, 66, 64, 0, 15, 66, 64, 0, 0, 0, 0, 1, 2]

/-- Ancillary bytes whose byte 16, the TTL, is 255. -/
def goodTTLOob : List Nat := [0, 0, 0, 0, 0, 0, 0, 0, 0, 0, 0, 0, 0, 0, 0, 0, 255]

/-- The server after two AddPeer calls that draw the discriminators 5 and 6 and
the uuids 1 and 2. -/
def twoPeerServer : BfdServer :=
  ((BfdServer.AddPeer {} (exampleEnv 5 [1]) exampleRequest).1.AddPeer (exampleEnv 6 [2])
    exampleRequest).1

/-- The server after one AddPeer call (discriminator 5, uuid 1) and a
MonitorPeer call that has registered its watcher on the session. -/
def monitoredServer : BfdServer :=
  { Sessions :=
      (BfdServer.AddPeer {} (exampleEnv 5 [1]) exampleRequest).1.Sessions.map
        (fun e => (e.1, e.2.Watch)) }

/-- The session object a DeletePeer call has shut down, if any. -/
def deletedPeer (r : Run (BfdServer × Option Peer)) : Option Peer :=
  match r with
  | Run.ret (_, p) _ => p
  | Run.panic => none

/-- The server a DeletePeer call leaves, if it returned. -/
def serverAfter (r : Run (BfdServer × Option Peer)) : Option BfdServer :=
  match r with
  | Run.ret (s, _) _ => some s
  | Run.panic => none

/-- The session AddPeer returns for the example request when the discriminator
drawn is 5 and the uuid is 1. -/
def addedPeer : Peer :=
  match (BfdServer.AddPeer {} (exampleEnv 5 [1]) exampleRequest).2 with
  | Except.ok peer => peer
  | Except.error _ => {}

/-- The session between the two commits of a `handlePacket` call, if the call
got that far. -/
def commitGap (g : Progress) : Option Peer :=
  match g with
  | Progress.localCommitted mid => some mid
  | Progress.returned _ _ => none

/-- The datagrams written to the socket of the session a run leaves. -/
def written (r : Run Peer) : List (List Nat) :=
  match r with
  | Run.ret p _ => p.conn
  | Run.panic => []

/-- The session a run leaves, if it returned. -/
def sessionAfter (r : Run Peer) : Option Peer :=
  match r with
  | Run.ret p _ => some p
  | Run.panic => none

/-- What `checkPacket` says about the packet a datagram decodes to. -/
def checkDecoded (d : List Nat) : Option (Option Err) :=
  match ControlPacket.UnmarshalBinary {} d with
  | Run.ret k none => some (checkPacket k)
  | _ => none

/-- The datagram of a packet with version 1, state Init, detect multiplier 1,
myDiscriminator 5, yourDiscriminator 0, desiredMinTxInterval 1000000 and
requiredMinRxInterval 100000. -/
def gapBytes : List Nat :=
  [0x20, 0x80, 1, 24, 0, 0, 0, 5, 0, 0, 0, 0, 0, 15, 66, 64, 0, 1, 134, 160, 0, 0, 0, 0]

/-! ## Session state machine: theorems -/

/-- Applying the two updates of a transition to a snapshot. -/
theorem Clone_diag_state (s : PeerState) (d st : Int) :
    s.Clone [setDiagnosticCode d, setSessionState st]
      = { s with diagnosticCode := d, sessionState := st } := by
  cases s
  rfl

/-- Cloning with no update gives the snapshot back. -/
theorem Clone_nil (s : PeerState) : s.Clone [] = s := by
  cases s
  rfl

/-- The local snapshot committed by `ApplyLocalState`. -/
theorem ApplyLocalState_localState (p : Peer) (us : List PeerStateUpdate) :
    (p.ApplyLocalState us).localState =
      if p.localState.sessionState ≠ (p.localState.Clone us).sessionState
          ∧ (p.localState.Clone us).sessionState = Up then
        (p.localState.Clone us).Clone [setDesiredMinTxInterval p.Interval]
      else p.localState.Clone us := by
  unfold Peer.ApplyLocalState Peer.NotifyWatchers
  dsimp only
  split_ifs <;> first | rfl | (exfalso; tauto)

/-- `ApplyLocalState` leaves the remote snapshot alone. -/
theorem ApplyLocalState_remoteState (p : Peer) (us : List PeerStateUpdate) :
    (p.ApplyLocalState us).remoteState = p.remoteState := by
  unfold Peer.ApplyLocalState Peer.NotifyWatchers
  dsimp only
  split_ifs <;> rfl

/-- What `handlePacket` returns and commits locally on the unauthenticated path
when the session is not AdminDown. -/
theorem handlePacket_local (peer : Peer) (pkt : ControlPacket)
    (hA : peer.AuthType = Reserved) (hP : pkt.AuthenticationHeader = none)
    (hne : peer.localState.sessionState ≠ AdminDown) :
    (peer.handlePacket pkt).2 = none ∧
    (peer.handlePacket pkt).1.localState =
      if peer.localState.sessionState
            ≠ (peer.localState.Clone (localUpdates peer.localState pkt)).sessionState
          ∧ (peer.localState.Clone (localUpdates peer.localState pkt)).sessionState = Up then
        (peer.localState.Clone (localUpdates peer.localState pkt)).Clone
          [setDesiredMinTxInterval peer.Interval]
      else peer.localState.Clone (localUpdates peer.localState pkt) := by
  have hauth : peer.GetAuthenticationType = pkt.GetAuthenticationType := by
    simp [Peer.GetAuthenticationType, ControlPacket.GetAuthenticationType, hA, hP]
  have hres : pkt.GetAuthenticationType = Reserved := by
    simp [ControlPacket.GetAuthenticationType, hP]
  unfold Peer.handlePacket
  simp only [hauth, hres, ne_eq, not_true_eq_false, if_false, Peer.GetLocal, Peer.GetRemote, hne]
  constructor
  · split <;> rfl
  · split <;> split <;> split <;>
      simp [Peer.scheduleExpiry, Peer.Send, Peer.ApplyRemoteState, ApplyLocalState_localState]

/-- C2: session establishment.  For an unauthenticated session and an
unauthenticated packet, local Down with packet Down gives Init, local Down with
packet Init gives Up, local Init with packet Init or Up gives Up; in each case
the local diagnostic becomes NoDiagnostic and handlePacket returns nil. -/
theorem handlePacket_establishment (peer : Peer) (pkt : ControlPacket)
    (hA : peer.AuthType = Reserved) (hP : pkt.AuthenticationHeader = none) :
    (peer.localState.sessionState = Down ∧ pkt.State = Down →
      (peer.handlePacket pkt).1.localState.sessionState = Init ∧
      (peer.handlePacket pkt).1.localState.diagnosticCode = NoDiagnostic ∧
      (peer.handlePacket pkt).2 = none) ∧
    (peer.localState.sessionState = Down ∧ pkt.State = Init →
      (peer.handlePacket pkt).1.localState.sessionState = Up ∧
      (peer.handlePacket pkt).1.localState.diagnosticCode = NoDiagnostic ∧
      (peer.handlePacket pkt).2 = none) ∧
    (peer.localState.sessionState = Init ∧ (pkt.State = Init ∨ pkt.State = Up) →
      (peer.handlePacket pkt).1.localState.sessionState = Up ∧
      (peer.handlePacket pkt).1.localState.diagnosticCode = NoDiagnostic ∧
      (peer.handlePacket pkt).2 = none) := by
  refine ⟨?_, ?_, ?_⟩
  · rintro ⟨hl, hp⟩
    have hne : peer.localState.sessionState ≠ AdminDown := by rw [hl]; decide
    obtain ⟨he, hs⟩ := handlePacket_local peer pkt hA hP hne
    have hu : localUpdates peer.localState pkt
        = [setDiagnosticCode NoDiagnostic, setSessionState Init] := by
      simp [localUpdates, hl, hp, Down, AdminDown]
    rw [hs, hu, Clone_diag_state]
    simp [he, hl, Down, Init, Up]
  · rintro ⟨hl, hp⟩
    have hne : peer.localState.sessionState ≠ AdminDown := by rw [hl]; decide
    obtain ⟨he, hs⟩ := handlePacket_local peer pkt hA hP hne
    have hu : localUpdates peer.localState pkt
        = [setDiagnosticCode NoDiagnostic, setSessionState Up] := by
      simp [localUpdates, hl, hp, Down, AdminDown, Init]
    rw [hs, hu, Clone_diag_state]
    simp [he, hl, Down, Init, Up, PeerState.Clone, setDesiredMinTxInterval]
  · rintro ⟨hl, hp⟩
    have hne : peer.localState.sessionState ≠ AdminDown := by rw [hl]; decide
    obtain ⟨he, hs⟩ := handlePacket_local peer pkt hA hP hne
    have hu : localUpdates peer.localState pkt
        = [setDiagnosticCode NoDiagnostic, setSessionState Up] := by
      rcases hp with hp | hp <;> simp [localUpdates, hl, hp, Down, AdminDown, Init, Up]
    rw [hs, hu, Clone_diag_state]
    simp [he, hl, Down, Init, Up, PeerState.Clone, setDesiredMinTxInterval]

/-- Witness of C2: the three establishment cases on concrete sessions. -/
theorem handlePacket_establishment_witness :
    ((examplePeer Down).handlePacket (examplePacket Down)).1.localState.sessionState = Init ∧
    ((examplePeer Down).handlePacket (examplePacket Init)).1.localState.sessionState = Up ∧
    ((examplePeer Init).handlePacket (examplePacket Up)).1.localState.sessionState = Up :=
  ⟨((handlePacket_establishment (examplePeer Down) (examplePacket Down) rfl rfl).1
      ⟨rfl, rfl⟩).1,
   ((handlePacket_establishment (examplePeer Down) (examplePacket Init) rfl rfl).2.1
      ⟨rfl, rfl⟩).1,
   ((handlePacket_establishment (examplePeer Init) (examplePacket Up) rfl rfl).2.2
      ⟨rfl, Or.inr rfl⟩).1⟩

/-- C3: session teardown.  For an unauthenticated session and packet, local Up
with packet Down, and local Init or Up with packet AdminDown, leave the local
state Down with diagnostic NeighborSignaledSessionDown, and handlePacket
returns nil. -/
theorem handlePacket_teardown (peer : Peer) (pkt : ControlPacket)
    (hA : peer.AuthType = Reserved) (hP : pkt.AuthenticationHeader = none)
    (h : (peer.localState.sessionState = Up ∧ pkt.State = Down) ∨
      ((peer.localState.sessionState = Init ∨ peer.localState.sessionState = Up)
        ∧ pkt.State = AdminDown)) :
    (peer.handlePacket pkt).1.localState.sessionState = Down ∧
    (peer.handlePacket pkt).1.localState.diagnosticCode = NeighborSignaledSessionDown ∧
    (peer.handlePacket pkt).2 = none := by
  have hne : peer.localState.sessionState ≠ AdminDown := by
    rcases h with ⟨hl, _⟩ | ⟨hl | hl, _⟩ <;> rw [hl] <;> decide
  obtain ⟨he, hs⟩ := handlePacket_local peer pkt hA hP hne
  have hu : localUpdates peer.localState pkt
      = [setDiagnosticCode NeighborSignaledSessionDown, setSessionState Down] := by
    rcases h with ⟨hl, hp⟩ | ⟨hl | hl, hp⟩ <;>
      simp [localUpdates, hl, hp, Down, AdminDown, Init, Up]
  rw [hs, hu, Clone_diag_state]
  simp [he, Down, Up]

/-- Witness of C3: an Up session receiving a Down packet. -/
theorem handlePacket_teardown_witness :
    ((examplePeer Up).handlePacket (examplePacket Down)).1.localState.sessionState = Down ∧
    ((examplePeer Up).handlePacket (examplePacket Down)).1.localState.diagnosticCode
      = NeighborSignaledSessionDown ∧
    ((examplePeer Up).handlePacket (examplePacket Down)).2 = none :=
  handlePacket_teardown (examplePeer Up) (examplePacket Down) rfl rfl (Or.inl ⟨rfl, rfl⟩)

/-- C4: detection-time expiry.  With local state Init or Up the local diagnostic
becomes ControlDetectionTimeExpired, the local state Down and the remote
requiredMinRxInterval 1, every other field of both snapshots unchanged; with
local state Down or AdminDown both snapshots stay as they are. -/
theorem handleExpiry_spec (peer : Peer) :
    (peer.localState.sessionState = Init ∨ peer.localState.sessionState = Up →
      peer.handleExpiry.localState
        = { peer.localState with
            diagnosticCode := ControlDetectionTimeExpired, sessionState := Down } ∧
      peer.handleExpiry.remoteState = { peer.remoteState with requiredMinRxInterval := 1 }) ∧
    (peer.localState.sessionState = Down ∨ peer.localState.sessionState = AdminDown →
      peer.handleExpiry.localState = peer.localState ∧
      peer.handleExpiry.remoteState = peer.remoteState) := by
  constructor
  · intro h
    have hne : peer.localState.sessionState ≠ Down := by
      rcases h with h | h <;> rw [h] <;> decide
    unfold Peer.handleExpiry
    simp only [Peer.GetLocal, h, if_true]
    refine ⟨?_, ?_⟩
    · show (peer.ApplyLocalState _).localState = _
      rw [ApplyLocalState_localState, Clone_diag_state]
      simp [Down, Up]
    · show (peer.ApplyLocalState _).remoteState.Clone _ = _
      rw [ApplyLocalState_remoteState]
      cases peer.remoteState
      rfl
  · intro h
    have hne : ¬ (peer.localState.sessionState = Init ∨ peer.localState.sessionState = Up) := by
      rcases h with h | h <;> rw [h] <;> decide
    unfold Peer.handleExpiry
    simp only [Peer.GetLocal, hne, if_false, and_self]

/-- Witness of C4: expiry of an Up session and of a Down session. -/
theorem handleExpiry_spec_witness :
    (examplePeer Up).handleExpiry.localState
      = { (examplePeer Up).localState with
          diagnosticCode := ControlDetectionTimeExpired, sessionState := Down } ∧
    (examplePeer Down).handleExpiry.localState = (examplePeer Down).localState :=
  ⟨((handleExpiry_spec (examplePeer Up)).1 (Or.inr rfl)).1,
   ((handleExpiry_spec (examplePeer Down)).2 (Or.inl rfl)).1⟩

/-- C5 (code at the failing input): an Up session with requiredMinRxInterval 0
receives an Up packet announcing desiredMinTxInterval 33554432 microseconds and
detect multiplier 128.  The packet passes the admission checks and is accepted,
the local state stays Up, and the expiry timer is armed for 0, although the
product of the two numbers is 4294967296 microseconds. -/
theorem handlePacket_detection_time_wraps :
    checkPacket wrapPacket = none ∧
    ((examplePeer Up).handlePacket wrapPacket).2 = none ∧
    ((examplePeer Up).handlePacket wrapPacket).1.localState.sessionState = Up ∧
    ((examplePeer Up).handlePacket wrapPacket).1.expiry = 0 ∧
    wrapPacket.DetectMultiplier
        * Nat.max (examplePeer Up).localState.requiredMinRxInterval wrapPacket.DesiredMinTxInterval
      = 4294967296 := by
  refine ⟨by decide, by decide, by decide, by decide, by decide⟩

/-- C10: for a packet whose Multipoint flag is one of the two values of the type
Bool (No or Yes), checkPacket returns nil exactly when version is 1,
detectMultiplier is not 0, multipoint is 0, myDiscriminator is not 0, and
yourDiscriminator is not 0 or the state is Down or AdminDown. -/
theorem checkPacket_accepts_iff (p : ControlPacket)
    (hM : p.Multipoint = No ∨ p.Multipoint = Yes) :
    checkPacket p = none ↔
      p.Version = 1 ∧ p.DetectMultiplier ≠ 0 ∧ p.Multipoint = 0 ∧ p.MyDiscriminator ≠ 0 ∧
        (p.YourDiscriminator ≠ 0 ∨ p.State = Down ∨ p.State = AdminDown) := by
  unfold checkPacket
  rcases hM with hM | hM
  · rw [hM]
    split_ifs <;> simp_all [No, Yes]
    tauto
  · rw [hM]
    split_ifs <;> simp_all [No, Yes]

/-- Witness of C10: the valid packet of the test is accepted. -/
theorem checkPacket_accepts_iff_witness :
    checkPacket validPacket = none ↔
      validPacket.Version = 1 ∧ validPacket.DetectMultiplier ≠ 0 ∧ validPacket.Multipoint = 0 ∧
        validPacket.MyDiscriminator ≠ 0 ∧
        (validPacket.YourDiscriminator ≠ 0 ∨ validPacket.State = Down
          ∨ validPacket.State = AdminDown) :=
  checkPacket_accepts_iff validPacket (Or.inl rfl)

/-! ## Codec: theorems -/

theorem byte_natCast (n : Nat) : byte (n : Int) = n % 256 := by
  unfold byte
  omega

theorem byte_int8 (n : Nat) : byte (int8 n) = n % 256 := by
  unfold byte int8
  split <;> omega

theorem int8_byte (x : Int) (h1 : -128 ≤ x) (h2 : x ≤ 127) : int8 (byte x) = x := by
  unfold byte int8
  split <;> omega

theorem int8_of_lt (n : Nat) (h : n < 128) : int8 n = (n : Int) := by
  unfold int8
  split <;> omega

set_option maxRecDepth 1000000 in
theorem byte0_bits_fin : ∀ d : Fin 32,
    ((32 ||| d.val) &&& 0xE0) >>> 5 = 1 ∧ (32 ||| d.val) &&& 0x1F = d.val ∧ (32 ||| d.val) < 256 := by
  decide

/-- Byte 0 of a valid packet and what the decoder reads from it. -/
theorem byte0_valid (p : ControlPacket) (hv : p.valid) :
    p.byte0 = (p.Version.toNat <<< 5) ||| p.DiagnosticCode.toNat ∧
    (p.byte0 &&& 0xE0) >>> 5 = 1 ∧
    ((p.byte0 &&& 0x1F : Nat) : Int) = p.DiagnosticCode ∧ p.byte0 < 256 := by
  obtain ⟨hver, ⟨hd0, hd1⟩, -⟩ := hv
  have hb : byte p.DiagnosticCode = p.DiagnosticCode.toNat := by
    unfold byte
    omega
  have hlt : p.DiagnosticCode.toNat < 32 := by omega
  have h0 : p.byte0 = 32 ||| p.DiagnosticCode.toNat := by
    unfold ControlPacket.byte0
    rw [hver, hb]
    rfl
  obtain ⟨f1, f2, f3⟩ := byte0_bits_fin ⟨p.DiagnosticCode.toNat, hlt⟩
  simp only at f1 f2 f3
  refine ⟨?_, ?_, ?_, ?_⟩
  · rw [h0, hver]
    rfl
  · rw [h0]
    exact f1
  · rw [h0, f2]
    omega
  · rw [h0]
    exact f3

/-- Byte 1 of a valid packet (before the A bit) and what the decoder reads from it,
also after the A bit has been set. -/
theorem byte1_valid (p : ControlPacket) (hv : p.valid) :
    (p.byte1 = (p.State.toNat <<< 6) ||| (p.Poll.toNat <<< 5) ||| (p.Final.toNat <<< 4)
        ||| (p.ControlPlaneIndependent.toNat <<< 3) ||| (0 <<< 2) ||| (p.Demand.toNat <<< 1)
        ||| p.Multipoint.toNat ∧
      p.byte1 ||| ((byte Yes <<< 2) % 256)
        = (p.State.toNat <<< 6) ||| (p.Poll.toNat <<< 5) ||| (p.Final.toNat <<< 4)
        ||| (p.ControlPlaneIndependent.toNat <<< 3) ||| (1 <<< 2) ||| (p.Demand.toNat <<< 1)
        ||| p.Multipoint.toNat) ∧
    (∀ b, b = p.byte1 ∨ b = p.byte1 ||| ((byte Yes <<< 2) % 256) →
      int8 ((b &&& 0xC0) >>> 6) = p.State ∧ int8 ((b >>> 5) &&& 1) = p.Poll ∧
      int8 ((b >>> 4) &&& 1) = p.Final ∧ int8 ((b >>> 3) &&& 1) = p.ControlPlaneIndependent ∧
      int8 ((b >>> 1) &&& 1) = p.Demand ∧ int8 ((b >>> 0) &&& 1) = p.Multipoint ∧ b < 256) ∧
    (p.byte1 >>> 2) &&& 1 = 0 ∧ ((p.byte1 ||| ((byte Yes <<< 2) % 256)) >>> 2) &&& 1 = 1 := by
  obtain ⟨-, -, hs, hP, hF, hC, hD, hM, -⟩ := hv
  unfold ControlPacket.byte1
  rcases hs with hs | hs | hs | hs <;> rcases hP with hP | hP <;> rcases hF with hF | hF <;>
    rcases hC with hC | hC <;> rcases hD with hD | hD <;> rcases hM with hM | hM <;>
    rw [hs, hP, hF, hC, hD, hM] <;>
    refine ⟨by decide, ?_, by decide, by decide⟩ <;>
    rintro b (rfl | rfl) <;> decide


/-- C6: UnmarshalBinary returns ErrInvalidPacketLength, leaving the receiver as
it was, when the input has fewer than 24 bytes, and when it has at least 24
bytes but its size differs from the length field (byte 3). -/
theorem UnmarshalBinary_invalid_length (c : ControlPacket) (b : List Nat)
    (h : b.length < 24 ∨ (24 ≤ b.length ∧ b[3]? ≠ some b.length)) :
    c.UnmarshalBinary b = Run.ret c (some Err.ErrInvalidPacketLength) := by
  unfold ControlPacket.UnmarshalBinary
  rcases h with h | ⟨h24, h3⟩
  · simp [MINIMUM_SIZE, h]
  · have hlt : ¬ b.length < MINIMUM_SIZE := by simp [MINIMUM_SIZE]; omega
    have h3lt : 3 < b.length := by omega
    have hne : b.length ≠ b.getD 3 0 := by
      intro heq
      apply h3
      rw [List.getD_eq_getElem?_getD, List.getElem?_eq_getElem h3lt] at heq
      rw [List.getElem?_eq_getElem h3lt]
      simp at heq
      simp [heq]
    simp only [hlt, if_false]
    rw [if_pos hne]

/-- Witness of C6: the two datagrams of the tests. -/
theorem UnmarshalBinary_invalid_length_witness :
    ControlPacket.UnmarshalBinary {} shortBytes = Run.ret {} (some Err.ErrInvalidPacketLength) ∧
    ControlPacket.UnmarshalBinary {} mismatchBytes
      = Run.ret {} (some Err.ErrInvalidPacketLength) :=
  ⟨UnmarshalBinary_invalid_length {} shortBytes (Or.inl (by decide)),
   UnmarshalBinary_invalid_length {} mismatchBytes (Or.inr ⟨by decide, by decide⟩)⟩

/-- C7 (code at the failing input): a 24-byte datagram whose A bit is set and
whose length field is 24, and a 25-byte datagram whose A bit is set, whose
length field is 25 and whose authType byte is SimplePassword.  Both pass the
two length checks; UnmarshalBinary then indexes past the end of its input and
panics instead of returning an error. -/
theorem UnmarshalBinary_auth_bit_short_panics :
    authNoTrailerBytes.length = 24 ∧
    authNoTrailerBytes[3]? = some 24 ∧
    (authNoTrailerBytes.getD 1 0 >>> 2) &&& 1 = 1 ∧
    ControlPacket.UnmarshalBinary {} authNoTrailerBytes = Run.panic ∧
    authOneByteTrailerBytes.length = 25 ∧
    authOneByteTrailerBytes[3]? = some 25 ∧
    (authOneByteTrailerBytes.getD 1 0 >>> 2) &&& 1 = 1 ∧
    ControlPacket.UnmarshalBinary {} authOneByteTrailerBytes = Run.panic := by
  refine ⟨by decide, by decide, by decide, by decide, by decide, by decide, by decide, by decide⟩

/-- The four bytes written for a 32-bit value denote it, most significant first. -/
theorem PutUint32_spec (v : Nat) (h : v < 2 ^ 32) :
    beValue (PutUint32 v) = v ∧ isBytes (PutUint32 v) := by
  constructor
  · simp only [beValue, PutUint32, List.foldl]
    omega
  · intro x hx
    simp only [PutUint32, List.mem_cons, List.mem_singleton, List.not_mem_nil, or_false] at hx
    rcases hx with rfl | rfl | rfl | rfl <;> omega

/-- The header has 24 bytes, laid out as four single bytes and five 32-bit values. -/
theorem header_layout (c : ControlPacket) (b1 b3 : Nat) (t : List Nat) :
    (c.header b1 b3 ++ t).length = 24 + t.length ∧
    (c.header b1 b3 ++ t)[0]? = some c.byte0 ∧
    (c.header b1 b3 ++ t)[1]? = some b1 ∧
    (c.header b1 b3 ++ t)[2]? = some (c.DetectMultiplier % 256) ∧
    (c.header b1 b3 ++ t)[3]? = some b3 ∧
    ((c.header b1 b3 ++ t).drop 4).take 4 = PutUint32 c.MyDiscriminator ∧
    ((c.header b1 b3 ++ t).drop 8).take 4 = PutUint32 c.YourDiscriminator ∧
    ((c.header b1 b3 ++ t).drop 12).take 4 = PutUint32 c.DesiredMinTxInterval ∧
    ((c.header b1 b3 ++ t).drop 16).take 4 = PutUint32 c.RequiredMinRxInterval ∧
    ((c.header b1 b3 ++ t).drop 20).take 4 = PutUint32 c.RequiredMinEchoInterval ∧
    (c.header b1 b3 ++ t).drop 24 = t := by
  simp [ControlPacket.header, PutUint32]
  omega

/-- What `MarshalBinary` returns for a valid packet. -/
theorem MarshalBinary_valid (p : ControlPacket) (hv : p.valid) :
    (p.AuthenticationHeader = none ∧ p.MarshalBinary = Except.ok (p.header p.byte1 24 ++ [])) ∨
    (∃ h, p.AuthenticationHeader = some h ∧ 1 ≤ h.Password.length ∧ h.Password.length ≤ 16 ∧
      p.MarshalBinary = Except.ok
        (p.header (p.byte1 ||| ((byte Yes <<< 2) % 256)) (24 + (3 + h.Password.length))
          ++ ([1, 3 + h.Password.length, byte h.AuthKeyId] ++ h.Password))) := by
  obtain ⟨-, -, -, -, -, -, -, -, hh⟩ := hv
  cases hA : p.AuthenticationHeader with
  | none =>
    left
    refine ⟨rfl, ?_⟩
    unfold ControlPacket.MarshalBinary
    rw [hA]
    simp
  | some h =>
    right
    obtain ⟨h1, h16⟩ := hh h (by rw [hA]; exact rfl)
    refine ⟨h, rfl, h1, h16, ?_⟩
    have hm : h.MarshalBinary
        = Except.ok ([1, 3 + h.Password.length, byte h.AuthKeyId] ++ h.Password) := by
      unfold SimplePasswordHeader.MarshalBinary
      have hnot : ¬ (h.Password.length < 1 ∨ h.Password.length > 16) := by omega
      rw [if_neg hnot]
      have e1 : (3 + h.Password.length) % 256 = 3 + h.Password.length := by omega
      rw [e1]
      rfl
    unfold ControlPacket.MarshalBinary
    rw [hA]
    simp only [hm]
    have e2 : (24 + ([1, 3 + h.Password.length, byte h.AuthKeyId] ++ h.Password).length) % 256
        = 24 + (3 + h.Password.length) := by
      simp
      omega
    rw [e2]

/-- The counterexample to C9 as stated: the golden packet does not encode to
the 24 bytes the specification states (second byte 0x62); it encodes to the
bytes of the test (second byte 0xA2). -/
theorem golden_not_spec_bytes :
    goldenPacket.MarshalBinary ≠ Except.ok specGoldenBytes ∧
    goldenPacket.MarshalBinary = Except.ok goldenBytes := by
  constructor
  · intro h
    have h2 : goldenPacket.MarshalBinary = Except.ok goldenBytes := by rfl
    rw [h2] at h
    simp [goldenBytes, specGoldenBytes] at h
  · rfl

/-- C9 (amended): wire layout of MarshalBinary.  For every valid packet that
encodes to `out`: byte 0 is version<<5 | diagnostic; byte 1 is
state<<6 | Poll<<5 | Final<<4 | ControlPlaneIndependent<<3 | A<<2 | Demand<<1 |
Multipoint with A = 1 exactly when a header is attached; byte 2 is the detect
multiplier; byte 3 is the number of bytes produced, 24 without a trailer; bytes
4..23 are the five 32-bit fields, most significant byte first; and the golden
packet encodes to the bytes of the test, whose second byte is 0xA2. -/
theorem MarshalBinary_layout (p : ControlPacket) (out : List Nat)
    (hw : p.wellTyped) (hv : p.valid) (h : p.MarshalBinary = Except.ok out) :
    out[0]? = some ((p.Version.toNat <<< 5) ||| p.DiagnosticCode.toNat) ∧
    out[1]? = some ((p.State.toNat <<< 6) ||| (p.Poll.toNat <<< 5) ||| (p.Final.toNat <<< 4)
      ||| (p.ControlPlaneIndependent.toNat <<< 3)
      ||| ((if p.AuthenticationHeader.isSome then 1 else 0) <<< 2)
      ||| (p.Demand.toNat <<< 1) ||| p.Multipoint.toNat) ∧
    out[2]? = some p.DetectMultiplier ∧
    out[3]? = some out.length ∧
    (p.AuthenticationHeader = none → out.length = 24) ∧
    (isBytes ((out.drop 4).take 4) ∧ beValue ((out.drop 4).take 4) = p.MyDiscriminator) ∧
    (isBytes ((out.drop 8).take 4) ∧ beValue ((out.drop 8).take 4) = p.YourDiscriminator) ∧
    (isBytes ((out.drop 12).take 4)
      ∧ beValue ((out.drop 12).take 4) = p.DesiredMinTxInterval) ∧
    (isBytes ((out.drop 16).take 4)
      ∧ beValue ((out.drop 16).take 4) = p.RequiredMinRxInterval) ∧
    (isBytes ((out.drop 20).take 4)
      ∧ beValue ((out.drop 20).take 4) = p.RequiredMinEchoInterval) ∧
    goldenPacket.MarshalBinary = Except.ok goldenBytes := by
  obtain ⟨hdm, hmy, hyr, htx, hrx, hec, -⟩ := hw
  obtain ⟨hb0, -⟩ := byte0_valid p hv
  obtain ⟨⟨hb1, hb1A⟩, -⟩ := byte1_valid p hv
  have hdm' : p.DetectMultiplier % 256 = p.DetectMultiplier := Nat.mod_eq_of_lt hdm
  have u1 := PutUint32_spec _ hmy
  have u2 := PutUint32_spec _ hyr
  have u3 := PutUint32_spec _ htx
  have u4 := PutUint32_spec _ hrx
  have u5 := PutUint32_spec _ hec
  rcases MarshalBinary_valid p hv with ⟨hn, hm⟩ | ⟨hh, hs, -, -, hm⟩
  · rw [hm] at h
    injection h with h
    subst h
    obtain ⟨l, e0, e1, e2, e3, d1, d2, d3, d4, d5, -⟩ := header_layout p p.byte1 24 []
    rw [e0, e1, e2, e3, d1, d2, d3, d4, d5, l, hb0, hb1, hdm', hn]
    exact ⟨rfl, rfl, rfl, rfl, fun _ => rfl, ⟨u1.2, u1.1⟩, ⟨u2.2, u2.1⟩, ⟨u3.2, u3.1⟩,
      ⟨u4.2, u4.1⟩, ⟨u5.2, u5.1⟩, rfl⟩
  · rw [hm] at h
    injection h with h
    subst h
    obtain ⟨l, e0, e1, e2, e3, d1, d2, d3, d4, d5, -⟩ :=
      header_layout p (p.byte1 ||| ((byte Yes <<< 2) % 256)) (24 + (3 + hh.Password.length))
        ([1, 3 + hh.Password.length, byte hh.AuthKeyId] ++ hh.Password)
    rw [e0, e1, e2, e3, d1, d2, d3, d4, d5, l, hb0, hb1A, hdm', hs]
    refine ⟨rfl, rfl, rfl, ?_, (fun hc => by cases hc), ⟨u1.2, u1.1⟩, ⟨u2.2, u2.1⟩, ⟨u3.2, u3.1⟩,
      ⟨u4.2, u4.1⟩, ⟨u5.2, u5.1⟩, rfl⟩
    simp
    omega

/-- Witness of C9: the packet of the password test, which encodes to 37 bytes. -/
theorem MarshalBinary_layout_witness :
    passwordBytes[3]? = some passwordBytes.length ∧
    passwordBytes[1]? = some ((Init.toNat <<< 6) ||| (Yes.toNat <<< 5) ||| (No.toNat <<< 4)
      ||| (No.toNat <<< 3) ||| (1 <<< 2) ||| (Yes.toNat <<< 1) ||| No.toNat) :=
  ⟨(MarshalBinary_layout passwordPacket passwordBytes
      (by simp [ControlPacket.wellTyped, SimplePasswordHeader.wellTyped, passwordPacket,
        goldenPacket])
      (by simp [ControlPacket.valid, passwordPacket, goldenPacket, Init, Yes, No, Up, Down,
        AdminDown])
      rfl).2.2.2.1,
   (MarshalBinary_layout passwordPacket passwordBytes
      (by simp [ControlPacket.wellTyped, SimplePasswordHeader.wellTyped, passwordPacket,
        goldenPacket])
      (by simp [ControlPacket.valid, passwordPacket, goldenPacket, Init, Yes, No, Up, Down,
        AdminDown])
      rfl).2.1⟩

/-- The 32-bit value read back at the offset where it was written. -/
theorem Uint32_header (c : ControlPacket) (b1 b3 : Nat) (t : List Nat)
    (hw : c.wellTyped) :
    Uint32 (c.header b1 b3 ++ t) 4 = c.MyDiscriminator ∧
    Uint32 (c.header b1 b3 ++ t) 8 = c.YourDiscriminator ∧
    Uint32 (c.header b1 b3 ++ t) 12 = c.DesiredMinTxInterval ∧
    Uint32 (c.header b1 b3 ++ t) 16 = c.RequiredMinRxInterval ∧
    Uint32 (c.header b1 b3 ++ t) 20 = c.RequiredMinEchoInterval := by
  obtain ⟨-, hmy, hyr, htx, hrx, hec, -⟩ := hw
  simp only [Uint32, ControlPacket.header, PutUint32, List.cons_append, List.nil_append,
    List.getD_cons_succ, List.getD_cons_zero]
  refine ⟨?_, ?_, ?_, ?_, ?_⟩ <;> omega

/-- Decoding the bytes of a valid packet's header followed by a trailer `t`,
when byte 3 holds the total size: the fixed fields are those of the packet, and
the trailer is looked at exactly when the A bit of byte 1 is set. -/
theorem UnmarshalBinary_header (p : ControlPacket) (hw : p.wellTyped) (hv : p.valid)
    (b1 : Nat) (hb1 : b1 = p.byte1 ∨ b1 = p.byte1 ||| ((byte Yes <<< 2) % 256))
    (t : List Nat) :
    ControlPacket.UnmarshalBinary {} (p.header b1 (24 + t.length) ++ t) =
      if (b1 >>> 2) &&& 1 = 1 then
        match t[0]? with
        | none => Run.panic
        | some ty =>
          if int8 ty = SimplePassword then
            match SimplePasswordHeader.UnmarshalBinary {} t with
            | Run.panic => Run.panic
            | Run.ret _ (some e) => Run.ret { p with AuthenticationHeader := none } (some e)
            | Run.ret pw none => Run.ret { p with AuthenticationHeader := some pw } none
          else
            Run.ret { p with AuthenticationHeader := none }
              (some Err.ErrInvalidAuthenticationType)
      else Run.ret { p with AuthenticationHeader := none } none := by
  obtain ⟨-, h01, h0d, h0lt⟩ := byte0_valid p hv
  obtain ⟨-, hfl, -⟩ := byte1_valid p hv
  obtain ⟨f1, f2, f3, f4, f5, f6, -⟩ := hfl b1 hb1
  obtain ⟨u1, u2, u3, u4, u5⟩ := Uint32_header p b1 (24 + t.length) t hw
  obtain ⟨l, e0, e1, e2, e3, -, -, -, -, -, dr⟩ := header_layout p b1 (24 + t.length) t
  have hdm : p.DetectMultiplier % 256 = p.DetectMultiplier := Nat.mod_eq_of_lt hw.1
  have g0 : (p.header b1 (24 + t.length) ++ t).getD 0 0 = p.byte0 := by
    rw [List.getD_eq_getElem?_getD, e0]; rfl
  have g1 : (p.header b1 (24 + t.length) ++ t).getD 1 0 = b1 := by
    rw [List.getD_eq_getElem?_getD, e1]; rfl
  have g2 : (p.header b1 (24 + t.length) ++ t).getD 2 0 = p.DetectMultiplier := by
    rw [List.getD_eq_getElem?_getD, e2, hdm]; rfl
  have g3 : (p.header b1 (24 + t.length) ++ t).getD 3 0 = 24 + t.length := by
    rw [List.getD_eq_getElem?_getD, e3]; rfl
  have g24 : (p.header b1 (24 + t.length) ++ t)[24]? = t[0]? := by
    simp [ControlPacket.header, PutUint32]
  have hver : int8 ((p.byte0 &&& 0xE0) >>> 5) = p.Version := by
    rw [h01, hv.1]; rfl
  have hdiag : int8 (p.byte0 &&& 0x1F) = p.DiagnosticCode := by
    rw [← h0d]
    apply int8_of_lt
    have := hv.2.1.2
    omega
  unfold ControlPacket.UnmarshalBinary
  have hlen : ¬ (p.header b1 (24 + t.length) ++ t).length < MINIMUM_SIZE := by
    rw [l]; simp [MINIMUM_SIZE]
  rw [if_neg hlen]
  simp only [g0, g1, g2, g3, g24, u1, u2, u3, u4, u5, l, dr, ne_eq, not_true_eq_false,
    if_false, hver, hdiag, f1, f2, f3, f4, f5, f6]

/-- The trailer written for a SimplePassword header decodes to that header. -/
theorem SimplePassword_roundtrip (h : SimplePasswordHeader) (hw : h.wellTyped) :
    SimplePasswordHeader.UnmarshalBinary {}
        ([1, 3 + h.Password.length, byte h.AuthKeyId] ++ h.Password)
      = Run.ret h none := by
  obtain ⟨k1, k2, -⟩ := hw
  have hk : int8 (byte h.AuthKeyId) = h.AuthKeyId := int8_byte _ k1 k2
  unfold SimplePasswordHeader.UnmarshalBinary
  have h1 : int8 1 = SimplePassword := by decide
  simp [h1, hk]
  omega

/-- C1: for every validly constructed packet (version 1, diagnostic in 0..31,
state one of the four session states, every flag 0 or 1, no header or a
SimplePassword header with a password of 1 to 16 bytes), MarshalBinary
succeeds, and UnmarshalBinary of its output into an empty packet succeeds and
yields the packet itself, key id and password bytes included. -/
theorem Unmarshal_Marshal_roundtrip (p : ControlPacket) (hw : p.wellTyped) (hv : p.valid) :
    ∃ out, p.MarshalBinary = Except.ok out ∧
      ControlPacket.UnmarshalBinary {} out = Run.ret p none := by
  obtain ⟨-, -, hA0, hA1⟩ := byte1_valid p hv
  rcases MarshalBinary_valid p hv with ⟨hn, hm⟩ | ⟨h, hs, h1, h16, hm⟩
  · refine ⟨_, hm, ?_⟩
    have hd := UnmarshalBinary_header p hw hv p.byte1 (Or.inl rfl) []
    simp only [List.length_nil, Nat.add_zero] at hd
    rw [hd]
    have hne : ¬ ((p.byte1 >>> 2) &&& 1 = 1) := by rw [hA0]; decide
    rw [if_neg hne, ← hn]
  · refine ⟨_, hm, ?_⟩
    have hwh : h.wellTyped := hw.2.2.2.2.2.2 h (by rw [hs]; exact rfl)
    have hd := UnmarshalBinary_header p hw hv _ (Or.inr rfl)
      ([1, 3 + h.Password.length, byte h.AuthKeyId] ++ h.Password)
    have hl : ([1, 3 + h.Password.length, byte h.AuthKeyId] ++ h.Password).length
        = 3 + h.Password.length := by
      simp
      omega
    rw [hl] at hd
    rw [hd, if_pos hA1, SimplePassword_roundtrip h hwh]
    have h1' : int8 1 = SimplePassword := by decide
    simp [h1', ← hs]

/-- Witness of C1: the packet of the password test decodes from its encoding. -/
theorem Unmarshal_Marshal_roundtrip_witness :
    ∃ out, passwordPacket.MarshalBinary = Except.ok out ∧
      ControlPacket.UnmarshalBinary {} out = Run.ret passwordPacket none :=
  Unmarshal_Marshal_roundtrip passwordPacket
    (by simp [ControlPacket.wellTyped, SimplePasswordHeader.wellTyped, passwordPacket,
      goldenPacket])
    (by simp [ControlPacket.valid, passwordPacket, goldenPacket, Init, Yes, No, Up, Down,
      AdminDown])

/-- A list with more than `n` elements is a cons whose tail has at least `n` elements. -/
theorem exists_cons_of_succ_le (b : List Nat) (n : Nat) (h : n + 1 ≤ b.length) :
    ∃ x t, b = x :: t ∧ n ≤ t.length := by
  cases b with
  | nil => simp at h
  | cons x t => exact ⟨x, t, rfl, by simpa using h⟩

/-- A list with at least 24 elements starts with 24 elements. -/
theorem exists_header_of_length (b : List Nat) (h : 24 ≤ b.length) :
    ∃ x0 x1 x2 x3 x4 x5 x6 x7 x8 x9 x10 x11 x12 x13 x14 x15 x16 x17 x18 x19 x20 x21 x22 x23 t,
      b = x0 :: x1 :: x2 :: x3 :: x4 :: x5 :: x6 :: x7 :: x8 :: x9 :: x10 :: x11 ::
        x12 :: x13 :: x14 :: x15 :: x16 :: x17 :: x18 :: x19 :: x20 :: x21 :: x22 :: x23 :: t := by
  obtain ⟨x0, t0, rfl, h0⟩ := exists_cons_of_succ_le b 23 h
  obtain ⟨x1, t1, rfl, h1⟩ := exists_cons_of_succ_le t0 22 h0
  obtain ⟨x2, t2, rfl, h2⟩ := exists_cons_of_succ_le t1 21 h1
  obtain ⟨x3, t3, rfl, h3⟩ := exists_cons_of_succ_le t2 20 h2
  obtain ⟨x4, t4, rfl, h4⟩ := exists_cons_of_succ_le t3 19 h3
  obtain ⟨x5, t5, rfl, h5⟩ := exists_cons_of_succ_le t4 18 h4
  obtain ⟨x6, t6, rfl, h6⟩ := exists_cons_of_succ_le t5 17 h5
  obtain ⟨x7, t7, rfl, h7⟩ := exists_cons_of_succ_le t6 16 h6
  obtain ⟨x8, t8, rfl, h8⟩ := exists_cons_of_succ_le t7 15 h7
  obtain ⟨x9, t9, rfl, h9⟩ := exists_cons_of_succ_le t8 14 h8
  obtain ⟨x10, t10, rfl, h10⟩ := exists_cons_of_succ_le t9 13 h9
  obtain ⟨x11, t11, rfl, h11⟩ := exists_cons_of_succ_le t10 12 h10
  obtain ⟨x12, t12, rfl, h12⟩ := exists_cons_of_succ_le t11 11 h11
  obtain ⟨x13, t13, rfl, h13⟩ := exists_cons_of_succ_le t12 10 h12
  obtain ⟨x14, t14, rfl, h14⟩ := exists_cons_of_succ_le t13 9 h13
  obtain ⟨x15, t15, rfl, h15⟩ := exists_cons_of_succ_le t14 8 h14
  obtain ⟨x16, t16, rfl, h16⟩ := exists_cons_of_succ_le t15 7 h15
  obtain ⟨x17, t17, rfl, h17⟩ := exists_cons_of_succ_le t16 6 h16
  obtain ⟨x18, t18, rfl, h18⟩ := exists_cons_of_succ_le t17 5 h17
  obtain ⟨x19, t19, rfl, h19⟩ := exists_cons_of_succ_le t18 4 h18
  obtain ⟨x20, t20, rfl, h20⟩ := exists_cons_of_succ_le t19 3 h19
  obtain ⟨x21, t21, rfl, h21⟩ := exists_cons_of_succ_le t20 2 h20
  obtain ⟨x22, t22, rfl, h22⟩ := exists_cons_of_succ_le t21 1 h21
  obtain ⟨x23, t23, rfl, h23⟩ := exists_cons_of_succ_le t22 0 h22
  exact ⟨x0, x1, x2, x3, x4, x5, x6, x7, x8, x9, x10, x11, x12, x13, x14, x15, x16, x17, x18, x19, x20, x21, x22, x23, t23, rfl⟩

set_option maxRecDepth 1000000 in
theorem byte0_reencode_fin : ∀ x : Fin 256,
    (((((x.val &&& 0xE0) >>> 5) % 256) <<< 5) % 256) ||| ((x.val &&& 0x1F) % 256) = x.val := by
  decide

set_option maxRecDepth 1000000 in
theorem byte1_reencode_fin : ∀ x : Fin 256,
    (if (x.val >>> 2) &&& 1 = 1 then
      ((((((x.val &&& 0xC0) >>> 6) % 256) <<< 6) % 256) ||| (((((x.val >>> 5) &&& 1) % 256) <<< 5) % 256)
        ||| (((((x.val >>> 4) &&& 1) % 256) <<< 4) % 256)
        ||| (((((x.val >>> 3) &&& 1) % 256) <<< 3) % 256)
        ||| (((((x.val >>> 1) &&& 1) % 256) <<< 1) % 256) ||| (((x.val >>> 0) &&& 1) % 256))
        ||| 4
    else
      (((((x.val &&& 0xC0) >>> 6) % 256) <<< 6) % 256) ||| (((((x.val >>> 5) &&& 1) % 256) <<< 5) % 256)
        ||| (((((x.val >>> 4) &&& 1) % 256) <<< 4) % 256)
        ||| (((((x.val >>> 3) &&& 1) % 256) <<< 3) % 256)
        ||| (((((x.val >>> 1) &&& 1) % 256) <<< 1) % 256) ||| (((x.val >>> 0) &&& 1) % 256))
      = x.val := by
  decide

/-- Writing the 32-bit value of four bytes gives the four bytes back. -/
theorem PutUint32_of_bytes (a b c d : Nat) (ha : a < 256) (hb : b < 256) (hc : c < 256)
    (hd : d < 256) :
    PutUint32 (a * 2 ^ 24 + b * 2 ^ 16 + c * 2 ^ 8 + d) = [a, b, c, d] := by
  unfold PutUint32
  have e1 : (a * 2 ^ 24 + b * 2 ^ 16 + c * 2 ^ 8 + d) / 2 ^ 24 % 256 = a := by omega
  have e2 : (a * 2 ^ 24 + b * 2 ^ 16 + c * 2 ^ 8 + d) / 2 ^ 16 % 256 = b := by omega
  have e3 : (a * 2 ^ 24 + b * 2 ^ 16 + c * 2 ^ 8 + d) / 2 ^ 8 % 256 = c := by omega
  have e4 : (a * 2 ^ 24 + b * 2 ^ 16 + c * 2 ^ 8 + d) % 256 = d := by omega
  rw [e1, e2, e3, e4]

/-- `UnmarshalBinary` on a datagram given by its first 24 bytes and the rest. -/
theorem UnmarshalBinary_cons (x0 x1 x2 x3 x4 x5 x6 x7 x8 x9 x10 x11 x12 x13 x14 x15 x16 x17 x18 x19 x20 x21 x22 x23 : Nat) (t : List Nat) :
    ControlPacket.UnmarshalBinary {}
        (x0 :: x1 :: x2 :: x3 :: x4 :: x5 :: x6 :: x7 :: x8 :: x9 :: x10 :: x11 ::
          x12 :: x13 :: x14 :: x15 :: x16 :: x17 :: x18 :: x19 :: x20 :: x21 :: x22 :: x23 :: t) =
      if 24 + t.length ≠ x3 then Run.ret {} (some Err.ErrInvalidPacketLength)
      else if (x1 >>> 2) &&& 1 = 1 then
        match t[0]? with
        | none => Run.panic
        | some ty =>
          if int8 ty = SimplePassword then
            match SimplePasswordHeader.UnmarshalBinary {} t with
            | Run.panic => Run.panic
            | Run.ret _ (some e) =>
              Run.ret (decodeFixed x0 x1 x2 (beValue [x4, x5, x6, x7]) (beValue [x8, x9, x10, x11])
                (beValue [x12, x13, x14, x15]) (beValue [x16, x17, x18, x19])
                (beValue [x20, x21, x22, x23]) none) (some e)
            | Run.ret pw none =>
              Run.ret (decodeFixed x0 x1 x2 (beValue [x4, x5, x6, x7]) (beValue [x8, x9, x10, x11])
                (beValue [x12, x13, x14, x15]) (beValue [x16, x17, x18, x19])
                (beValue [x20, x21, x22, x23]) (some pw)) none
          else
            Run.ret (decodeFixed x0 x1 x2 (beValue [x4, x5, x6, x7]) (beValue [x8, x9, x10, x11])
                (beValue [x12, x13, x14, x15]) (beValue [x16, x17, x18, x19])
                (beValue [x20, x21, x22, x23]) none) (some Err.ErrInvalidAuthenticationType)
      else
        Run.ret (decodeFixed x0 x1 x2 (beValue [x4, x5, x6, x7]) (beValue [x8, x9, x10, x11])
                (beValue [x12, x13, x14, x15]) (beValue [x16, x17, x18, x19])
                (beValue [x20, x21, x22, x23]) none) none := by
  have hbe : ∀ a b c d : Nat, beValue [a, b, c, d] = a * 2 ^ 24 + b * 2 ^ 16 + c * 2 ^ 8 + d := by
    intro a b c d
    simp only [beValue, List.foldl]
    omega
  unfold ControlPacket.UnmarshalBinary
  simp only [MINIMUM_SIZE, List.length_cons, List.getD_cons_succ, List.getD_cons_zero, Uint32,
    List.getElem?_cons_succ, List.drop_succ_cons, List.drop_zero, hbe, decodeFixed]
  have hlt : ¬ (t.length + 1 + 1 + 1 + 1 + 1 + 1 + 1 + 1 + 1 + 1 + 1 + 1 + 1 + 1 + 1 + 1 + 1 + 1
      + 1 + 1 + 1 + 1 + 1 + 1 < 24) := by omega
  rw [if_neg hlt]
  have hl : (t.length + 1 + 1 + 1 + 1 + 1 + 1 + 1 + 1 + 1 + 1 + 1 + 1 + 1 + 1 + 1 + 1 + 1 + 1
      + 1 + 1 + 1 + 1 + 1 + 1) = 24 + t.length := by omega
  rw [hl]

/-- The header bytes re-encoded from a decoded packet are the bytes decoded. -/
theorem header_decodeFixed (x0 x1 x2 x3 x4 x5 x6 x7 x8 x9 x10 x11 x12 x13 x14 x15 x16 x17 x18 x19 x20 x21 x22 x23 b3 : Nat)
    (a : Option SimplePasswordHeader)
    (hb : isBytes [x0, x1, x2, x3, x4, x5, x6, x7, x8, x9, x10, x11, x12, x13, x14, x15, x16, x17, x18, x19, x20, x21, x22, x23]) :
    (decodeFixed x0 x1 x2 (beValue [x4, x5, x6, x7]) (beValue [x8, x9, x10, x11])
        (beValue [x12, x13, x14, x15]) (beValue [x16, x17, x18, x19])
        (beValue [x20, x21, x22, x23]) a).header
      (if (x1 >>> 2) &&& 1 = 1 then
        (decodeFixed x0 x1 x2 (beValue [x4, x5, x6, x7]) (beValue [x8, x9, x10, x11])
          (beValue [x12, x13, x14, x15]) (beValue [x16, x17, x18, x19])
          (beValue [x20, x21, x22, x23]) a).byte1 ||| ((byte Yes <<< 2) % 256)
       else
        (decodeFixed x0 x1 x2 (beValue [x4, x5, x6, x7]) (beValue [x8, x9, x10, x11])
          (beValue [x12, x13, x14, x15]) (beValue [x16, x17, x18, x19])
          (beValue [x20, x21, x22, x23]) a).byte1) b3
      = [x0, x1, x2, b3, x4, x5, x6, x7, x8, x9, x10, x11, x12, x13, x14, x15, x16, x17, x18, x19, x20, x21, x22, x23] := by
  have hbe : ∀ a b c d : Nat, beValue [a, b, c, d] = a * 2 ^ 24 + b * 2 ^ 16 + c * 2 ^ 8 + d := by
    intro a b c d
    simp only [beValue, List.foldl]
    omega
  have h0 : x0 < 256 := hb x0 (by simp)
  have h1 : x1 < 256 := hb x1 (by simp)
  have h2 : x2 < 256 := hb x2 (by simp)
  have h3 : x3 < 256 := hb x3 (by simp)
  have h4 : x4 < 256 := hb x4 (by simp)
  have h5 : x5 < 256 := hb x5 (by simp)
  have h6 : x6 < 256 := hb x6 (by simp)
  have h7 : x7 < 256 := hb x7 (by simp)
  have h8 : x8 < 256 := hb x8 (by simp)
  have h9 : x9 < 256 := hb x9 (by simp)
  have h10 : x10 < 256 := hb x10 (by simp)
  have h11 : x11 < 256 := hb x11 (by simp)
  have h12 : x12 < 256 := hb x12 (by simp)
  have h13 : x13 < 256 := hb x13 (by simp)
  have h14 : x14 < 256 := hb x14 (by simp)
  have h15 : x15 < 256 := hb x15 (by simp)
  have h16 : x16 < 256 := hb x16 (by simp)
  have h17 : x17 < 256 := hb x17 (by simp)
  have h18 : x18 < 256 := hb x18 (by simp)
  have h19 : x19 < 256 := hb x19 (by simp)
  have h20 : x20 < 256 := hb x20 (by simp)
  have h21 : x21 < 256 := hb x21 (by simp)
  have h22 : x22 < 256 := hb x22 (by simp)
  have h23 : x23 < 256 := hb x23 (by simp)
  have e0 := byte0_reencode_fin ⟨x0, h0⟩
  have e1 := byte1_reencode_fin ⟨x1, h1⟩
  have hyes : (byte Yes <<< 2) % 256 = 4 := by decide
  simp only at e0 e1
  simp only [ControlPacket.header, ControlPacket.byte0, ControlPacket.byte1, decodeFixed,
    byte_int8, hbe, hyes, PutUint32_of_bytes _ _ _ _ h4 h5 h6 h7,
    PutUint32_of_bytes _ _ _ _ h8 h9 h10 h11, PutUint32_of_bytes _ _ _ _ h12 h13 h14 h15,
    PutUint32_of_bytes _ _ _ _ h16 h17 h18 h19, PutUint32_of_bytes _ _ _ _ h20 h21 h22 h23,
    Nat.mod_eq_of_lt h2, e0, List.cons_append, List.nil_append]
  split
  · rename_i hA
    rw [if_pos hA] at e1
    rw [e1]
  · rename_i hA
    rw [if_neg hA] at e1
    rw [e1]

/-- A trailer that `SimplePasswordHeader.UnmarshalBinary` accepts: type byte,
length byte equal to the trailer size, key id, password. -/
theorem SimplePassword_unmarshal_ok (t : List Nat) (pw : SimplePasswordHeader)
    (h : SimplePasswordHeader.UnmarshalBinary {} t = Run.ret pw none) :
    ∃ ty k rest, t = ty :: (3 + rest.length) :: k :: rest ∧ int8 ty = SimplePassword ∧
      pw = { AuthKeyId := int8 k, Password := rest } := by
  unfold SimplePasswordHeader.UnmarshalBinary at h
  match t, h with
  | [], h => simp at h
  | [ty], h =>
    simp only [List.getElem?_cons_zero] at h
    split at h
    · cases h
    · simp at h
  | [ty, l], h =>
    simp only [List.getElem?_cons_zero, List.getElem?_cons_succ] at h
    split at h
    · cases h
    · split at h
      · cases h
      · simp at h
  | ty :: l :: k :: rest, h =>
    simp only [List.getElem?_cons_zero, List.getElem?_cons_succ] at h
    split at h
    · cases h
    · rename_i hty
      split at h
      · cases h
      · rename_i hl
        simp only [List.drop_succ_cons, List.drop_zero] at h
        injection h with h1 h2
        refine ⟨ty, k, rest, ?_, not_not.mp hty, h1.symm⟩
        have hl' : l = 3 + rest.length := by
          have := not_not.mp hl
          simp only [List.length_cons] at this
          omega
        rw [hl']

/-- C8 (amended): for every byte sequence that UnmarshalBinary decodes without
error into an empty packet, MarshalBinary of the decoded packet returns exactly
that sequence if and only if the sequence has 24 bytes when its A bit is clear,
and 28 to 43 bytes (a password of 1 to 16 bytes) when its A bit is set. -/
theorem Marshal_Unmarshal_iff (b : List Nat) (p : ControlPacket) (hb : isBytes b)
    (hd : ControlPacket.UnmarshalBinary {} b = Run.ret p none) :
    p.MarshalBinary = Except.ok b ↔
      (if (b.getD 1 0 >>> 2) &&& 1 = 1 then 28 ≤ b.length ∧ b.length ≤ 43
       else b.length = 24) := by
  have h24 : 24 ≤ b.length := by
    by_contra hlt
    unfold ControlPacket.UnmarshalBinary at hd
    rw [if_pos (by simp only [MINIMUM_SIZE]; omega)] at hd
    cases hd
  obtain ⟨x0, x1, x2, x3, x4, x5, x6, x7, x8, x9, x10, x11,
    x12, x13, x14, x15, x16, x17, x18, x19, x20, x21, x22, x23, t, rfl⟩ := exists_header_of_length b h24
  have hb' : isBytes ([x0, x1, x2, x3, x4, x5, x6, x7, x8, x9, x10, x11,
      x12, x13, x14, x15, x16, x17, x18, x19, x20, x21, x22, x23] ++ t) := hb
  have hbh : isBytes [x0, x1, x2, x3, x4, x5, x6, x7, x8, x9, x10, x11,
      x12, x13, x14, x15, x16, x17, x18, x19, x20, x21, x22, x23] :=
    fun x hx => hb' x (List.mem_append_left _ hx)
  have hbt : isBytes t := fun x hx => hb' x (List.mem_append_right _ hx)
  have hx3lt : x3 < 256 := hbh x3 (by simp)
  rw [UnmarshalBinary_cons] at hd
  by_cases hx3 : 24 + t.length ≠ x3
  · rw [if_pos hx3] at hd
    cases hd
  rw [if_neg hx3] at hd
  have hx3' : 24 + t.length = x3 := not_not.mp hx3
  simp only [List.getD_cons_succ, List.getD_cons_zero, List.length_cons]
  by_cases hA : (x1 >>> 2) &&& 1 = 1
  · rw [if_pos hA] at hd
    rw [if_pos hA]
    cases ht0 : t[0]? with
    | none =>
      rw [ht0] at hd
      cases hd
    | some ty0 =>
      rw [ht0] at hd
      simp only at hd
      by_cases hty : int8 ty0 = SimplePassword
      · rw [if_pos hty] at hd
        cases hpw : SimplePasswordHeader.UnmarshalBinary {} t with
        | panic =>
          rw [hpw] at hd
          cases hd
        | ret pw e =>
          rw [hpw] at hd
          cases e with
          | some e =>
            simp only at hd
            cases hd
          | none =>
            simp only at hd
            injection hd with hp _
            obtain ⟨ty, k, rest, rfl, hty1, rfl⟩ := SimplePassword_unmarshal_ok t pw hpw
            have hk : k < 256 := hbt k (by simp)
            have htylt : ty < 256 := hbt ty (by simp)
            have hty' : ty = 1 := by
              unfold int8 SimplePassword at hty1
              split at hty1 <;> omega
            have hhdr := header_decodeFixed x0 x1 x2 x3 x4 x5 x6 x7 x8 x9 x10 x11
              x12 x13 x14 x15 x16 x17 x18 x19 x20 x21 x22 x23 x3
              (some { AuthKeyId := int8 k, Password := rest }) hbh
            rw [if_pos hA] at hhdr
            subst hp
            unfold ControlPacket.MarshalBinary SimplePasswordHeader.MarshalBinary
            simp only [decodeFixed] at hhdr ⊢
            simp only [List.length_cons] at hx3'
            by_cases hn : rest.length < 1 ∨ rest.length > 16
            · rw [if_pos hn]
              simp only [List.length_cons]
              constructor
              · intro h
                cases h
              · intro h
                omega
            · rw [if_neg hn]
              have hb3 : (24 + ([1, 3 + rest.length, k] ++ rest).length) % 256 = x3 := by
                simp only [List.length_append, List.length_cons, List.length_nil]
                omega
              have hsp : byte SimplePassword = 1 := by decide
              have hkk : byte (int8 k) = k := by rw [byte_int8]; omega
              have hll : (3 + rest.length) % 256 = 3 + rest.length := by omega
              simp only [hsp, hkk, hll, hty']
              rw [hb3, hhdr]
              simp only [List.length_cons]
              constructor
              · intro _
                omega
              · intro _
                rfl
      · rw [if_neg hty] at hd
        cases hd
  · rw [if_neg hA] at hd
    rw [if_neg hA]
    injection hd with hp _
    have hhdr := header_decodeFixed x0 x1 x2 x3 x4 x5 x6 x7 x8 x9 x10 x11
      x12 x13 x14 x15 x16 x17 x18 x19 x20 x21 x22 x23 (24 % 256) none hbh
    rw [if_neg hA] at hhdr
    subst hp
    unfold ControlPacket.MarshalBinary
    simp only [decodeFixed] at hhdr ⊢
    rw [hhdr]
    constructor
    · intro h
      injection h with h
      simp only [List.cons.injEq, true_and] at h
      obtain ⟨-, ht⟩ := h
      have := congrArg List.length ht
      simp only [List.length_nil] at this
      omega
    · intro h
      have ht : t = [] := by
        apply List.eq_nil_of_length_eq_zero
        omega
      subst ht
      simp only [List.length_nil] at hx3'
      rw [← hx3']

/-- Witness of C8: the 37 bytes of the password test decode to the packet of
the test, which encodes to them. -/
theorem Marshal_Unmarshal_iff_witness :
    passwordPacket.MarshalBinary = Except.ok passwordBytes ↔
      (if (passwordBytes.getD 1 0 >>> 2) &&& 1 = 1 then
        28 ≤ passwordBytes.length ∧ passwordBytes.length ≤ 43
       else passwordBytes.length = 24) :=
  Marshal_Unmarshal_iff passwordBytes passwordPacket (by unfold isBytes; decide) (by rfl)

/-- The counterexample to C8 as stated: a 25-byte sequence with the A bit clear
and length field 25 decodes without error, to the golden packet, whose encoding
is the 24 golden bytes and not the 25 bytes decoded. -/
theorem decode_encode_drops_trailing_bytes :
    isBytes extraByteBytes ∧
    ControlPacket.UnmarshalBinary {} extraByteBytes = Run.ret goldenPacket none ∧
    goldenPacket.MarshalBinary = Except.ok goldenBytes ∧
    goldenPacket.MarshalBinary ≠ Except.ok extraByteBytes := by
  refine ⟨by unfold isBytes; decide, by rfl, by rfl, ?_⟩
  intro h
  have h2 : goldenPacket.MarshalBinary = Except.ok goldenBytes := by rfl
  rw [h2] at h
  simp [goldenBytes, extraByteBytes] at h

/-! ## Admission checks and authentication gate: theorems -/

/-- C11: checkPacket reports the first failing check in the order version,
detect multiplier, multipoint, my discriminator, your discriminator. -/
theorem checkPacket_first_failure (p : ControlPacket) :
    (p.Version ≠ 1 → checkPacket p = some Err.ErrInvalidVersion) ∧
    (p.Version = 1 → p.DetectMultiplier = 0 →
      checkPacket p = some Err.ErrInvalidDetectMultiplier) ∧
    (p.Version = 1 → p.DetectMultiplier ≠ 0 → p.Multipoint = 1 →
      checkPacket p = some Err.ErrInvalidMultiPoint) ∧
    (p.Version = 1 → p.DetectMultiplier ≠ 0 → p.Multipoint ≠ 1 → p.MyDiscriminator = 0 →
      checkPacket p = some Err.ErrInvalidMyDiscriminator) ∧
    (p.Version = 1 → p.DetectMultiplier ≠ 0 → p.Multipoint ≠ 1 → p.MyDiscriminator ≠ 0 →
      p.YourDiscriminator = 0 → p.State = Init ∨ p.State = Up →
      checkPacket p = some Err.ErrInvalidYourDiscriminator) := by
  refine ⟨?_, ?_, ?_, ?_, ?_⟩
  · intro h
    simp [checkPacket, h]
  · intro h1 h2
    simp [checkPacket, h1, h2]
  · intro h1 h2 h3
    simp [checkPacket, h1, h2, h3, Yes]
  · intro h1 h2 h3 h4
    simp [checkPacket, h1, h2, h3, h4, Yes]
  · intro h1 h2 h3 h4 h5 h6
    rcases h6 with h6 | h6 <;>
      simp [checkPacket, h1, h2, h3, h4, h5, h6, Yes, Init, Up, Down, AdminDown]

/-- Witness of C11: the five rejected packets of the tests. -/
theorem checkPacket_first_failure_witness :
    checkPacket { validPacket with Version := 2 } = some Err.ErrInvalidVersion ∧
    checkPacket { validPacket with DetectMultiplier := 0 }
      = some Err.ErrInvalidDetectMultiplier ∧
    checkPacket { validPacket with Multipoint := 1 } = some Err.ErrInvalidMultiPoint ∧
    checkPacket { validPacket with MyDiscriminator := 0 } = some Err.ErrInvalidMyDiscriminator ∧
    checkPacket { validPacket with State := Up } = some Err.ErrInvalidYourDiscriminator :=
  ⟨(checkPacket_first_failure { validPacket with Version := 2 }).1 (by decide),
   (checkPacket_first_failure { validPacket with DetectMultiplier := 0 }).2.1 rfl rfl,
   (checkPacket_first_failure { validPacket with Multipoint := 1 }).2.2.1 rfl (by decide) rfl,
   (checkPacket_first_failure { validPacket with MyDiscriminator := 0 }).2.2.2.1
      rfl (by decide) (by decide) rfl,
   (checkPacket_first_failure { validPacket with State := Up }).2.2.2.2
      rfl (by decide) (by decide) (by decide) rfl (Or.inr rfl)⟩

/-- C16: authentication gate.  When the session's authentication type differs
from the packet's, handlePacket returns ErrInvalidAuthenticationType; when they
are equal and nonzero it returns ErrNotImplemented; in both cases the session,
and so its local snapshot, remote snapshot and pollActive, is unchanged. -/
theorem handlePacket_auth_gate (peer : Peer) (pkt : ControlPacket) :
    (peer.AuthType ≠ pkt.GetAuthenticationType →
      (peer.handlePacket pkt).2 = some Err.ErrInvalidAuthenticationType ∧
      (peer.handlePacket pkt).1.localState = peer.localState ∧
      (peer.handlePacket pkt).1.remoteState = peer.remoteState ∧
      (peer.handlePacket pkt).1.PollActive = peer.PollActive) ∧
    (peer.AuthType = pkt.GetAuthenticationType → peer.AuthType ≠ 0 →
      (peer.handlePacket pkt).2 = some Err.ErrNotImplemented ∧
      (peer.handlePacket pkt).1.localState = peer.localState ∧
      (peer.handlePacket pkt).1.remoteState = peer.remoteState ∧
      (peer.handlePacket pkt).1.PollActive = peer.PollActive) := by
  constructor
  · intro h
    have h' : peer.GetAuthenticationType ≠ pkt.GetAuthenticationType := h
    unfold Peer.handlePacket
    rw [if_pos h']
    exact ⟨rfl, rfl, rfl, rfl⟩
  · intro h h0
    have h' : ¬ peer.GetAuthenticationType ≠ pkt.GetAuthenticationType := not_not.mpr h
    have h2 : pkt.GetAuthenticationType ≠ Reserved := by
      rw [← h]
      exact h0
    unfold Peer.handlePacket
    rw [if_neg h', if_pos h2]
    exact ⟨rfl, rfl, rfl, rfl⟩

/-- Witness of C16: the session of the test with KeyedMD5 and an unauthenticated
packet, and a SimplePassword session with the password packet. -/
theorem handlePacket_auth_gate_witness :
    (Peer.handlePacket { examplePeer Down with AuthType := KeyedMD5 } (examplePacket Up)).2
      = some Err.ErrInvalidAuthenticationType ∧
    (Peer.handlePacket { examplePeer Down with AuthType := SimplePassword } passwordPacket).2
      = some Err.ErrNotImplemented :=
  ⟨((handlePacket_auth_gate { examplePeer Down with AuthType := KeyedMD5 }
      (examplePacket Up)).1 (by decide)).1,
   ((handlePacket_auth_gate { examplePeer Down with AuthType := SimplePassword }
      passwordPacket).2 (by decide) (by decide)).1⟩

/-- C14: AdminDown guard.  An unauthenticated packet handled by an
unauthenticated session whose local state is AdminDown is answered with
ErrSessionAdminDown, and the local and the remote snapshot stay as they were,
whatever state the packet carries. -/
theorem handlePacket_admin_down (peer : Peer) (pkt : ControlPacket)
    (hA : peer.AuthType = Reserved) (hP : pkt.AuthenticationHeader = none)
    (hl : peer.localState.sessionState = AdminDown) :
    (peer.handlePacket pkt).2 = some Err.ErrSessionAdminDown ∧
    (peer.handlePacket pkt).1.localState = peer.localState ∧
    (peer.handlePacket pkt).1.remoteState = peer.remoteState := by
  have hauth : peer.GetAuthenticationType = pkt.GetAuthenticationType := by
    simp [Peer.GetAuthenticationType, ControlPacket.GetAuthenticationType, hA, hP]
  have hres : pkt.GetAuthenticationType = Reserved := by
    simp [ControlPacket.GetAuthenticationType, hP]
  unfold Peer.handlePacket
  simp only [hauth, hres, ne_eq, not_true_eq_false, if_false, Peer.GetLocal, hl, if_true]
  refine ⟨trivial, ?_, ?_⟩ <;> split <;> rfl

/-- Witness of C14: an AdminDown session receiving an Up packet. -/
theorem handlePacket_admin_down_witness :
    ((examplePeer AdminDown).handlePacket (examplePacket Up)).2
      = some Err.ErrSessionAdminDown ∧
    ((examplePeer AdminDown).handlePacket (examplePacket Up)).1.localState
      = (examplePeer AdminDown).localState ∧
    ((examplePeer AdminDown).handlePacket (examplePacket Up)).1.remoteState
      = (examplePeer AdminDown).remoteState :=
  handlePacket_admin_down (examplePeer AdminDown) (examplePacket Up) rfl rfl rfl

/-- C15: the no-change rows.  For an unauthenticated session and packet with
(local state, packet state) one of (Down, Up), (Down, AdminDown), (Init, Down),
(Up, Init), (Up, Up), handlePacket returns nil and the local snapshot is
unchanged. -/
theorem handlePacket_no_change (peer : Peer) (pkt : ControlPacket)
    (hA : peer.AuthType = Reserved) (hP : pkt.AuthenticationHeader = none)
    (h : (peer.localState.sessionState = Down ∧ pkt.State = Up) ∨
      (peer.localState.sessionState = Down ∧ pkt.State = AdminDown) ∨
      (peer.localState.sessionState = Init ∧ pkt.State = Down) ∨
      (peer.localState.sessionState = Up ∧ pkt.State = Init) ∨
      (peer.localState.sessionState = Up ∧ pkt.State = Up)) :
    (peer.handlePacket pkt).2 = none ∧
    (peer.handlePacket pkt).1.localState = peer.localState := by
  have hne : peer.localState.sessionState ≠ AdminDown := by
    rcases h with ⟨hl, _⟩ | ⟨hl, _⟩ | ⟨hl, _⟩ | ⟨hl, _⟩ | ⟨hl, _⟩ <;> rw [hl] <;> decide
  obtain ⟨he, hs⟩ := handlePacket_local peer pkt hA hP hne
  have hu : localUpdates peer.localState pkt = [] := by
    rcases h with ⟨hl, hp⟩ | ⟨hl, hp⟩ | ⟨hl, hp⟩ | ⟨hl, hp⟩ | ⟨hl, hp⟩ <;>
      simp [localUpdates, hl, hp, Down, AdminDown, Init, Up]
  rw [hs, hu, Clone_nil]
  simp [he]

/-- Witness of C15: a Down session receiving an Up packet. -/
theorem handlePacket_no_change_witness :
    ((examplePeer Down).handlePacket (examplePacket Up)).2 = none ∧
    ((examplePeer Down).handlePacket (examplePacket Up)).1.localState
      = (examplePeer Down).localState :=
  handlePacket_no_change (examplePeer Down) (examplePacket Up) rfl rfl (Or.inl ⟨rfl, rfl⟩)

/-- What `handlePacket` commits to the remote snapshot on the unauthenticated
path when the session is not AdminDown. -/
theorem handlePacket_remote (peer : Peer) (pkt : ControlPacket)
    (hA : peer.AuthType = Reserved) (hP : pkt.AuthenticationHeader = none)
    (hne : peer.localState.sessionState ≠ AdminDown) :
    (peer.handlePacket pkt).1.remoteState =
      peer.remoteState.Clone
        [ setSessionState pkt.State, setDemandMode (decide (pkt.Demand = Yes)),
          setDiscriminator pkt.MyDiscriminator,
          setRequiredMinRxInterval pkt.RequiredMinRxInterval,
          setDetectMultiplier pkt.DetectMultiplier ] := by
  have hauth : peer.GetAuthenticationType = pkt.GetAuthenticationType := by
    simp [Peer.GetAuthenticationType, ControlPacket.GetAuthenticationType, hA, hP]
  have hres : pkt.GetAuthenticationType = Reserved := by
    simp [ControlPacket.GetAuthenticationType, hP]
  unfold Peer.handlePacket
  simp only [hauth, hres, ne_eq, not_true_eq_false, if_false, Peer.GetLocal, Peer.GetRemote, hne]
  split <;> split <;> split <;>
    simp [Peer.scheduleExpiry, Peer.Send, Peer.ApplyRemoteState, ApplyLocalState_remoteState]

/-- A nil result of `handlePacket` means the packet went through the
unauthenticated path of a session that is not AdminDown. -/
theorem handlePacket_accepted (peer : Peer) (pkt : ControlPacket)
    (h : (peer.handlePacket pkt).2 = none) :
    peer.AuthType = Reserved ∧ pkt.AuthenticationHeader = none ∧
      peer.localState.sessionState ≠ AdminDown := by
  unfold Peer.handlePacket at h
  by_cases h1 : peer.GetAuthenticationType ≠ pkt.GetAuthenticationType
  · rw [if_pos h1] at h
    cases h
  rw [if_neg h1] at h
  by_cases h2 : pkt.GetAuthenticationType ≠ Reserved
  · rw [if_pos h2] at h
    cases h
  rw [if_neg h2] at h
  have h1' : peer.AuthType = pkt.GetAuthenticationType := not_not.mp h1
  have h2' : pkt.GetAuthenticationType = Reserved := not_not.mp h2
  refine ⟨by rw [h1', h2'], ?_, ?_⟩
  · cases hh : pkt.AuthenticationHeader with
    | none => rfl
    | some x =>
      simp [ControlPacket.GetAuthenticationType, hh, SimplePassword, Reserved] at h2'
  · intro hl
    simp only [Peer.GetLocal, hl, if_true] at h
    cases h

/-- C17: remote snapshot update.  For every packet that handlePacket accepts,
the committed remote snapshot has the packet's state, demand flag, my
discriminator, requiredMinRxInterval and detect multiplier, and keeps its
desiredMinTxInterval and diagnostic. -/
theorem handlePacket_remote_update (peer : Peer) (pkt : ControlPacket)
    (h : (peer.handlePacket pkt).2 = none) :
    (peer.handlePacket pkt).1.remoteState =
      { peer.remoteState with
        sessionState := pkt.State
        demandMode := decide (pkt.Demand = Yes)
        discriminator := pkt.MyDiscriminator
        requiredMinRxInterval := pkt.RequiredMinRxInterval
        detectMultiplier := pkt.DetectMultiplier } := by
  obtain ⟨hA, hP, hne⟩ := handlePacket_accepted peer pkt h
  rw [handlePacket_remote peer pkt hA hP hne]
  rfl

/-- Witness of C17: a Down session accepting the packet of the overflow example. -/
theorem handlePacket_remote_update_witness :
    ((examplePeer Down).handlePacket wrapPacket).1.remoteState =
      { (examplePeer Down).remoteState with
        sessionState := wrapPacket.State
        demandMode := decide (wrapPacket.Demand = Yes)
        discriminator := wrapPacket.MyDiscriminator
        requiredMinRxInterval := wrapPacket.RequiredMinRxInterval
        detectMultiplier := wrapPacket.DetectMultiplier } :=
  handlePacket_remote_update (examplePeer Down) wrapPacket (by decide)

/-- C20: the packet built by NewPacket has version 1, multipoint 0, demand 0,
myDiscriminator = local.discriminator, yourDiscriminator =
remote.discriminator and the given poll and final flags; it encodes, its first
byte has version bits 001 and bytes 4..7 are local.discriminator, most
significant byte first. -/
theorem NewPacket_spec (p : Peer) (poll final : Int)
    (hd : p.localState.discriminator < 2 ^ 32) :
    (p.NewPacket poll final).Version = 1 ∧ (p.NewPacket poll final).Multipoint = 0 ∧
    (p.NewPacket poll final).Demand = 0 ∧
    (p.NewPacket poll final).MyDiscriminator = p.localState.discriminator ∧
    (p.NewPacket poll final).YourDiscriminator = p.remoteState.discriminator ∧
    (p.NewPacket poll final).Poll = poll ∧ (p.NewPacket poll final).Final = final ∧
    ∃ out b0, (p.NewPacket poll final).MarshalBinary = Except.ok out ∧
      out[0]? = some b0 ∧ b0 >>> 5 = 1 ∧ b0 < 256 ∧
      isBytes ((out.drop 4).take 4) ∧
      beValue ((out.drop 4).take 4) = p.localState.discriminator := by
  refine ⟨rfl, rfl, rfl, rfl, rfl, rfl, rfl, ?_⟩
  have hm : (p.NewPacket poll final).MarshalBinary
      = Except.ok ((p.NewPacket poll final).header (p.NewPacket poll final).byte1 24 ++ []) := by
    unfold ControlPacket.MarshalBinary
    simp [Peer.NewPacket]
  obtain ⟨-, e0, -, -, -, d1, -⟩ :=
    header_layout (p.NewPacket poll final) (p.NewPacket poll final).byte1 24 []
  have hb0 : (p.NewPacket poll final).byte0 = 32 := by
    have h32 : ((byte 1 <<< 5) % 256) ||| byte 0 = 32 := by decide
    exact h32
  obtain ⟨u1, u2⟩ := PutUint32_spec _ hd
  refine ⟨_, 32, hm, ?_, by decide, by decide, ?_, ?_⟩
  · rw [e0, hb0]
  · rw [d1]
    exact u2
  · rw [d1]
    exact u1

/-- Witness of C20: the poll reply of an example session. -/
theorem NewPacket_spec_witness :
    ((examplePeer Up).NewPacket No Yes).Version = 1 ∧
    ((examplePeer Up).NewPacket No Yes).MyDiscriminator = 9 ∧
    ((examplePeer Up).NewPacket No Yes).Final = Yes :=
  ⟨(NewPacket_spec (examplePeer Up) No Yes (by decide)).1,
   (NewPacket_spec (examplePeer Up) No Yes (by decide)).2.2.2.1,
   (NewPacket_spec (examplePeer Up) No Yes (by decide)).2.2.2.2.2.2.1⟩

/-! ## Receive path and dispatch: theorems -/

/-- C12: TTL gate.  When the read succeeds and ancillary byte 16 is not 255,
readIncomingPacket returns ErrInvalidTTL and the server, and so its inbound
queue, is unchanged, whatever the payload is. -/
theorem readIncomingPacket_ttl (s : BfdServer) (n : Nat) (addr : UDPAddr) (b oob : List Nat)
    (ttl : Nat) (h16 : oob[16]? = some ttl) (hne : ttl ≠ 255) :
    s.readIncomingPacket (Except.ok (n, addr)) b oob = Run.ret s (some Err.ErrInvalidTTL) := by
  unfold BfdServer.readIncomingPacket
  simp only [h16]
  rw [if_pos hne]

/-- Witness of C12: the datagram of the test, with TTL 254. -/
theorem readIncomingPacket_ttl_witness :
    exampleServer.readIncomingPacket (Except.ok (40, {})) passwordBytes wrongTTLOob
      = Run.ret exampleServer (some Err.ErrInvalidTTL) :=
  readIncomingPacket_ttl exampleServer 40 {} passwordBytes wrongTTLOob 254 rfl (by decide)

/-- `dispatch` finds no session exactly when no entry is selected. -/
theorem dispatch_none (sel : Nat × Peer → Bool) (p : ControlPacket) (ss : List (Nat × Peer))
    (h : ∀ e ∈ ss, sel e = false) : dispatch sel p ss = none := by
  induction ss with
  | nil => rfl
  | cons e rest ih =>
    obtain ⟨k, peer⟩ := e
    have h1 : sel (k, peer) = false := h (k, peer) (List.mem_cons_self _ _)
    have h2 : dispatch sel p rest = none := ih (fun x hx => h x (List.mem_cons_of_mem _ hx))
    simp [dispatch, h1, h2]

/-- When some entry is selected, `dispatch` lets the first selected session
handle the packet and leaves every other entry as it is. -/
theorem dispatch_some (sel : Nat × Peer → Bool) (p : ControlPacket) (ss : List (Nat × Peer))
    (h : ∃ e ∈ ss, sel e = true) :
    ∃ pre k peer post, ss = pre ++ (k, peer) :: post ∧ (∀ x ∈ pre, sel x = false) ∧
      sel (k, peer) = true ∧
      dispatch sel p ss
        = some (pre ++ (k, (peer.handlePacket p).1) :: post, (peer.handlePacket p).2) := by
  induction ss with
  | nil =>
    obtain ⟨e, he, -⟩ := h
    cases he
  | cons e rest ih =>
    obtain ⟨k, peer⟩ := e
    by_cases h1 : sel (k, peer) = true
    · refine ⟨[], k, peer, rest, rfl, ?_, h1, ?_⟩
      · intro x hx
        cases hx
      · simp [dispatch, h1]
    · have hrest : ∃ e ∈ rest, sel e = true := by
        obtain ⟨e, he, hs⟩ := h
        rcases List.mem_cons.mp he with rfl | he'
        · exact absurd hs h1
        · exact ⟨e, he', hs⟩
      obtain ⟨pre, k', peer', post, hsplit, hpre, hsel, hd⟩ := ih hrest
      refine ⟨(k, peer) :: pre, k', peer', post, ?_, ?_, hsel, ?_⟩
      · rw [hsplit]
        rfl
      · intro x hx
        rcases List.mem_cons.mp hx with rfl | hx'
        · simpa using h1
        · exact hpre x hx'
      · simp [dispatch, h1, hd]

/-- C13: dispatch.  For a packet that passes the admission checks: with a
nonzero yourDiscriminator the session registered under it handles the packet,
and ErrYourDiscriminatorNotFound is returned when there is none; with
yourDiscriminator zero a registered session whose peer IP equals the source IP
handles the packet (the first one in iteration order), and ErrPeerNotFound is
returned when there is none.  The other sessions are untouched. -/
theorem BfdServer_handlePacket_dispatch (s : BfdServer) (pkt : packet)
    (hc : checkPacket pkt.packet = none) :
    (pkt.packet.YourDiscriminator ≠ 0 →
      ((∀ e ∈ s.Sessions, e.1 ≠ pkt.packet.YourDiscriminator) →
        s.handlePacket pkt = (s, some Err.ErrYourDiscriminatorNotFound)) ∧
      ((∃ e ∈ s.Sessions, e.1 = pkt.packet.YourDiscriminator) →
        ∃ pre k peer post, s.Sessions = pre ++ (k, peer) :: post ∧
          k = pkt.packet.YourDiscriminator ∧
          (∀ x ∈ pre, x.1 ≠ pkt.packet.YourDiscriminator) ∧
          s.handlePacket pkt
            = ({ s with Sessions := pre ++ (k, (peer.handlePacket pkt.packet).1) :: post },
               (peer.handlePacket pkt.packet).2))) ∧
    (pkt.packet.YourDiscriminator = 0 →
      ((∀ e ∈ s.Sessions, IPEqual e.2.Address.IP pkt.addr.IP = false) →
        s.handlePacket pkt = (s, some Err.ErrPeerNotFound)) ∧
      ((∃ e ∈ s.Sessions, IPEqual e.2.Address.IP pkt.addr.IP = true) →
        ∃ pre k peer post, s.Sessions = pre ++ (k, peer) :: post ∧
          IPEqual peer.Address.IP pkt.addr.IP = true ∧
          (∀ x ∈ pre, IPEqual x.2.Address.IP pkt.addr.IP = false) ∧
          s.handlePacket pkt
            = ({ s with Sessions := pre ++ (k, (peer.handlePacket pkt.packet).1) :: post },
               (peer.handlePacket pkt.packet).2))) := by
  have hc' : ¬ (checkPacket pkt.packet ≠ none) := not_not.mpr hc
  constructor
  · intro hy
    constructor
    · intro hnone
      have hd := dispatch_none (fun e => decide (e.1 = pkt.packet.YourDiscriminator))
        pkt.packet s.Sessions (fun e he => by simpa using hnone e he)
      unfold BfdServer.handlePacket
      simp only [hc', if_false, hy, ne_eq, not_false_eq_true, if_true, hd]
    · intro hex
      obtain ⟨pre, k, peer, post, hsplit, hpre, hsel, hd⟩ :=
        dispatch_some (fun e => decide (e.1 = pkt.packet.YourDiscriminator))
          pkt.packet s.Sessions
          (by obtain ⟨e, he, hk⟩ := hex; exact ⟨e, he, by simpa using hk⟩)
      refine ⟨pre, k, peer, post, hsplit, by simpa using hsel,
        fun x hx => by simpa using hpre x hx, ?_⟩
      unfold BfdServer.handlePacket
      simp only [hc', if_false, hy, ne_eq, not_false_eq_true, if_true, hd]
  · intro hy
    have hy' : ¬ (pkt.packet.YourDiscriminator ≠ 0) := not_not.mpr hy
    constructor
    · intro hnone
      have hd := dispatch_none (fun e => IPEqual e.2.Address.IP pkt.addr.IP)
        pkt.packet s.Sessions hnone
      unfold BfdServer.handlePacket
      simp only [hc', if_false, hy', hd]
    · intro hex
      obtain ⟨pre, k, peer, post, hsplit, hpre, hsel, hd⟩ :=
        dispatch_some (fun e => IPEqual e.2.Address.IP pkt.addr.IP)
          pkt.packet s.Sessions hex
      refine ⟨pre, k, peer, post, hsplit, hsel, hpre, ?_⟩
      unfold BfdServer.handlePacket
      simp only [hc', if_false, hy', hd]

/-- Witness of C13: the one-session server receiving a packet with
yourDiscriminator 0 from its peer address in 4-byte form. -/
theorem BfdServer_handlePacket_dispatch_witness :
    ∃ pre k peer post, exampleServer.Sessions = pre ++ (k, peer) :: post ∧
      IPEqual peer.Address.IP exampleDatagram.addr.IP = true ∧
      (∀ x ∈ pre, IPEqual x.2.Address.IP exampleDatagram.addr.IP = false) ∧
      exampleServer.handlePacket exampleDatagram
        = ({ exampleServer with
              Sessions := pre ++ (k, (peer.handlePacket exampleDatagram.packet).1) :: post },
           (peer.handlePacket exampleDatagram.packet).2) :=
  ((BfdServer_handlePacket_dispatch exampleServer exampleDatagram (by decide)).2 rfl).2
    ⟨(9, { examplePeer Down with Address := { IP := loopback16, Port := 3784 } }),
      by simp [exampleServer], by decide⟩

/-! ## Transmit timer: theorems -/

/-- The jitter subtrahend is at most a quarter of the base interval, also when
the 32-bit product wraps. -/
theorem jitter_le_quarter (b j : Nat) (hb : b < 4294967296) (hj : j < 25) :
    4 * ((b * j % 4294967296) / 100) ≤ b := by
  by_cases h : b * j < 4294967296
  · rw [Nat.mod_eq_of_lt h]
    have h2 : b * j ≤ b * 24 := Nat.mul_le_mul_left b (by omega)
    omega
  · have h1 : b * j % 4294967296 < 4294967296 := Nat.mod_lt _ (by norm_num)
    have h2 : b * j ≤ b * 24 := Nat.mul_le_mul_left b (by omega)
    omega

/-- Without the detect-multiplier cap the computed interval lies between three
quarters of the base and the base, and the subtraction does not wrap. -/
theorem sendInterval_bounds (b j dm : Nat) (hb : b < 2 ^ 32) (hj : j < 25) (hdm : dm ≠ 1) :
    3 * b ≤ 4 * sendInterval b j dm ∧ sendInterval b j dm ≤ b ∧
      (b * j % 2 ^ 32) / 100 ≤ b := by
  have hb' : b < 4294967296 := by norm_num at hb; exact hb
  have hq := jitter_le_quarter b j hb' hj
  unfold sendInterval
  simp only [hdm, if_false]
  have e : (2 : Nat) ^ 32 = 4294967296 := by norm_num
  rw [e]
  omega

/-- The ticker branch returns, and arms the transmit timer with `sendInterval`
of the base interval: the maximum of the remote requiredMinRxInterval and the
local desiredMinTxInterval, the latter reset to 1000000 unless the session is Up. -/
theorem handleTicker_ticker (peer : Peer) (j : Nat) :
    ∃ peer1, peer.handleTicker j = Run.ret peer1 none ∧
      peer1.ticker =
        sendInterval
          (max (if peer.localState.sessionState = Up then peer.localState.desiredMinTxInterval
                else 1000000) peer.remoteState.requiredMinRxInterval)
          j peer.localState.detectMultiplier * Microsecond := by
  unfold Peer.handleTicker
  by_cases hup : peer.localState.sessionState = Up
  · simp only [Peer.GetLocal, Peer.GetRemote, hup, ne_eq, not_true_eq_false, if_false, if_true]
    exact ⟨_, rfl, rfl⟩
  · have hset : ∀ q : Peer, q.localState = peer.localState →
        q.SetDesiredMinTxInterval 1000000
          = Run.ret (q.ApplyLocalState [setDesiredMinTxInterval 1000000]) none := by
      intro q hq
      unfold Peer.SetDesiredMinTxInterval
      simp only [Peer.GetLocal, hq, hup, and_false, if_false]
    have hq : (if peer.remoteState.requiredMinRxInterval > 0 then
        peer.Send (peer.NewPacket No No) else peer).localState = peer.localState := by
      split <;> rfl
    simp only [Peer.GetLocal, Peer.GetRemote, hup, ne_eq, not_false_eq_true, if_true, if_false,
      hset _ hq]
    exact ⟨_, rfl, rfl⟩

/-- C18: transmit period with detect multiplier greater than 1.  For every
32-bit base interval and every value j the code can draw (0 to 24), the ticker
branch returns and arms the transmit timer with a period between 0.75 * base
and base; the unsigned subtraction does not wrap. -/
theorem handleTicker_period (peer : Peer) (j : Nat) (hj : j < 25)
    (htx : peer.localState.desiredMinTxInterval < 2 ^ 32)
    (hrx : peer.remoteState.requiredMinRxInterval < 2 ^ 32)
    (hdm : 1 < peer.localState.detectMultiplier) :
    ∃ peer1 period base, peer.handleTicker j = Run.ret peer1 none ∧
      peer1.ticker = period * Microsecond ∧
      base = Max.max
        (if peer.localState.sessionState = Up then peer.localState.desiredMinTxInterval
         else 1000000) peer.remoteState.requiredMinRxInterval ∧
      3 * base ≤ 4 * period ∧ period ≤ base ∧ (base * j % 2 ^ 32) / 100 ≤ base := by
  obtain ⟨peer1, hr, ht⟩ := handleTicker_ticker peer j
  have hmax : ∀ a b : Nat, max a b = Max.max a b := by
    intro a b
    unfold max
    split <;> omega
  have hbase : Max.max
      (if peer.localState.sessionState = Up then peer.localState.desiredMinTxInterval
       else 1000000) peer.remoteState.requiredMinRxInterval < 2 ^ 32 := by
    have e : (2 : Nat) ^ 32 = 4294967296 := by norm_num
    rw [e] at htx hrx ⊢
    split <;> omega
  rw [hmax] at ht
  obtain ⟨h1, h2, h3⟩ := sendInterval_bounds _ j peer.localState.detectMultiplier hbase hj
    (by omega)
  exact ⟨peer1, _, _, hr, ht, rfl, h1, h2, h3⟩

/-- Witness of C18: a session with detect multiplier 3 and the largest jitter. -/
theorem handleTicker_period_witness :
    ∃ peer1 period base, jitterPeer.handleTicker 24 = Run.ret peer1 none ∧
      peer1.ticker = period * Microsecond ∧
      base = Max.max
        (if jitterPeer.localState.sessionState = Up then
          jitterPeer.localState.desiredMinTxInterval
         else 1000000) jitterPeer.remoteState.requiredMinRxInterval ∧
      3 * base ≤ 4 * period ∧ period ≤ base ∧ (base * 24 % 2 ^ 32) / 100 ≤ base :=
  handleTicker_period jitterPeer 24 (by decide) (by decide) (by decide) (by decide)

/-- C19 (code at the failing input): local detect multiplier 1 and base interval
47721859 microseconds (the remote requiredMinRxInterval).  The cap
`preSendInterval*90/100` is computed in 32 bits, where 47721859 * 90 wraps to
14, so for every jitter value the transmit timer is armed with period 0, below
0.75 * base.  With base 1 the cap rounds down to 0 as well. -/
theorem handleTicker_cap_wraps :
    (∀ j, j < 25 → sendInterval 47721859 j 1 = 0) ∧
    cappedPeer.handleTicker 0
      = Run.ret { cappedPeer.Send (cappedPeer.NewPacket No No) with ticker := 0 } none ∧
    Nat.max cappedPeer.localState.desiredMinTxInterval
      cappedPeer.remoteState.requiredMinRxInterval = 47721859 ∧
    (∀ j, j < 25 → sendInterval 1 j 1 = 0) := by
  refine ⟨by decide, by decide, by decide, by decide⟩

/-! ## Transmitted packets, parameter changes, Enable and Disable: theorems -/

/-- C21 (code at the failing input): NewPacket never sets the diagnostic, so
every packet built for transmission carries diagnostic 0.  A session that went
Down on a neighbour's Down packet has local diagnostic 3, yet the packet it
builds and the bytes it sends carry diagnostic 0 (first byte 0x20). -/
theorem NewPacket_drops_diagnostic :
    (∀ (p : Peer) (poll final : Int), (p.NewPacket poll final).DiagnosticCode = 0) ∧
    signaledDownPeer.localState.sessionState = Down ∧
    signaledDownPeer.localState.diagnosticCode = NeighborSignaledSessionDown ∧
    (signaledDownPeer.NewPacket No No).DiagnosticCode = NoDiagnostic ∧
    (signaledDownPeer.NewPacket No No).State = signaledDownPeer.localState.sessionState ∧
    (signaledDownPeer.Send (signaledDownPeer.NewPacket No No)).conn
      = [[0x20, 0x40, 1, 24, 0, 0, 0, 9, 0, 0, 0, 7, 0, 0, 0, 0, 0, 0, 0, 0, 0, 0, 0, 0]] := by
  refine ⟨fun _ _ _ => rfl, by decide, by decide, by decide, by decide, by decide⟩

/-- C27: encoding fails with ErrPasswordInvalidLength exactly when a
SimplePassword header is attached whose password length is outside 1..16, for
the header alone and for the packet; with a password of 1 to 16 bytes, and
without a header, encoding succeeds. -/
theorem MarshalBinary_password_length (p : ControlPacket) (h : SimplePasswordHeader) :
    (h.MarshalBinary = Except.error Err.ErrPasswordInvalidLength ↔
      (h.Password.length < 1 ∨ 16 < h.Password.length)) ∧
    ((∃ out, h.MarshalBinary = Except.ok out) ↔
      (1 ≤ h.Password.length ∧ h.Password.length ≤ 16)) ∧
    (p.MarshalBinary = Except.error Err.ErrPasswordInvalidLength ↔
      ∃ hd, p.AuthenticationHeader = some hd ∧
        (hd.Password.length < 1 ∨ 16 < hd.Password.length)) ∧
    ((∃ out, p.MarshalBinary = Except.ok out) ↔
      (p.AuthenticationHeader = none ∨
        ∃ hd, p.AuthenticationHeader = some hd ∧
          1 ≤ hd.Password.length ∧ hd.Password.length ≤ 16)) ∧
    (∀ e, p.MarshalBinary = Except.error e → e = Err.ErrPasswordInvalidLength) := by
  have hh : ∀ g : SimplePasswordHeader,
      (g.Password.length < 1 ∨ 16 < g.Password.length →
        g.MarshalBinary = Except.error Err.ErrPasswordInvalidLength) ∧
      (1 ≤ g.Password.length ∧ g.Password.length ≤ 16 → ∃ out, g.MarshalBinary = Except.ok out) := by
    intro g
    constructor
    · intro hl
      unfold SimplePasswordHeader.MarshalBinary
      rw [if_pos (by omega)]
    · intro hl
      unfold SimplePasswordHeader.MarshalBinary
      rw [if_neg (by omega)]
      exact ⟨_, rfl⟩
  refine ⟨?_, ?_, ?_, ?_, ?_⟩
  · constructor
    · intro he
      by_contra hn
      obtain ⟨out, ho⟩ := (hh h).2 (by omega)
      rw [ho] at he
      cases he
    · exact (hh h).1
  · constructor
    · rintro ⟨out, ho⟩
      by_contra hn
      rw [(hh h).1 (by omega)] at ho
      cases ho
    · exact (hh h).2
  · cases hA : p.AuthenticationHeader with
    | none =>
      unfold ControlPacket.MarshalBinary
      simp [hA]
    | some hd =>
      unfold ControlPacket.MarshalBinary
      by_cases hl : hd.Password.length < 1 ∨ 16 < hd.Password.length
      · have hm := (hh hd).1 hl
        simp only [hA, hm]
        exact ⟨fun _ => ⟨hd, rfl, hl⟩, fun _ => by first | rfl | trivial⟩
      · obtain ⟨out, ho⟩ := (hh hd).2 (by omega)
        simp only [hA, ho]
        constructor
        · intro he
          cases he
        · rintro ⟨hd1, heq, hl1⟩
          cases heq
          exact absurd hl1 hl
  · cases hA : p.AuthenticationHeader with
    | none =>
      unfold ControlPacket.MarshalBinary
      simp [hA]
    | some hd =>
      unfold ControlPacket.MarshalBinary
      by_cases hl : hd.Password.length < 1 ∨ 16 < hd.Password.length
      · have hm := (hh hd).1 hl
        simp only [hA, hm]
        constructor
        · rintro ⟨out, ho⟩
          cases ho
        · rintro (hc | ⟨hd1, heq, hl1, hl2⟩)
          · cases hc
          · cases heq
            omega
      · obtain ⟨out, ho⟩ := (hh hd).2 (by omega)
        simp only [hA, ho]
        exact ⟨fun _ => Or.inr ⟨hd, rfl, by omega, by omega⟩, fun _ => ⟨_, rfl⟩⟩
  · intro e he
    cases hA : p.AuthenticationHeader with
    | none =>
      unfold ControlPacket.MarshalBinary at he
      simp [hA] at he
    | some hd =>
      unfold ControlPacket.MarshalBinary at he
      by_cases hl : hd.Password.length < 1 ∨ 16 < hd.Password.length
      · simp [hA, (hh hd).1 hl] at he
        exact he.symm
      · obtain ⟨out, ho⟩ := (hh hd).2 (by omega)
        simp [hA, ho] at he

/-- Witness of C27: the empty password is refused, the password HelloWorld is encoded. -/
theorem MarshalBinary_password_length_witness :
    emptyPasswordPacket.MarshalBinary = Except.error Err.ErrPasswordInvalidLength ∧
    ∃ out, passwordPacket.MarshalBinary = Except.ok out :=
  ⟨(MarshalBinary_password_length emptyPasswordPacket {}).2.2.1.mpr
      ⟨{ AuthKeyId := 5, Password := [] }, rfl, Or.inl (by decide)⟩,
   (MarshalBinary_password_length passwordPacket {}).2.2.2.1.mpr
      (Or.inr ⟨{ AuthKeyId := 5, Password := [72, 101, 108, 108, 111, 87, 111, 114, 108, 100] },
        rfl, by decide, by decide⟩)⟩

/-- The counterexample to C29 as stated: on an Up session, raising
desiredMinTxInterval and lowering requiredMinRxInterval do not return an error
to the caller; both calls panic. -/
theorem setters_panic_when_up :
    upPeer.localState.sessionState = Up ∧
    upPeer.SetDesiredMinTxInterval 50 = Run.panic ∧
    upPeer.SetRequiredMinRxInterval 50 = Run.panic ∧
    (∀ e, upPeer.SetDesiredMinTxInterval 50 ≠ Run.ret upPeer (some e)) ∧
    (∀ e, upPeer.SetRequiredMinRxInterval 50 ≠ Run.ret upPeer (some e)) := by
  refine ⟨by decide, by decide, by decide, ?_, ?_⟩
  · intro e h
    have h2 : upPeer.SetDesiredMinTxInterval 50 = Run.panic := by decide
    rw [h2] at h
    cases h
  · intro e h
    have h2 : upPeer.SetRequiredMinRxInterval 50 = Run.panic := by decide
    rw [h2] at h
    cases h

/-- C29 (amended): while the local state is Up, SetDesiredMinTxInterval(v)
with v greater than the current value and SetRequiredMinRxInterval(v) with v
less than the current value panic, and nothing is applied; in every other case
the value is applied at once through ApplyLocalState and the call returns. -/
theorem setters_poll_sequence (p : Peer) (v : Nat) :
    (p.localState.sessionState = Up ∧ v > p.localState.desiredMinTxInterval →
      p.SetDesiredMinTxInterval v = Run.panic) ∧
    (¬ (p.localState.sessionState = Up ∧ v > p.localState.desiredMinTxInterval) →
      p.SetDesiredMinTxInterval v
        = Run.ret (p.ApplyLocalState [setDesiredMinTxInterval v]) none ∧
      (p.ApplyLocalState [setDesiredMinTxInterval v]).localState
        = { p.localState with desiredMinTxInterval := v }) ∧
    (p.localState.sessionState = Up ∧ v < p.localState.requiredMinRxInterval →
      p.SetRequiredMinRxInterval v = Run.panic) ∧
    (¬ (p.localState.sessionState = Up ∧ v < p.localState.requiredMinRxInterval) →
      p.SetRequiredMinRxInterval v
        = Run.ret (p.ApplyLocalState [setRequiredMinRxInterval v]) none ∧
      (p.ApplyLocalState [setRequiredMinRxInterval v]).localState
        = { p.localState with requiredMinRxInterval := v }) := by
  have hc1 : (p.localState.Clone [setDesiredMinTxInterval v])
      = { p.localState with desiredMinTxInterval := v } := by
    cases p.localState
    rfl
  have hc2 : (p.localState.Clone [setRequiredMinRxInterval v])
      = { p.localState with requiredMinRxInterval := v } := by
    cases p.localState
    rfl
  refine ⟨?_, ?_, ?_, ?_⟩
  · rintro ⟨hu, hv⟩
    unfold Peer.SetDesiredMinTxInterval
    simp only [Peer.GetLocal, hu, hv, and_self, if_true]
  · intro hn
    constructor
    · unfold Peer.SetDesiredMinTxInterval
      have hn' : ¬ (v > p.localState.desiredMinTxInterval ∧ p.localState.sessionState = Up) :=
        fun h => hn ⟨h.2, h.1⟩
      simp only [Peer.GetLocal, hn', if_false]
    · rw [ApplyLocalState_localState, hc1]
      simp
  · rintro ⟨hu, hv⟩
    unfold Peer.SetRequiredMinRxInterval
    simp only [Peer.GetLocal, hu, hv, and_self, if_true]
  · intro hn
    constructor
    · unfold Peer.SetRequiredMinRxInterval
      have hn' : ¬ (v < p.localState.requiredMinRxInterval ∧ p.localState.sessionState = Up) :=
        fun h => hn ⟨h.2, h.1⟩
      simp only [Peer.GetLocal, hn', if_false]
    · rw [ApplyLocalState_localState, hc2]
      simp

/-- Witness of C29: the calls of the two tests on an Up session. -/
theorem setters_poll_sequence_witness :
    upPeer.SetDesiredMinTxInterval 50 = Run.panic ∧
    upPeer.SetDesiredMinTxInterval 40
      = Run.ret (upPeer.ApplyLocalState [setDesiredMinTxInterval 40]) none ∧
    upPeer.SetRequiredMinRxInterval 50 = Run.panic ∧
    upPeer.SetRequiredMinRxInterval 150
      = Run.ret (upPeer.ApplyLocalState [setRequiredMinRxInterval 150]) none :=
  ⟨(setters_poll_sequence upPeer 50).1 ⟨rfl, by decide⟩,
   ((setters_poll_sequence upPeer 40).2.1 (by decide)).1,
   (setters_poll_sequence upPeer 50).2.2.1 ⟨rfl, by decide⟩,
   ((setters_poll_sequence upPeer 150).2.2.2 (by decide)).1⟩

/-- Committing a session state other than Up changes the session state only. -/
theorem ApplyLocalState_setSessionState (p : Peer) (st : Int) (h : st ≠ Up) :
    (p.ApplyLocalState [setSessionState st]).localState
      = { p.localState with sessionState := st } := by
  have hc : (p.localState.Clone [setSessionState st])
      = { p.localState with sessionState := st } := by
    cases p.localState
    rfl
  rw [ApplyLocalState_localState, hc]
  simp [h]

/-- C30: Enable sets the local state to Down when it is AdminDown and leaves
the session as it is otherwise; Disable sets it to AdminDown when it is not
AdminDown and leaves the session as it is otherwise; no other local field
changes; Disable followed by Enable ends in Down, and each operation is
idempotent. -/
theorem Enable_Disable_spec (p : Peer) :
    (p.localState.sessionState = AdminDown →
      p.Enable.localState = { p.localState with sessionState := Down }) ∧
    (p.localState.sessionState ≠ AdminDown → p.Enable = p) ∧
    (p.localState.sessionState ≠ AdminDown →
      p.Disable.localState = { p.localState with sessionState := AdminDown }) ∧
    (p.localState.sessionState = AdminDown → p.Disable = p) ∧
    p.Disable.Enable.localState = { p.localState with sessionState := Down } ∧
    p.Enable.Enable = p.Enable ∧ p.Disable.Disable = p.Disable := by
  have hE1 : p.localState.sessionState = AdminDown →
      p.Enable.localState = { p.localState with sessionState := Down } := by
    intro h
    unfold Peer.Enable
    simp only [Peer.GetLocal, h, if_true]
    exact ApplyLocalState_setSessionState p Down (by decide)
  have hE2 : ∀ q : Peer, q.localState.sessionState ≠ AdminDown → q.Enable = q := by
    intro q h
    unfold Peer.Enable
    simp only [Peer.GetLocal, h, if_false]
  have hD1 : p.localState.sessionState ≠ AdminDown →
      p.Disable.localState = { p.localState with sessionState := AdminDown } := by
    intro h
    unfold Peer.Disable
    simp only [Peer.GetLocal, ne_eq, h, not_false_eq_true, if_true]
    exact ApplyLocalState_setSessionState p AdminDown (by decide)
  have hD2 : ∀ q : Peer, q.localState.sessionState = AdminDown → q.Disable = q := by
    intro q h
    unfold Peer.Disable
    simp only [Peer.GetLocal, ne_eq, h, not_true_eq_false, if_false]
  have hDs : p.Disable.localState.sessionState = AdminDown := by
    by_cases h : p.localState.sessionState = AdminDown
    · rw [hD2 p h]
      exact h
    · rw [hD1 h]
  have hDl : p.Disable.localState = { p.localState with sessionState := AdminDown } := by
    by_cases h : p.localState.sessionState = AdminDown
    · rw [hD2 p h, ← h]
    · exact hD1 h
  refine ⟨hE1, hE2 p, hD1, hD2 p, ?_, ?_, ?_⟩
  · have hq : p.Disable.Enable.localState
        = { p.Disable.localState with sessionState := Down } := by
      unfold Peer.Enable
      simp only [Peer.GetLocal, hDs, if_true]
      exact ApplyLocalState_setSessionState p.Disable Down (by decide)
    rw [hq, hDl]
  · by_cases h : p.localState.sessionState = AdminDown
    · apply hE2
      rw [hE1 h]
      show Down ≠ AdminDown
      decide
    · rw [hE2 p h, hE2 p h]
  · exact hD2 _ hDs

/-- Witness of C30: the sessions of TestPeerEnable and TestPeerDisable. -/
theorem Enable_Disable_spec_witness :
    (examplePeer AdminDown).Enable.localState
      = { (examplePeer AdminDown).localState with sessionState := Down } ∧
    (examplePeer Up).Disable.localState
      = { (examplePeer Up).localState with sessionState := AdminDown } ∧
    (examplePeer Up).Enable = examplePeer Up :=
  ⟨(Enable_Disable_spec (examplePeer AdminDown)).1 rfl,
   (Enable_Disable_spec (examplePeer Up)).2.2.1 (by decide),
   (Enable_Disable_spec (examplePeer Up)).2.1 (by decide)⟩

/-! ## Trailer parsing: theorems -/

/-- C28: trailer parsing.  For a byte sequence of at least 27 bytes whose size
equals its length field and whose A bit is set, UnmarshalBinary returns
ErrInvalidAuthenticationType if byte 24 is not 1; otherwise
ErrInvalidPacketLength if byte 25 differs from the size of the trailer;
otherwise it succeeds with a SimplePassword header whose key id is byte 26 and
whose password is bytes 27 to the end. -/
theorem UnmarshalBinary_trailer (b : List Nat) (hb : isBytes b) (h27 : 27 ≤ b.length)
    (h3 : b[3]? = some b.length) (hA : (b.getD 1 0 >>> 2) &&& 1 = 1) :
    (b[24]? ≠ some 1 →
      ∃ c, ControlPacket.UnmarshalBinary {} b
        = Run.ret c (some Err.ErrInvalidAuthenticationType)) ∧
    (b[24]? = some 1 → b[25]? ≠ some (b.length - 24) →
      ∃ c, ControlPacket.UnmarshalBinary {} b = Run.ret c (some Err.ErrInvalidPacketLength)) ∧
    (b[24]? = some 1 → b[25]? = some (b.length - 24) →
      ∃ c k, b[26]? = some k ∧ ControlPacket.UnmarshalBinary {} b = Run.ret c none ∧
        c.AuthenticationHeader = some { AuthKeyId := int8 k, Password := b.drop 27 }) := by
  obtain ⟨x0, x1, x2, x3, x4, x5, x6, x7, x8, x9, x10, x11,
    x12, x13, x14, x15, x16, x17, x18, x19, x20, x21, x22, x23, t, rfl⟩ := exists_header_of_length b (by omega)
  have hb1 : isBytes ([x0, x1, x2, x3, x4, x5, x6, x7, x8, x9, x10, x11,
      x12, x13, x14, x15, x16, x17, x18, x19, x20, x21, x22, x23] ++ t) := hb
  have hbt : isBytes t := fun x hx => hb1 x (List.mem_append_right _ hx)
  simp only [List.length_cons] at h27
  obtain ⟨ty, t1, rfl, h1⟩ := exists_cons_of_succ_le t 2 (by omega)
  obtain ⟨l, t2, rfl, h2⟩ := exists_cons_of_succ_le t1 1 (by omega)
  obtain ⟨k, rest, rfl, -⟩ := exists_cons_of_succ_le t2 0 (by omega)
  have htylt : ty < 256 := hbt ty (by simp)
  have hty : int8 ty = SimplePassword ↔ ty = 1 := by
    unfold int8 SimplePassword
    constructor
    · intro h
      split at h <;> omega
    · intro h
      subst h
      decide
  simp only [List.getElem?_cons_succ, List.getElem?_cons_zero, List.length_cons,
    Option.some.injEq, List.getD_cons_succ, List.getD_cons_zero, List.drop_succ_cons,
    List.drop_zero] at h3 hA ⊢
  have hx3 : ¬ (24 + (ty :: l :: k :: rest).length ≠ x3) := by
    simp only [List.length_cons]
    omega
  rw [UnmarshalBinary_cons, if_neg hx3, if_pos hA]
  simp only [List.getElem?_cons_zero]
  refine ⟨?_, ?_, ?_⟩
  · intro hne
    have hne' : ¬ (int8 ty = SimplePassword) := fun h => hne (congrArg some (hty.mp h))
    rw [if_neg hne']
    exact ⟨_, rfl⟩
  · intro he hl
    subst he
    rw [if_pos (hty.mpr rfl)]
    have hsome : ∀ n : Nat, some l ≠ some n → l ≠ n := fun n h e => h (congrArg some e)
    have hl2 := hsome _ hl
    have hl' : (1 :: l :: k :: rest).length ≠ l := by
      simp only [List.length_cons] at hl2 ⊢
      omega
    unfold SimplePasswordHeader.UnmarshalBinary
    simp only [List.getElem?_cons_zero, List.getElem?_cons_succ, hty.mpr rfl, ne_eq,
      not_true_eq_false, if_false, hl', not_false_eq_true, if_true]
    exact ⟨_, rfl⟩
  · intro he hl
    subst he
    rw [if_pos (hty.mpr rfl)]
    have hl' : ¬ ((1 :: l :: k :: rest).length ≠ l) := by
      simp only [List.length_cons] at hl ⊢
      omega
    unfold SimplePasswordHeader.UnmarshalBinary
    simp only [List.getElem?_cons_zero, List.getElem?_cons_succ, hty.mpr rfl, ne_eq,
      not_true_eq_false, if_false, hl', List.drop_succ_cons, List.drop_zero]
    exact ⟨_, k, rfl, rfl, rfl⟩

/-- Witness of C28: the three datagrams of the tests. -/
theorem UnmarshalBinary_trailer_witness :
    (∃ c, ControlPacket.UnmarshalBinary {} wrongAuthTypeBytes
      = Run.ret c (some Err.ErrInvalidAuthenticationType)) ∧
    (∃ c, ControlPacket.UnmarshalBinary {} wrongAuthLenBytes
      = Run.ret c (some Err.ErrInvalidPacketLength)) ∧
    (∃ c k, passwordBytes[26]? = some k ∧
      ControlPacket.UnmarshalBinary {} passwordBytes = Run.ret c none ∧
      c.AuthenticationHeader
        = some { AuthKeyId := int8 k, Password := passwordBytes.drop 27 }) :=
  ⟨(UnmarshalBinary_trailer wrongAuthTypeBytes (by unfold isBytes; decide) (by decide)
      (by decide) (by decide)).1 (by decide),
   (UnmarshalBinary_trailer wrongAuthLenBytes (by unfold isBytes; decide) (by decide)
      (by decide) (by decide)).2.1 (by decide) (by decide),
   (UnmarshalBinary_trailer passwordBytes (by unfold isBytes; decide) (by decide)
      (by decide) (by decide)).2.2 (by decide) (by decide)⟩

/-! ## AddPeer: theorems -/

/-- What a successful AddPeer has done: the request had a nonzero detect
multiplier, the session returned carries the drawn discriminator and uuid and
the converted parameters, and it is stored under the drawn discriminator. -/
theorem AddPeer_ok (s : BfdServer) (env : AddPeerEnv) (api_peer : ApiPeer) (peer : Peer)
    (h : (s.AddPeer env api_peer).2 = Except.ok peer) :
    api_peer.DetectMultiplier ≠ 0 ∧
    peer.localState =
      { sessionState := Down, discriminator := env.randUint32,
        desiredMinTxInterval := 1000000,
        requiredMinRxInterval := (api_peer.RequiredMinRxInterval * 1000) % 2 ^ 32,
        detectMultiplier := api_peer.DetectMultiplier % 256 } ∧
    peer.uuid = env.uuid ∧
    (s.AddPeer env api_peer).1.Sessions = mapInsert env.randUint32 peer s.Sessions ∧
    (containsColon api_peer.Address = false →
      peer.Address.Port = BFD_PORT ∧ env.ParseIP api_peer.Address = some peer.Address.IP) := by
  unfold BfdServer.AddPeer at h ⊢
  by_cases hdm : api_peer.DetectMultiplier = 0
  · simp only [hdm, if_true] at h
    cases h
  simp only [hdm, if_false] at h ⊢
  refine ⟨hdm, ?_⟩
  generalize hparsed :
    (if containsColon api_peer.Address = true then
      match env.Atoi ((splitColon api_peer.Address).getD 1 []) with
      | Except.error err => Except.error err
      | Except.ok port => Except.ok ((splitColon api_peer.Address).getD 0 [], port)
     else (Except.ok (api_peer.Address, BFD_PORT) : Except Err (List Nat × Int))) = parsed
    at h ⊢
  cases parsed with
  | error e => cases h
  | ok v =>
    obtain ⟨address, port⟩ := v
    simp only at h ⊢
    generalize hnew : NewPeer env.uuid (env.ParseIP address) port = r at h ⊢
    cases r with
    | error e => cases h
    | ok p0 =>
      simp only at h ⊢
      cases hdial : env.dialErr with
      | some e =>
        rw [hdial] at h
        cases h
      | none =>
        rw [hdial] at h
        simp only [Except.ok.injEq] at h
        subst h
        have hp0 : p0.uuid = env.uuid ∧
            (env.ParseIP address = some p0.Address.IP ∧ p0.Address.Port = port) := by
          unfold NewPeer at hnew
          split at hnew
          · cases hnew
          · rename_i ip hip
            split at hnew
            · cases hnew
            · simp only [Except.ok.injEq] at hnew
              subst hnew
              exact ⟨rfl, hip, rfl⟩
        refine ⟨rfl, hp0.1, rfl, ?_⟩
        intro hc
        simp only [hc, Bool.false_eq_true, if_false, Except.ok.injEq, Prod.mk.injEq] at hparsed
        obtain ⟨ha, hport⟩ := hparsed
        subst ha
        subst hport
        exact ⟨hp0.2.2, hp0.2.1⟩

/-- C22 (code at the failing input): when `rand.Uint32()` returns 0, AddPeer
succeeds and installs a session whose local discriminator is 0, registered
under the key 0. -/
theorem AddPeer_zero_discriminator :
    found (BfdServer.AddPeer {} (exampleEnv 0 [1]) exampleRequest).2 = true ∧
    (addedLocal (BfdServer.AddPeer {} (exampleEnv 0 [1]) exampleRequest)).map
      (fun l => l.discriminator) = some 0 ∧
    (BfdServer.AddPeer {} (exampleEnv 0 [1]) exampleRequest).1.Sessions.map (fun e => e.1)
      = [0] := by
  refine ⟨by decide, by decide, by decide⟩

/-- C23 (code at the failing input): two successful AddPeer calls that draw the
same discriminator 5.  After the first, the first session is found by its uuid;
after the second, the registry holds one session only and the first session is
no longer found. -/
theorem AddPeer_discriminator_collision :
    found (BfdServer.AddPeer {} (exampleEnv 5 [1]) exampleRequest).2 = true ∧
    found ((BfdServer.AddPeer {} (exampleEnv 5 [1]) exampleRequest).1.AddPeer
      (exampleEnv 5 [2]) exampleRequest).2 = true ∧
    found ((BfdServer.AddPeer {} (exampleEnv 5 [1]) exampleRequest).1.GetPeerByUuid [1])
      = true ∧
    ((BfdServer.AddPeer {} (exampleEnv 5 [1]) exampleRequest).1.AddPeer
      (exampleEnv 5 [2]) exampleRequest).1.Sessions.length = 1 ∧
    found (((BfdServer.AddPeer {} (exampleEnv 5 [1]) exampleRequest).1.AddPeer
      (exampleEnv 5 [2]) exampleRequest).1.GetPeerByUuid [1]) = false ∧
    found (((BfdServer.AddPeer {} (exampleEnv 5 [1]) exampleRequest).1.AddPeer
      (exampleEnv 5 [2]) exampleRequest).1.GetPeerByUuid [2]) = true := by
  refine ⟨by decide, by decide, by decide, by decide, by decide, by decide⟩

/-- C24 (code at the failing input): AddPeer with detect multiplier 256 passes
the check against 0, and the conversion to `uint8` installs a session whose
local detect multiplier is 0; SetDetectMultiplier(0) also commits 0. -/
theorem AddPeer_detect_multiplier_truncated :
    found (BfdServer.AddPeer {} (exampleEnv 5 [1])
      { exampleRequest with DetectMultiplier := 256 }).2 = true ∧
    (addedLocal (BfdServer.AddPeer {} (exampleEnv 5 [1])
      { exampleRequest with DetectMultiplier := 256 })).map (fun l => l.detectMultiplier)
      = some 0 ∧
    ((examplePeer Up).SetDetectMultiplier 0).localState.detectMultiplier = 0 := by
  refine ⟨by decide, by decide, by decide⟩

/-- C26 (code at the failing input): AddPeer with RequiredMinRxInterval 4294968
milliseconds succeeds; the product 4294968000 does not fit in 32 bits and the
installed local requiredMinRxInterval is 704 microseconds. -/
theorem AddPeer_interval_conversion_wraps :
    found (BfdServer.AddPeer {} (exampleEnv 5 [1])
      { exampleRequest with RequiredMinRxInterval := 4294968 }).2 = true ∧
    (addedLocal (BfdServer.AddPeer {} (exampleEnv 5 [1])
      { exampleRequest with RequiredMinRxInterval := 4294968 })).map
      (fun l => l.requiredMinRxInterval) = some 704 ∧
    4294968 * 1000 = 4294968000 ∧ 4294968 < 2 ^ 32 := by
  refine ⟨by decide, by decide, by decide, by decide⟩

/-- C25: validation when constructing a session.  AddPeer with detect
multiplier 0 fails with ErrInvalidDetectionMultiplierSupplied whatever else the
request holds; NewPeer fails with ErrInvalidAddress for the nil IP, otherwise
with ErrInvalidPort exactly when the port is below 1 or above 65535, and
otherwise succeeds with the given address and port; an AddPeer address without
a colon gives port 3784. -/
theorem session_construction_validation (s : BfdServer) (env : AddPeerEnv)
    (api_peer : ApiPeer) (uuid ip : List Nat) (port : Int) :
    (api_peer.DetectMultiplier = 0 →
      s.AddPeer env api_peer = (s, Except.error Err.ErrInvalidDetectionMultiplierSupplied)) ∧
    NewPeer uuid none port = Except.error Err.ErrInvalidAddress ∧
    (NewPeer uuid (some ip) port = Except.error Err.ErrInvalidPort ↔
      (port < 1 ∨ port > 65535)) ∧
    (1 ≤ port ∧ port ≤ 65535 →
      ∃ p, NewPeer uuid (some ip) port = Except.ok p ∧
        p.Address = { IP := ip, Port := port }) ∧
    (containsColon api_peer.Address = false →
      ∀ peer, (s.AddPeer env api_peer).2 = Except.ok peer →
        peer.Address.Port = 3784 ∧ env.ParseIP api_peer.Address = some peer.Address.IP) := by
  refine ⟨?_, rfl, ?_, ?_, ?_⟩
  · intro h
    unfold BfdServer.AddPeer
    simp only [h, if_true]
  · unfold NewPeer
    by_cases hp : port < 1 ∨ port > 65535
    · simp only [hp, if_true]
    · simp only [hp, if_false]
      constructor
      · intro h
        cases h
      · intro h
        exact absurd h (by trivial)
  · intro hp
    unfold NewPeer
    have hn : ¬ (port < 1 ∨ port > 65535) := by omega
    simp only [hn, if_false]
    exact ⟨_, rfl, rfl⟩
  · intro hc peer hok
    exact (AddPeer_ok s env api_peer peer hok).2.2.2.2 hc

/-- Witness of C25: the requests of the tests, with and without a port. -/
theorem session_construction_validation_witness :
    BfdServer.AddPeer {} (exampleEnv 5 [1]) {}
      = ({}, Except.error Err.ErrInvalidDetectionMultiplierSupplied) ∧
    (∃ p, NewPeer [1] (some loopback16) 4000 = Except.ok p ∧
      p.Address = { IP := loopback16, Port := 4000 }) ∧
    (∀ peer, (BfdServer.AddPeer {} (exampleEnv 5 [1]) exampleRequest).2 = Except.ok peer →
      peer.Address.Port = 3784 ∧
        (exampleEnv 5 [1]).ParseIP exampleRequest.Address = some peer.Address.IP) ∧
    found (BfdServer.AddPeer {} (exampleEnv 5 [1]) exampleRequest).2 = true ∧
    found (BfdServer.AddPeer {} (exampleEnv 5 [1])
      { exampleRequest with Address := loopbackPortString }).2 = true :=
  ⟨(session_construction_validation {} (exampleEnv 5 [1]) {} [1] loopback16 4000).1 rfl,
   (session_construction_validation {} (exampleEnv 5 [1]) {} [1] loopback16 4000).2.2.2.1
      ⟨by decide, by decide⟩,
   (session_construction_validation {} (exampleEnv 5 [1]) exampleRequest [1] loopback16
      4000).2.2.2.2 (by decide),
   by decide, by decide⟩

/-! ## Snapshots and state-change events: theorems -/

/-- C34: Clone applies the updates in list order to a copy of the receiver.
The result is the left fold of the updates over the receiver's value; with no
update it equals the receiver; cloning with `us ++ vs` is cloning with `us` and
then with `vs`; of two consecutive updates of the same field the later wins;
and a single setter gives the receiver with that one field replaced.  The
receiver is a value here, which no update can reach. -/
theorem Clone_spec (s : PeerState) (us vs : List PeerStateUpdate) :
    s.Clone us = us.foldl (fun st u => u st) s ∧
    s.Clone [] = s ∧
    s.Clone (us ++ vs) = (s.Clone us).Clone vs ∧
    (∀ a b, s.Clone (us ++ [setDetectMultiplier a, setDetectMultiplier b])
        = s.Clone (us ++ [setDetectMultiplier b])) ∧
    (∀ a b, s.Clone (us ++ [setRequiredMinRxInterval a, setRequiredMinRxInterval b])
        = s.Clone (us ++ [setRequiredMinRxInterval b])) ∧
    (∀ a b, s.Clone (us ++ [setDesiredMinTxInterval a, setDesiredMinTxInterval b])
        = s.Clone (us ++ [setDesiredMinTxInterval b])) ∧
    (∀ a b, s.Clone (us ++ [setSessionState a, setSessionState b])
        = s.Clone (us ++ [setSessionState b])) ∧
    (∀ a b, s.Clone (us ++ [setDiagnosticCode a, setDiagnosticCode b])
        = s.Clone (us ++ [setDiagnosticCode b])) ∧
    (∀ a b, s.Clone (us ++ [setDemandMode a, setDemandMode b])
        = s.Clone (us ++ [setDemandMode b])) ∧
    (∀ a b, s.Clone (us ++ [setDiscriminator a, setDiscriminator b])
        = s.Clone (us ++ [setDiscriminator b])) ∧
    (∀ v, s.Clone [setDetectMultiplier v] = { s with detectMultiplier := v }) ∧
    (∀ v, s.Clone [setRequiredMinRxInterval v] = { s with requiredMinRxInterval := v }) ∧
    (∀ v, s.Clone [setDesiredMinTxInterval v] = { s with desiredMinTxInterval := v }) ∧
    (∀ v, s.Clone [setSessionState v] = { s with sessionState := v }) ∧
    (∀ v, s.Clone [setDiagnosticCode v] = { s with diagnosticCode := v }) ∧
    (∀ v, s.Clone [setDemandMode v] = { s with demandMode := v }) ∧
    (∀ v, s.Clone [setDiscriminator v] = { s with discriminator := v }) := by
  have hfold : ∀ (t : PeerState) (ws : List PeerStateUpdate),
      t.Clone ws = ws.foldl (fun st u => u st) t := by
    intro t ws
    cases t
    rfl
  refine ⟨hfold s us, ?_, ?_, ?_, ?_, ?_, ?_, ?_, ?_, ?_, ?_, ?_, ?_, ?_, ?_, ?_, ?_⟩
  · rw [hfold]
    rfl
  · rw [hfold, hfold, hfold, List.foldl_append]
  all_goals
    intros
    simp only [hfold, List.foldl_append, List.foldl_cons, List.foldl_nil]
    rfl

/-- C35: state-change fan-out.  When the local session state committed by
ApplyLocalState differs from the previous one, every registered watcher gets
exactly one more event at the end of its queue, carrying the committed local
state and diagnostic (and the remote ones); when it does not differ, as with
updates of the intervals, the detect multiplier or the diagnostic only, no
watcher gets anything. -/
theorem ApplyLocalState_fanout (p : Peer) (us : List PeerStateUpdate) :
    ((p.ApplyLocalState us).localState.sessionState ≠ p.localState.sessionState →
      (p.ApplyLocalState us).watchers =
        p.watchers.map (fun w =>
          { w with
            ch := w.ch ++
              [{ Local := { State := (p.ApplyLocalState us).localState.sessionState
                            Diagnostic := (p.ApplyLocalState us).localState.diagnosticCode }
                 Remote := { State := p.remoteState.sessionState
                             Diagnostic := p.remoteState.diagnosticCode } }] })) ∧
    ((p.ApplyLocalState us).localState.sessionState = p.localState.sessionState →
      (p.ApplyLocalState us).watchers = p.watchers) ∧
    (∀ a b c d,
      (p.ApplyLocalState [setDesiredMinTxInterval a, setRequiredMinRxInterval b,
        setDetectMultiplier c, setDiagnosticCode d]).watchers = p.watchers) := by
  have hst : ∀ (t : PeerState) (v : Nat),
      (t.Clone [setDesiredMinTxInterval v]).sessionState = t.sessionState := by
    intro t v
    rfl
  have hdg : ∀ (t : PeerState) (v : Nat),
      (t.Clone [setDesiredMinTxInterval v]).diagnosticCode = t.diagnosticCode := by
    intro t v
    rfl
  refine ⟨?_, ?_, ?_⟩
  · intro h
    unfold Peer.ApplyLocalState Peer.NotifyWatchers at h ⊢
    dsimp only at h ⊢
    by_cases hc : p.localState.sessionState ≠ (p.localState.Clone us).sessionState
    · rw [if_pos hc] at h ⊢
      by_cases hu : (p.localState.Clone us).sessionState = Up
      · simp only [hu, if_true, Peer.GetLocal, Peer.GetRemote, PeerState.ToApi, hst, hdg,
          watcher.Notify]
      · simp only [hu, if_false, Peer.GetLocal, Peer.GetRemote, PeerState.ToApi,
          watcher.Notify]
    · rw [if_neg hc] at h
      exact absurd (not_not.mp hc).symm h
  · intro h
    unfold Peer.ApplyLocalState Peer.NotifyWatchers at h ⊢
    dsimp only at h ⊢
    by_cases hc : p.localState.sessionState ≠ (p.localState.Clone us).sessionState
    · rw [if_pos hc] at h
      exfalso
      apply hc
      by_cases hu : (p.localState.Clone us).sessionState = Up
      · simp only [hu, if_true, hst] at h
        rw [hu]
        exact h.symm
      · simp only [hu, if_false] at h
        exact h.symm
    · rw [if_neg hc]
  · intro a b c d
    unfold Peer.ApplyLocalState
    have hs : (p.localState.Clone [setDesiredMinTxInterval a, setRequiredMinRxInterval b,
        setDetectMultiplier c, setDiagnosticCode d]).sessionState = p.localState.sessionState := by
      rfl
    simp only [hs, ne_eq, not_true_eq_false, if_false]

/-- Witness of C35: a Down session with two watchers goes Init, then has its
interval changed. -/
theorem ApplyLocalState_fanout_witness :
    (watchedPeer.ApplyLocalState [setSessionState Init]).watchers =
      watchedPeer.watchers.map (fun w =>
        { w with
          ch := w.ch ++
            [{ Local :=
                { State := (watchedPeer.ApplyLocalState [setSessionState Init]).localState.sessionState
                  Diagnostic :=
                    (watchedPeer.ApplyLocalState [setSessionState Init]).localState.diagnosticCode }
               Remote := { State := watchedPeer.remoteState.sessionState
                           Diagnostic := watchedPeer.remoteState.diagnosticCode } }] }) ∧
    (watchedPeer.ApplyLocalState [setDesiredMinTxInterval 5]).watchers = watchedPeer.watchers :=
  ⟨(ApplyLocalState_fanout watchedPeer [setSessionState Init]).1 (by decide),
   (ApplyLocalState_fanout watchedPeer [setDesiredMinTxInterval 5]).2.1 (by decide)⟩

/-- C36: transition to Up sets the transmit interval.  When the update list
takes the local session state from a state other than Up to Up, the committed
local snapshot is the one the update list produces with desiredMinTxInterval
replaced by the configured Interval; in every other case the committed local
snapshot is exactly the one the update list produces. -/
theorem ApplyLocalState_up_interval (p : Peer) (us : List PeerStateUpdate) :
    (p.localState.sessionState ≠ Up ∧ (p.localState.Clone us).sessionState = Up →
      (p.ApplyLocalState us).localState =
        { p.localState.Clone us with desiredMinTxInterval := p.Interval }) ∧
    (¬ (p.localState.sessionState ≠ Up ∧ (p.localState.Clone us).sessionState = Up) →
      (p.ApplyLocalState us).localState = p.localState.Clone us) := by
  constructor
  · rintro ⟨h1, h2⟩
    rw [ApplyLocalState_localState]
    have hc : p.localState.sessionState ≠ (p.localState.Clone us).sessionState
        ∧ (p.localState.Clone us).sessionState = Up := ⟨by rw [h2]; exact h1, h2⟩
    rw [if_pos hc]
    rfl
  · intro h
    rw [ApplyLocalState_localState]
    have hc : ¬ (p.localState.sessionState ≠ (p.localState.Clone us).sessionState
        ∧ (p.localState.Clone us).sessionState = Up) := by
      rintro ⟨h1, h2⟩
      exact h ⟨by rw [h2] at h1; exact h1, h2⟩
    rw [if_neg hc]

/-- Witness of C36: a Down session with Interval 300000 goes Up, and an Up
session stays Up. -/
theorem ApplyLocalState_up_interval_witness :
    (watchedPeer.ApplyLocalState [setSessionState Up]).localState =
      { watchedPeer.localState.Clone [setSessionState Up] with desiredMinTxInterval := 300000 } ∧
    (upPeer.ApplyLocalState [setSessionState Up]).localState
      = upPeer.localState.Clone [setSessionState Up] :=
  ⟨(ApplyLocalState_up_interval watchedPeer [setSessionState Up]).1 ⟨by decide, by decide⟩,
   (ApplyLocalState_up_interval upPeer [setSessionState Up]).2 (by decide)⟩

/-! ## Poll reply, handshake and jitter range: theorems -/

/-- `ApplyLocalState` changes the local snapshot and the watchers only. -/
theorem ApplyLocalState_frame (p : Peer) (us : List PeerStateUpdate) :
    (p.ApplyLocalState us).conn = p.conn ∧ (p.ApplyLocalState us).ticker = p.ticker ∧
    (p.ApplyLocalState us).AuthType = p.AuthType ∧ (p.ApplyLocalState us).uuid = p.uuid ∧
    (p.ApplyLocalState us).control = p.control ∧ (p.ApplyLocalState us).Interval = p.Interval ∧
    (p.ApplyLocalState us).expiry = p.expiry := by
  unfold Peer.ApplyLocalState Peer.NotifyWatchers
  dsimp only
  split_ifs <;> exact ⟨rfl, rfl, rfl, rfl, rfl, rfl, rfl⟩

/-- A packet built by `NewPacket` always encodes, to its 24-byte header. -/
theorem NewPacket_MarshalBinary (p : Peer) (poll final : Int) :
    (p.NewPacket poll final).MarshalBinary
      = Except.ok ((p.NewPacket poll final).header (p.NewPacket poll final).byte1 24) := by
  rfl

/-- What `handlePacket` leaves alone, whatever it returns. -/
theorem handlePacket_frame (peer : Peer) (pkt : ControlPacket) :
    (peer.handlePacket pkt).1.ticker = peer.ticker ∧
    (peer.handlePacket pkt).1.AuthType = peer.AuthType ∧
    (peer.handlePacket pkt).1.uuid = peer.uuid ∧
    (peer.handlePacket pkt).1.control = peer.control ∧
    (peer.handlePacket pkt).1.Interval = peer.Interval := by
  unfold Peer.handlePacket
  dsimp only
  split_ifs <;>
    simp [Peer.scheduleExpiry, Peer.Send, Peer.ApplyRemoteState, ApplyLocalState_frame]

/-- The datagrams `handlePacket` writes on its accepting path: the encoding of
`NewPacket(No, Yes)` of the session as committed, when the Poll flag is Yes,
and nothing otherwise. -/
theorem handlePacket_conn (peer : Peer) (pkt : ControlPacket)
    (hA : peer.AuthType = Reserved) (hP : pkt.AuthenticationHeader = none)
    (hne : peer.localState.sessionState ≠ AdminDown) :
    (peer.handlePacket pkt).1.conn =
      if pkt.Poll = Yes then
        peer.conn ++ [((peer.handlePacket pkt).1.NewPacket No Yes).header
          ((peer.handlePacket pkt).1.NewPacket No Yes).byte1 24]
      else peer.conn := by
  have hauth : peer.GetAuthenticationType = pkt.GetAuthenticationType := by
    simp [Peer.GetAuthenticationType, ControlPacket.GetAuthenticationType, hA, hP]
  have hres : pkt.GetAuthenticationType = Reserved := by
    simp [ControlPacket.GetAuthenticationType, hP]
  unfold Peer.handlePacket
  simp only [hauth, hres, ne_eq, not_true_eq_false, if_false, Peer.GetLocal, Peer.GetRemote, hne]
  split <;> split <;> split <;>
    first
      | rfl
      | (simp only [Peer.scheduleExpiry, Peer.Send, NewPacket_MarshalBinary,
          Peer.ApplyRemoteState, (ApplyLocalState_frame _ _).1]
         first
           | done
           | rfl)

set_option maxRecDepth 1000000 in
/-- In the second byte of a packet with Poll 0, Final 1 and the other flags 0,
the P bit is clear and the F bit is set, whatever the state byte. -/
theorem byte1_poll_final_fin : ∀ s : Fin 256,
    (((((s.val <<< 6) % 256) ||| ((byte No <<< 5) % 256) ||| ((byte Yes <<< 4) % 256)
      ||| ((byte 0 <<< 3) % 256) ||| ((byte No <<< 1) % 256) ||| byte 0) >>> 5) &&& 1 = 0) ∧
    (((((s.val <<< 6) % 256) ||| ((byte No <<< 5) % 256) ||| ((byte Yes <<< 4) % 256)
      ||| ((byte 0 <<< 3) % 256) ||| ((byte No <<< 1) % 256) ||| byte 0) >>> 4) &&& 1 = 1) := by
  decide

/-- C33: poll reply.  For every packet handlePacket accepts, the transmit timer
stays as it was; when the packet's Poll flag is Yes exactly one datagram is
written, the encoding of the packet NewPacket(No, Yes) builds from the session
as committed: Poll 0, Final 1, state the committed local state,
yourDiscriminator the packet's myDiscriminator, and on the wire the P bit clear
and the F bit set; when the Poll flag is not Yes nothing is written. -/
theorem handlePacket_poll_reply (peer : Peer) (pkt : ControlPacket)
    (h : (peer.handlePacket pkt).2 = none) :
    (peer.handlePacket pkt).1.ticker = peer.ticker ∧
    (pkt.Poll = Yes →
      ∃ reply bytes b1,
        reply = (peer.handlePacket pkt).1.NewPacket No Yes ∧
        reply.MarshalBinary = Except.ok bytes ∧
        (peer.handlePacket pkt).1.conn = peer.conn ++ [bytes] ∧
        reply.Poll = 0 ∧ reply.Final = 1 ∧
        reply.State = (peer.handlePacket pkt).1.localState.sessionState ∧
        reply.YourDiscriminator = pkt.MyDiscriminator ∧
        reply.MyDiscriminator = peer.localState.discriminator ∧
        bytes.length = 24 ∧ bytes[1]? = some b1 ∧
        (b1 >>> 5) &&& 1 = 0 ∧ (b1 >>> 4) &&& 1 = 1) ∧
    (pkt.Poll ≠ Yes → (peer.handlePacket pkt).1.conn = peer.conn) := by
  obtain ⟨hA, hP, hne⟩ := handlePacket_accepted peer pkt h
  have hconn := handlePacket_conn peer pkt hA hP hne
  refine ⟨(handlePacket_frame peer pkt).1, ?_, ?_⟩
  · intro hpoll
    rw [if_pos hpoll] at hconn
    have hrem := handlePacket_remote peer pkt hA hP hne
    have hloc := (handlePacket_local peer pkt hA hP hne).2
    have hdisc : ∀ (t : PeerState) (us : List PeerStateUpdate),
        (∀ u ∈ us, ∀ x : PeerState, (u x).discriminator = x.discriminator) →
        (t.Clone us).discriminator = t.discriminator := by
      intro t us hus
      have hfold : ∀ (ws : List PeerStateUpdate) (x : PeerState),
          (∀ u ∈ ws, ∀ y : PeerState, (u y).discriminator = y.discriminator) →
          (ws.foldl (fun st u => u st) x).discriminator = x.discriminator := by
        intro ws
        induction ws with
        | nil => intro x _; rfl
        | cons w ws ih =>
          intro x hx
          rw [List.foldl_cons, ih (w x) (fun u hu => hx u (List.mem_cons_of_mem _ hu))]
          exact hx w (List.mem_cons_self _ _) x
      cases t
      exact hfold us _ hus
    have hlu : ∀ u ∈ localUpdates peer.localState pkt,
        ∀ x : PeerState, (u x).discriminator = x.discriminator := by
      intro u hu x
      unfold localUpdates at hu
      split_ifs at hu <;>
        simp only [List.mem_cons, List.mem_singleton, List.not_mem_nil, or_false] at hu <;>
        (rcases hu with hu | hu <;> subst hu <;> rfl)
    have hmy : (peer.handlePacket pkt).1.localState.discriminator
        = peer.localState.discriminator := by
      rw [hloc]
      split
      · rw [hdisc _ _ (by
          intro u hu x
          simp only [List.mem_singleton] at hu
          subst hu
          rfl), hdisc _ _ hlu]
      · exact hdisc _ _ hlu
    obtain ⟨e0, e1, e2, e3, rest⟩ :=
      header_layout ((peer.handlePacket pkt).1.NewPacket No Yes)
        ((peer.handlePacket pkt).1.NewPacket No Yes).byte1 24 []
    have hbits := byte1_poll_final_fin
      ⟨byte (peer.handlePacket pkt).1.localState.sessionState, by
        unfold byte
        omega⟩
    refine ⟨_, _, _, rfl, NewPacket_MarshalBinary _ _ _, hconn, rfl, rfl, rfl, ?_, hmy, ?_, ?_,
      hbits.1, hbits.2⟩
    · show (peer.handlePacket pkt).1.remoteState.discriminator = pkt.MyDiscriminator
      rw [hrem]
      rfl
    · simp [ControlPacket.header, PutUint32]
    · simp [ControlPacket.header]
      rfl
  · intro hpoll
    rw [if_neg hpoll] at hconn
    exact hconn

/-- Witness of C33: a Down session answers a Down packet with the Poll flag
set, and stays silent without it. -/
theorem handlePacket_poll_reply_witness :
    ((examplePeer Down).handlePacket { examplePacket Down with Poll := Yes }).1.conn.length = 1 ∧
    ((examplePeer Down).handlePacket (examplePacket Down)).1.conn = (examplePeer Down).conn :=
  ⟨by
    obtain ⟨reply, bytes, b1, -, -, hc, -⟩ :=
      (handlePacket_poll_reply (examplePeer Down) { examplePacket Down with Poll := Yes }
        (by decide)).2.1 (by decide)
    rw [hc]
    rfl,
   (handlePacket_poll_reply (examplePeer Down) (examplePacket Down) (by decide)).2.2
     (by decide)⟩

/-- The local snapshot `handlePacket` commits in the three establishment cases. -/
theorem handlePacket_establish_local (peer : Peer) (pkt : ControlPacket)
    (hA : peer.AuthType = Reserved) (hP : pkt.AuthenticationHeader = none) :
    (peer.localState.sessionState = Down → pkt.State = Down →
      (peer.handlePacket pkt).2 = none ∧
      (peer.handlePacket pkt).1.localState =
        { peer.localState with diagnosticCode := NoDiagnostic, sessionState := Init }) ∧
    (peer.localState.sessionState = Down → pkt.State = Init →
      (peer.handlePacket pkt).2 = none ∧
      (peer.handlePacket pkt).1.localState =
        { peer.localState with
          diagnosticCode := NoDiagnostic, sessionState := Up
          desiredMinTxInterval := peer.Interval }) ∧
    (peer.localState.sessionState = Init → pkt.State = Up →
      (peer.handlePacket pkt).2 = none ∧
      (peer.handlePacket pkt).1.localState =
        { peer.localState with
          diagnosticCode := NoDiagnostic, sessionState := Up
          desiredMinTxInterval := peer.Interval }) := by
  refine ⟨?_, ?_, ?_⟩
  · intro hl hp
    have hne : peer.localState.sessionState ≠ AdminDown := by rw [hl]; decide
    obtain ⟨he, hs⟩ := handlePacket_local peer pkt hA hP hne
    have hu : localUpdates peer.localState pkt
        = [setDiagnosticCode NoDiagnostic, setSessionState Init] := by
      simp [localUpdates, hl, hp, Down, AdminDown]
    rw [hs, hu, Clone_diag_state]
    simp [he, hl, Down, Init, Up]
  · intro hl hp
    have hne : peer.localState.sessionState ≠ AdminDown := by rw [hl]; decide
    obtain ⟨he, hs⟩ := handlePacket_local peer pkt hA hP hne
    have hu : localUpdates peer.localState pkt
        = [setDiagnosticCode NoDiagnostic, setSessionState Up] := by
      simp [localUpdates, hl, hp, Down, AdminDown, Init]
    rw [hs, hu, Clone_diag_state]
    simp [he, hl, Down, Init, Up, PeerState.Clone, setDesiredMinTxInterval]
  · intro hl hp
    have hne : peer.localState.sessionState ≠ AdminDown := by rw [hl]; decide
    obtain ⟨he, hs⟩ := handlePacket_local peer pkt hA hP hne
    have hu : localUpdates peer.localState pkt
        = [setDiagnosticCode NoDiagnostic, setSessionState Up] := by
      simp [localUpdates, hl, hp, Down, AdminDown, Init, Up]
    rw [hs, hu, Clone_diag_state]
    simp [he, hl, Down, Init, Up, PeerState.Clone, setDesiredMinTxInterval]

/-- C38: three-way handshake.  Two unauthenticated sessions A and B are Down.
B handles the packet A builds, then A handles the packet B builds, then B
handles the packet A builds (each built by NewPacket with any poll and final
flags).  Every handlePacket call returns nil, B is Init after the first step,
and at the end A and B are Up with diagnostic NoDiagnostic, the remote
discriminator of each being the local discriminator of the other. -/
theorem three_way_handshake (a b : Peer) (p1 f1 p2 f2 p3 f3 : Int)
    (hA : a.AuthType = Reserved) (hB : b.AuthType = Reserved)
    (ha : a.localState.sessionState = Down) (hb : b.localState.sessionState = Down) :
    (b.handlePacket (a.NewPacket p1 f1)).2 = none ∧
    (b.handlePacket (a.NewPacket p1 f1)).1.localState.sessionState = Init ∧
    (a.handlePacket ((b.handlePacket (a.NewPacket p1 f1)).1.NewPacket p2 f2)).2 = none ∧
    ((b.handlePacket (a.NewPacket p1 f1)).1.handlePacket
      ((a.handlePacket ((b.handlePacket (a.NewPacket p1 f1)).1.NewPacket p2 f2)).1.NewPacket
        p3 f3)).2 = none ∧
    (a.handlePacket
      ((b.handlePacket (a.NewPacket p1 f1)).1.NewPacket p2 f2)).1.localState.sessionState = Up ∧
    (a.handlePacket
      ((b.handlePacket (a.NewPacket p1 f1)).1.NewPacket p2 f2)).1.localState.diagnosticCode
        = NoDiagnostic ∧
    (a.handlePacket
      ((b.handlePacket (a.NewPacket p1 f1)).1.NewPacket p2 f2)).1.remoteState.discriminator
        = b.localState.discriminator ∧
    ((b.handlePacket (a.NewPacket p1 f1)).1.handlePacket
      ((a.handlePacket ((b.handlePacket (a.NewPacket p1 f1)).1.NewPacket p2 f2)).1.NewPacket
        p3 f3)).1.localState.sessionState = Up ∧
    ((b.handlePacket (a.NewPacket p1 f1)).1.handlePacket
      ((a.handlePacket ((b.handlePacket (a.NewPacket p1 f1)).1.NewPacket p2 f2)).1.NewPacket
        p3 f3)).1.localState.diagnosticCode = NoDiagnostic ∧
    ((b.handlePacket (a.NewPacket p1 f1)).1.handlePacket
      ((a.handlePacket ((b.handlePacket (a.NewPacket p1 f1)).1.NewPacket p2 f2)).1.NewPacket
        p3 f3)).1.remoteState.discriminator = a.localState.discriminator := by
  -- first step: B, Down, handles the Down packet of A
  obtain ⟨e1, l1⟩ := (handlePacket_establish_local b (a.NewPacket p1 f1) hB rfl).1 hb ha
  have hB1 : (b.handlePacket (a.NewPacket p1 f1)).1.AuthType = Reserved := by
    rw [(handlePacket_frame b (a.NewPacket p1 f1)).2.1, hB]
  generalize hb1 : (b.handlePacket (a.NewPacket p1 f1)).1 = b1 at e1 l1 hB1 ⊢
  have s1 : b1.localState.sessionState = Init := by rw [l1]
  -- second step: A, Down, handles the Init packet of B
  obtain ⟨e2, l2⟩ := (handlePacket_establish_local a (b1.NewPacket p2 f2) hA rfl).2.1 ha s1
  have r2 := handlePacket_remote a (b1.NewPacket p2 f2) hA rfl (by rw [ha]; decide)
  generalize ha1 : (a.handlePacket (b1.NewPacket p2 f2)).1 = a1 at e2 l2 r2 ⊢
  have s2 : a1.localState.sessionState = Up := by rw [l2]
  -- third step: B, Init, handles the Up packet of A
  obtain ⟨e3, l3⟩ := (handlePacket_establish_local b1 (a1.NewPacket p3 f3) hB1 rfl).2.2 s1 s2
  have r3 := handlePacket_remote b1 (a1.NewPacket p3 f3) hB1 rfl (by rw [s1]; decide)
  refine ⟨e1, s1, e2, e3, s2, by rw [l2], ?_, by rw [l3], by rw [l3], ?_⟩
  · rw [r2]
    show b1.localState.discriminator = b.localState.discriminator
    rw [l1]
  · rw [r3]
    show a1.localState.discriminator = a.localState.discriminator
    rw [l2]

/-- Witness of C38: the handshake of two example sessions with discriminators 9
and 7. -/
theorem three_way_handshake_witness :
    ((examplePeer Down).handlePacket
      ((otherPeer.handlePacket ((examplePeer Down).NewPacket No No)).1.NewPacket No
        No)).1.localState.sessionState = Up ∧
    ((examplePeer Down).handlePacket
      ((otherPeer.handlePacket ((examplePeer Down).NewPacket No No)).1.NewPacket No
        No)).1.remoteState.discriminator = 7 :=
  ⟨(three_way_handshake (examplePeer Down) otherPeer No No No No No No rfl rfl rfl rfl).2.2.2.2.1,
   (three_way_handshake (examplePeer Down) otherPeer No No No No No No rfl rfl rfl
      rfl).2.2.2.2.2.2.1⟩

/-- C40 (counterexample): the jitter value is `rand.Intn(25)`, which lies in
0..24.  With base interval 100 the period for j = 25 would be 75, yet no value
the code can draw arms the transmit timer with 75: the periods are 76 to 100. -/
theorem jitter_never_25 :
    100 - 100 * 25 / 100 = 75 ∧
    (∀ j, j < 25 → sendInterval 100 j 3 ≠ 75) ∧
    (∀ j, j < 25 → armedTicker (hundredPeer.handleTicker j) ≠ some (75 * Microsecond)) ∧
    (∀ j, j < 25 → 76 ≤ sendInterval 100 j 3 ∧ sendInterval 100 j 3 ≤ 100) ∧
    hundredPeer.handleTicker 24 =
      Run.ret { hundredPeer.Send (hundredPeer.NewPacket No No) with
                ticker := 76 * Microsecond } none := by
  refine ⟨by decide, by decide, by decide, by decide, by decide⟩

/-- C40 (amended): the jitter value j is `rand.Intn(25)`, an integer from 0 to
24.  For every such j, every session whose local detect multiplier is not 1 and
whose base interval satisfies base * 24 < 2^32, the ticker branch returns and
arms the transmit timer with base - base * j / 100, which is at least
base - base * 24 / 100; the base is the maximum of the remote
requiredMinRxInterval and the local desiredMinTxInterval (1000000 unless Up). -/
theorem handleTicker_jitter_range (peer : Peer) (j base : Nat) (hj : j < 25)
    (hbase : base = Max.max
      (if peer.localState.sessionState = Up then peer.localState.desiredMinTxInterval
       else 1000000) peer.remoteState.requiredMinRxInterval)
    (hsmall : base * 24 < 2 ^ 32)
    (hdm : peer.localState.detectMultiplier ≠ 1) :
    ∃ peer1, peer.handleTicker j = Run.ret peer1 none ∧
      peer1.ticker = (base - base * j / 100) * Microsecond ∧
      base - base * 24 / 100 ≤ base - base * j / 100 ∧ base - base * j / 100 ≤ base := by
  obtain ⟨peer1, hr, ht⟩ := handleTicker_ticker peer j
  have hmax : ∀ a b : Nat, max a b = Max.max a b := by
    intro a b
    unfold max
    split <;> omega
  rw [hmax, ← hbase] at ht
  have e : (2 : Nat) ^ 32 = 4294967296 := by norm_num
  rw [e] at hsmall
  have h2 : base * j ≤ base * 24 := Nat.mul_le_mul_left base (by omega)
  have hs : sendInterval base j peer.localState.detectMultiplier = base - base * j / 100 := by
    unfold sendInterval
    simp only [hdm, if_false]
    rw [e, Nat.mod_eq_of_lt (by omega : base * j < 4294967296)]
    omega
  refine ⟨peer1, hr, ?_, ?_, ?_⟩
  · rw [ht, hs]
  · omega
  · omega

/-- Witness of C40: base interval 100, detect multiplier 3 and the largest
jitter value give the period 76. -/
theorem handleTicker_jitter_range_witness :
    ∃ peer1, hundredPeer.handleTicker 24 = Run.ret peer1 none ∧
      peer1.ticker = (100 - 100 * 24 / 100) * Microsecond ∧
      100 - 100 * 24 / 100 ≤ 100 - 100 * 24 / 100 ∧ 100 - 100 * 24 / 100 ≤ 100 :=
  handleTicker_jitter_range hundredPeer 24 100 (by decide) (by decide) (by decide) (by decide)

/-! ## Totality of the decoder: theorems -/

/-- The trailers on which `SimplePasswordHeader.UnmarshalBinary` indexes past
the end: the empty one, a single SimplePassword byte, and a SimplePassword byte
followed by the length 2. -/
theorem SimplePassword_panics_iff (t : List Nat) :
    SimplePasswordHeader.UnmarshalBinary {} t = Run.panic ↔
      t = [] ∨ ∃ ty, int8 ty = SimplePassword ∧ (t = [ty] ∨ t = [ty, 2]) := by
  match t with
  | [] => simp [SimplePasswordHeader.UnmarshalBinary]
  | [ty] =>
    by_cases h : int8 ty = SimplePassword <;> simp [SimplePasswordHeader.UnmarshalBinary, h]
  | [ty, l] =>
    by_cases h : int8 ty = SimplePassword
    · by_cases hl : l = 2
      · subst hl
        simp [SimplePasswordHeader.UnmarshalBinary, h]
      · have hl2 : ¬ (2 = l) := fun e => hl e.symm
        simp [SimplePasswordHeader.UnmarshalBinary, h, hl, hl2]
    · simp [SimplePasswordHeader.UnmarshalBinary, h]
      intro x hx e
      subst e
      exact absurd hx h
  | ty :: l :: k :: rest =>
    have hne : ¬ (ty :: l :: k :: rest = [] ∨
        ∃ ty1, int8 ty1 = SimplePassword ∧
          (ty :: l :: k :: rest = [ty1] ∨ ty :: l :: k :: rest = [ty1, 2])) := by
      rintro (h | ⟨ty1, -, h | h⟩) <;> cases h
    constructor
    · intro hp
      exfalso
      unfold SimplePasswordHeader.UnmarshalBinary at hp
      simp only [List.getElem?_cons_zero, List.getElem?_cons_succ] at hp
      split_ifs at hp
    · intro hp
      exact absurd hp hne

/-- C37 (code at the failing inputs): UnmarshalBinary is not total.  It panics
exactly on the datagrams that pass both length checks, have the A bit set, and
whose trailer is empty, or is one SimplePassword byte, or is a SimplePassword
byte followed by the length 2.  The 26-byte datagram with trailer 1, 2 is such
an input, and the receive path, which decodes every datagram whose TTL is 255,
panics on it. -/
theorem UnmarshalBinary_not_total :
    (∀ b : List Nat,
      ControlPacket.UnmarshalBinary {} b = Run.panic ↔
        24 ≤ b.length ∧ b.length = b.getD 3 0 ∧ (b.getD 1 0 >>> 2) &&& 1 = 1 ∧
        (b.drop 24 = [] ∨
          ∃ ty, int8 ty = SimplePassword ∧ (b.drop 24 = [ty] ∨ b.drop 24 = [ty, 2]))) ∧
    authTwoByteTrailerBytes.length = 26 ∧
    ControlPacket.UnmarshalBinary {} authTwoByteTrailerBytes = Run.panic ∧
    (∀ (s : BfdServer) (addr : UDPAddr),
      s.readIncomingPacket (Except.ok (26, addr)) authTwoByteTrailerBytes goodTTLOob
        = Run.panic) := by
  refine ⟨?_, by decide, by decide, ?_⟩
  · intro b
    by_cases h24 : 24 ≤ b.length
    · obtain ⟨x0, x1, x2, x3, x4, x5, x6, x7, x8, x9, x10, x11, x12, x13, x14, x15, x16, x17,
        x18, x19, x20, x21, x22, x23, t, rfl⟩ := exists_header_of_length b h24
      rw [UnmarshalBinary_cons]
      simp only [List.length_cons, List.getD_cons_succ, List.getD_cons_zero, List.drop_succ_cons,
        List.drop_zero]
      have hlen : (t.length + 1 + 1 + 1 + 1 + 1 + 1 + 1 + 1 + 1 + 1 + 1 + 1 + 1 + 1 + 1 + 1 + 1
          + 1 + 1 + 1 + 1 + 1 + 1 + 1) = 24 + t.length := by omega
      rw [hlen]
      have hsp := SimplePassword_panics_iff t
      by_cases hl : 24 + t.length ≠ x3
      · rw [if_pos hl]
        constructor
        · intro h
          cases h
        · rintro ⟨-, h, -⟩
          exact absurd h hl
      · rw [if_neg hl]
        have hl2 : 24 + t.length = x3 := not_not.mp hl
        by_cases hA : (x1 >>> 2) &&& 1 = 1
        · rw [if_pos hA]
          cases t with
          | nil =>
            constructor
            · intro _
              exact ⟨by omega, hl2, hA, Or.inl rfl⟩
            · intro _
              rfl
          | cons ty rest =>
            simp only [List.getElem?_cons_zero]
            by_cases hty : int8 ty = SimplePassword
            · rw [if_pos hty]
              constructor
              · intro h
                refine ⟨by omega, hl2, hA, ?_⟩
                apply hsp.mp
                generalize hr : SimplePasswordHeader.UnmarshalBinary {} (ty :: rest) = r at h
                cases r with
                | panic => rfl
                | ret recv err =>
                  cases err <;> cases h
              · rintro ⟨-, -, -, h⟩
                rw [hsp.mpr h]
            · rw [if_neg hty]
              constructor
              · intro h
                cases h
              · rintro ⟨-, -, -, h⟩
                exfalso
                rcases h with h | ⟨ty1, h1, h | h⟩
                · cases h
                · cases h
                  exact hty h1
                · cases h
                  exact hty h1
        · rw [if_neg hA]
          constructor
          · intro h
            cases h
          · rintro ⟨-, -, h, -⟩
            exact absurd h hA
    · constructor
      · intro h
        unfold ControlPacket.UnmarshalBinary at h
        have hlt : b.length < MINIMUM_SIZE := by
          unfold MINIMUM_SIZE
          omega
        rw [if_pos hlt] at h
        cases h
      · rintro ⟨h, -⟩
        exact absurd h h24
  · intro s addr
    rfl

/-! ## DeletePeer and the registry: theorems -/

/-- The keys of a map after an assignment. -/
theorem mapInsert_keys (k : Nat) (v : Peer) (m : List (Nat × Peer)) :
    (mapInsert k v m).map (fun e => e.1) =
      if k ∈ m.map (fun e => e.1) then m.map (fun e => e.1)
      else m.map (fun e => e.1) ++ [k] := by
  induction m with
  | nil => rfl
  | cons x rest ih =>
    obtain ⟨k1, v1⟩ := x
    unfold mapInsert
    by_cases hk : k1 = k
    · subst hk
      simp
    · have hk2 : ¬ (k = k1) := fun e => hk e.symm
      rw [if_neg hk]
      simp only [List.map_cons, ih, List.mem_cons, hk2, false_or]
      split <;> rfl

/-- The entries of a map after an assignment are the new entry and old entries. -/
theorem mem_mapInsert (k : Nat) (v : Peer) (m : List (Nat × Peer)) (e : Nat × Peer)
    (h : e ∈ mapInsert k v m) : e = (k, v) ∨ e ∈ m := by
  induction m with
  | nil =>
    simp only [mapInsert, List.mem_singleton] at h
    exact Or.inl h
  | cons x rest ih =>
    obtain ⟨k1, v1⟩ := x
    unfold mapInsert at h
    by_cases hk : k1 = k
    · rw [if_pos hk] at h
      rcases List.mem_cons.mp h with h | h
      · exact Or.inl h
      · exact Or.inr (List.mem_cons_of_mem _ h)
    · rw [if_neg hk] at h
      rcases List.mem_cons.mp h with h | h
      · subst h
        exact Or.inr (List.mem_cons_self _ _)
      · rcases ih h with h1 | h1
        · exact Or.inl h1
        · exact Or.inr (List.mem_cons_of_mem _ h1)

/-- An assignment of a session with a fresh uuid keeps the uuids distinct. -/
theorem mapInsert_uuids (k : Nat) (v : Peer) (m : List (Nat × Peer))
    (hn : (m.map (fun e => e.2.uuid)).Nodup) (hv : ∀ e ∈ m, e.2.uuid ≠ v.uuid) :
    ((mapInsert k v m).map (fun e => e.2.uuid)).Nodup := by
  induction m with
  | nil => simp [mapInsert]
  | cons x rest ih =>
    obtain ⟨k1, v1⟩ := x
    rw [List.map_cons, List.nodup_cons] at hn
    obtain ⟨hx, hrest⟩ := hn
    unfold mapInsert
    by_cases hk : k1 = k
    · rw [if_pos hk, List.map_cons, List.nodup_cons]
      refine ⟨?_, hrest⟩
      intro hmem
      obtain ⟨e, he, heq⟩ := List.mem_map.mp hmem
      exact hv e (List.mem_cons_of_mem _ he) heq
    · rw [if_neg hk, List.map_cons, List.nodup_cons]
      refine ⟨?_, ih hrest (fun e he => hv e (List.mem_cons_of_mem _ he))⟩
      intro hmem
      obtain ⟨e, he, heq⟩ := List.mem_map.mp hmem
      rcases mem_mapInsert k v rest e he with h1 | h1
      · subst h1
        exact hv (k1, v1) (List.mem_cons_self _ _) heq.symm
      · exact hx (List.mem_map.mpr ⟨e, h1, heq⟩)

/-- What AddPeer does to the server: nothing when it fails, and one assignment
under the drawn discriminator when it succeeds. -/
theorem AddPeer_server (s : BfdServer) (env : AddPeerEnv) (api_peer : ApiPeer) :
    (s.AddPeer env api_peer).1 = s ∨
    ∃ peer, (s.AddPeer env api_peer).2 = Except.ok peer ∧
      (s.AddPeer env api_peer).1
        = { s with Sessions := mapInsert env.randUint32 peer s.Sessions } := by
  unfold BfdServer.AddPeer
  dsimp only
  split
  · exact Or.inl rfl
  · split
    · exact Or.inl rfl
    · split
      · exact Or.inl rfl
      · split
        · exact Or.inl rfl
        · exact Or.inr ⟨_, rfl, rfl⟩

/-- The session a successful AddPeer returns: Down, not yet in contact with a
remote system, nothing sent, no watcher, control channel open, no authentication. -/
theorem AddPeer_initial (s : BfdServer) (env : AddPeerEnv) (api_peer : ApiPeer) (peer : Peer)
    (h : (s.AddPeer env api_peer).2 = Except.ok peer) :
    peer.localState.sessionState = Down ∧ peer.localState.discriminator = env.randUint32 ∧
    peer.remoteState.discriminator = 0 ∧
    peer.conn = [] ∧ peer.watchers = [] ∧ peer.control = false ∧ peer.AuthType = Reserved ∧
    peer.uuid = env.uuid := by
  unfold BfdServer.AddPeer at h
  dsimp only at h
  split at h
  · cases h
  · split at h
    · cases h
    · split at h
      · cases h
      · rename_i p0 hnew
        split at h
        · cases h
        · simp only [Except.ok.injEq] at h
          subst h
          have hp0 : p0.conn = [] ∧ p0.watchers = [] ∧ p0.control = false ∧
              p0.AuthType = Reserved ∧ p0.uuid = env.uuid := by
            unfold NewPeer at hnew
            split at hnew
            · cases hnew
            · split at hnew
              · cases hnew
              · simp only [Except.ok.injEq] at hnew
                subst hnew
                exact ⟨rfl, rfl, rfl, rfl, rfl⟩
          exact ⟨rfl, rfl, rfl, hp0.1, hp0.2.1, hp0.2.2.1, hp0.2.2.2.1, hp0.2.2.2.2⟩

/-- The empty server is well formed. -/
theorem wellFormed_empty : BfdServer.wellFormed {} := by
  refine ⟨List.nodup_nil, List.nodup_nil, ?_⟩
  intro e he
  cases he

/-- AddPeer keeps the registry well formed when the uuid drawn is fresh, also
when the discriminator drawn is in use already. -/
theorem AddPeer_wellFormed (s : BfdServer) (env : AddPeerEnv) (api_peer : ApiPeer)
    (hs : s.wellFormed) (hfresh : ∀ e ∈ s.Sessions, e.2.uuid ≠ env.uuid) :
    (s.AddPeer env api_peer).1.wellFormed := by
  rcases AddPeer_server s env api_peer with h | ⟨peer, hok, h⟩
  · rw [h]
    exact hs
  · rw [h]
    obtain ⟨-, hd, -, -, -, hc, -, hu⟩ := AddPeer_initial s env api_peer peer hok
    obtain ⟨hk, hun, hall⟩ := hs
    refine ⟨?_, ?_, ?_⟩
    · show ((mapInsert env.randUint32 peer s.Sessions).map (fun e => e.1)).Nodup
      rw [mapInsert_keys]
      split
      · exact hk
      · rename_i hnot
        exact List.Nodup.append hk (List.nodup_singleton _)
          (by
            intro a ha hb
            rw [List.mem_singleton] at hb
            subst hb
            exact hnot ha)
    · exact mapInsert_uuids _ _ _ hun (fun e he => by rw [hu]; exact hfresh e he)
    · intro e he
      rcases mem_mapInsert _ _ _ e he with h1 | h1
      · subst h1
        exact ⟨hd.symm, hc⟩
      · exact hall e h1

/-- In a well-formed registry an entry is determined by its uuid, and by its key. -/
theorem wellFormed_unique (s : BfdServer) (hs : s.wellFormed) (e1 e2 : Nat × Peer)
    (h1 : e1 ∈ s.Sessions) (h2 : e2 ∈ s.Sessions) :
    (e1.2.uuid = e2.2.uuid → e1 = e2) ∧ (e1.1 = e2.1 → e1 = e2) :=
  ⟨fun h => List.inj_on_of_nodup_map hs.2.1 h1 h2 h,
   fun h => List.inj_on_of_nodup_map hs.1 h1 h2 h⟩

/-- GetPeerByUuid on a well-formed registry finds the entry with the uuid. -/
theorem GetPeerByUuid_mem (s : BfdServer) (hs : s.wellFormed) (e : Nat × Peer)
    (he : e ∈ s.Sessions) : s.GetPeerByUuid e.2.uuid = Except.ok e.2 := by
  unfold BfdServer.GetPeerByUuid
  cases hf : s.Sessions.find? (fun x => decide (x.2.uuid = e.2.uuid)) with
  | none =>
    have := List.find?_eq_none.mp hf e he
    simp at this
  | some x =>
    have hx : x ∈ s.Sessions := List.mem_of_find?_eq_some hf
    have hp := List.find?_some hf
    simp only [decide_eq_true_eq] at hp
    rw [(wellFormed_unique s hs x e hx he).1 hp]

/-- GetPeerByUuid fails when no entry has the uuid. -/
theorem GetPeerByUuid_none (s : BfdServer) (uuid : List Nat)
    (h : ∀ e ∈ s.Sessions, e.2.uuid ≠ uuid) :
    s.GetPeerByUuid uuid = Except.error Err.ErrPeerNotFound := by
  unfold BfdServer.GetPeerByUuid
  have hf : s.Sessions.find? (fun x => decide (x.2.uuid = uuid)) = none := by
    apply List.find?_eq_none.mpr
    intro x hx
    simp only [decide_eq_true_eq]
    exact h x hx
  rw [hf]

/-- Deleting a key keeps the registry well formed. -/
theorem mapDelete_wellFormed (s : BfdServer) (k : Nat) (hs : s.wellFormed) :
    BfdServer.wellFormed { s with Sessions := mapDelete k s.Sessions } := by
  obtain ⟨hk, hun, hall⟩ := hs
  refine ⟨?_, ?_, ?_⟩
  · exact List.Nodup.sublist (List.Sublist.map _ (List.filter_sublist _)) hk
  · exact List.Nodup.sublist (List.Sublist.map _ (List.filter_sublist _)) hun
  · intro e he
    exact hall e (List.mem_of_mem_filter he)

/-- C31: DeletePeer.  On a well-formed registry (what AddPeer builds from the
empty server with fresh uuids, see `wellFormed_empty` and `AddPeer_wellFormed`),
DeletePeer of the uuid of a registered session returns nil and shuts that
session down; afterwards GetPeerByUuid of that uuid and a second DeletePeer
return ErrPeerNotFound, every other registered session is still found by its
uuid, and the registry is still well formed.  DeletePeer of a uuid that no
session has returns ErrPeerNotFound and leaves the server as it was. -/
theorem DeletePeer_spec (s : BfdServer) (uuid : List Nat) (hs : s.wellFormed) :
    (∀ e ∈ s.Sessions, e.2.uuid = uuid →
      ∃ s1, s.DeletePeer uuid = Run.ret (s1, some { e.2 with control := true }) none ∧
        s1.GetPeerByUuid uuid = Except.error Err.ErrPeerNotFound ∧
        s1.DeletePeer uuid = Run.ret (s1, none) (some Err.ErrPeerNotFound) ∧
        (∀ e1 ∈ s.Sessions, e1.2.uuid ≠ uuid → s1.GetPeerByUuid e1.2.uuid = Except.ok e1.2) ∧
        s1.wellFormed) ∧
    ((∀ e ∈ s.Sessions, e.2.uuid ≠ uuid) →
      s.DeletePeer uuid = Run.ret (s, none) (some Err.ErrPeerNotFound)) := by
  constructor
  · intro e he hu
    subst hu
    have hget := GetPeerByUuid_mem s hs e he
    have hctl : e.2.control = false := (hs.2.2 e he).2
    have hkey : e.1 = e.2.localState.discriminator := (hs.2.2 e he).1
    have hwf := mapDelete_wellFormed s e.2.localState.discriminator hs
    have hgone : ∀ x ∈ mapDelete e.2.localState.discriminator s.Sessions,
        x.2.uuid ≠ e.2.uuid := by
      intro x hx hxu
      have hxs : x ∈ s.Sessions := List.mem_of_mem_filter hx
      have hxe : x = e := (wellFormed_unique s hs x e hxs he).1 hxu
      have hp := List.of_mem_filter hx
      simp only [decide_eq_true_eq] at hp
      apply hp
      rw [hxe]
      exact hkey
    have hnone := GetPeerByUuid_none
      { s with Sessions := mapDelete e.2.localState.discriminator s.Sessions } e.2.uuid hgone
    refine ⟨{ s with Sessions := mapDelete e.2.localState.discriminator s.Sessions }, ?_, hnone,
      ?_, ?_, hwf⟩
    · unfold BfdServer.DeletePeer
      rw [hget]
      simp only [Peer.Shutdown, Peer.GetLocal, hctl, Bool.false_eq_true, if_false]
    · unfold BfdServer.DeletePeer
      rw [hnone]
    · intro e1 he1 hne
      apply GetPeerByUuid_mem _ hwf e1
      apply List.mem_filter.mpr
      refine ⟨he1, ?_⟩
      simp only [decide_eq_true_eq]
      intro hk
      apply hne
      have : e1 = e := (wellFormed_unique s hs e1 e he1 he).2 (by rw [hk, hkey])
      rw [this]
  · intro h
    unfold BfdServer.DeletePeer
    rw [GetPeerByUuid_none s uuid h]

/-- Witness of C31: a server on which AddPeer installed two sessions, with
uuids 1 and 2; the first is deleted, and an unknown uuid is asked for. -/
theorem DeletePeer_spec_witness :
    (∃ s1, twoPeerServer.DeletePeer [1] = Run.ret (s1, deletedPeer (twoPeerServer.DeletePeer [1]))
        none ∧
      s1.GetPeerByUuid [1] = Except.error Err.ErrPeerNotFound ∧
      found (s1.GetPeerByUuid [2]) = true) ∧
    twoPeerServer.DeletePeer [3] = Run.ret (twoPeerServer, none) (some Err.ErrPeerNotFound) := by
  have hwf : twoPeerServer.wellFormed :=
    AddPeer_wellFormed _ _ _ (AddPeer_wellFormed _ _ _ wellFormed_empty (by decide)) (by decide)
  have h1 : ∃ e ∈ twoPeerServer.Sessions, e.2.uuid = [1] := by decide
  have h2 : ∃ e2 ∈ twoPeerServer.Sessions, e2.2.uuid = [2] := by decide
  obtain ⟨e, hmem, hu⟩ := h1
  obtain ⟨e2, he2, hu2⟩ := h2
  obtain ⟨s1, hd, hg, -, hothers, -⟩ := (DeletePeer_spec twoPeerServer [1] hwf).1 e hmem hu
  refine ⟨⟨s1, ?_, hg, ?_⟩, ?_⟩
  · rw [hd]
    rfl
  · have := hothers e2 he2 (by rw [hu2]; decide)
    rw [hu2] at this
    rw [this]
    rfl
  · exact (DeletePeer_spec twoPeerServer [3] hwf).2 (by decide)

/-- The loop of MonitorPeer does not return while the context is not cancelled,
whatever the watcher holds and whether or not it is closed. -/
theorem monitorLoop_not_cancelled (fuel : Nat) (w : watcher) :
    monitorLoop false fuel w = false := by
  induction fuel generalizing w with
  | zero => rfl
  | succ n ih =>
    unfold monitorLoop monitorRound
    simp only [Bool.false_eq_true, if_false]
    cases hch : w.ch with
    | nil =>
      by_cases hc : w.closed = true
      · simp only [hc, if_true]
        exact ih w
      · have hc2 : w.closed = false := by simpa using hc
        rw [hc2]
        rfl
    | cons x rest =>
      simp only
      exact ih _

/-- C32 (counterexample): a session installed by AddPeer, with the watcher of a
running MonitorPeer call registered on it, is deleted.  DeletePeer returns and
the uuid is no longer found, the control channel of the session is closed, but
its watcher is still registered, empty and not closed, and the loop of
MonitorPeer on that watcher never returns while the context is not cancelled. -/
theorem DeletePeer_leaves_watchers_open :
    found (monitoredServer.GetPeerByUuid [1]) = true ∧
    monitoredServer.Sessions.map (fun e => e.2.watchers) = [[{ ch := [], closed := false }]] ∧
    (serverAfter (monitoredServer.DeletePeer [1])).map (fun s => found (s.GetPeerByUuid [1]))
      = some false ∧
    (deletedPeer (monitoredServer.DeletePeer [1])).map (fun p => p.control) = some true ∧
    (deletedPeer (monitoredServer.DeletePeer [1])).map (fun p => p.watchers)
      = some [{ ch := [], closed := false }] ∧
    (∀ fuel, monitorLoop false fuel { ch := [], closed := false } = false) := by
  refine ⟨by decide, by decide, by decide, by decide, by decide, ?_⟩
  intro fuel
  cases fuel <;> rfl

/-- C32 (amended): what DeletePeer does to the watchers.  When DeletePeer
returns nil, the session it shut down is a registered session with the given
uuid whose control channel is now closed and which is otherwise unchanged: its
watchers are the same, with the same queues and the same closed flags, so
DeletePeer closes no watcher; the registry has lost the key of that session;
and the loop of a MonitorPeer call on any of these watchers does not return
while its context is not cancelled, and returns once it is. -/
theorem DeletePeer_keeps_watchers (s : BfdServer) (uuid : List Nat) (s1 : BfdServer)
    (p1 : Peer) (h : s.DeletePeer uuid = Run.ret (s1, some p1) none) :
    ∃ e ∈ s.Sessions, e.2.uuid = uuid ∧
      p1 = { e.2 with control := true } ∧ p1.watchers = e.2.watchers ∧
      s1.Sessions = mapDelete e.2.localState.discriminator s.Sessions ∧
      (∀ w ∈ p1.watchers, ∀ fuel, monitorLoop false fuel w = false) ∧
      (∀ w ∈ p1.watchers, ∀ fuel, monitorLoop true (fuel + 1) w = true) := by
  unfold BfdServer.DeletePeer BfdServer.GetPeerByUuid at h
  cases hf : s.Sessions.find? (fun x => decide (x.2.uuid = uuid)) with
  | none =>
    rw [hf] at h
    simp only [Run.ret.injEq, Prod.mk.injEq] at h
    obtain ⟨⟨-, h2⟩, -⟩ := h
    cases h2
  | some e =>
    rw [hf] at h
    have hmem : e ∈ s.Sessions := List.mem_of_find?_eq_some hf
    have hu := List.find?_some hf
    simp only [decide_eq_true_eq] at hu
    simp only [Peer.Shutdown, Peer.GetLocal] at h
    by_cases hc : e.2.control = true
    · simp only [hc, if_true] at h
      cases h
    · rw [if_neg hc] at h
      injection h with h1 h2
      injection h1 with h3 h4
      injection h4 with h5
      subst h3
      subst h5
      refine ⟨e, hmem, hu, rfl, rfl, rfl, ?_, ?_⟩
      · intro w _ fuel
        exact monitorLoop_not_cancelled fuel w
      · intro w _ fuel
        rfl

/-- Witness of C32: the deletion of the monitored session. -/
theorem DeletePeer_keeps_watchers_witness :
    ∃ e ∈ monitoredServer.Sessions, e.2.uuid = [1] ∧
      e.2.watchers = [{ ch := [], closed := false }] := by
  have hd : ∃ s1 p1, monitoredServer.DeletePeer [1] = Run.ret (s1, some p1) none ∧
      p1.watchers = [{ ch := [], closed := false }] := by
    refine ⟨_, _, rfl, ?_⟩
    rfl
  obtain ⟨s1, p1, h, hw⟩ := hd
  obtain ⟨e, he, hu, -, hwe, -⟩ := DeletePeer_keeps_watchers monitoredServer [1] s1 p1 h
  exact ⟨e, he, hu, by rw [← hwe, hw]⟩

/-! ## Admission rule on transmitted packets: theorems

The lemmas on `Peer.sound` are about an operation that runs from its first
statement to its last with no other goroutine of the session in between. -/

/-- The session state committed by `ApplyLocalState` is the one the updates produce. -/
theorem ApplyLocalState_sessionState (p : Peer) (us : List PeerStateUpdate) :
    (p.ApplyLocalState us).localState.sessionState = (p.localState.Clone us).sessionState := by
  rw [ApplyLocalState_localState]
  split <;> rfl

/-- The state bits of the second byte of a packet whose state is one of the
four states and whose flags are 0 or 1. -/
theorem byte1_state_bits (k : ControlPacket)
    (hs : k.State = AdminDown ∨ k.State = Down ∨ k.State = Init ∨ k.State = Up)
    (hp : k.Poll = No ∨ k.Poll = Yes) (hf : k.Final = No ∨ k.Final = Yes)
    (hc : k.ControlPlaneIndependent = 0) (hd : k.Demand = No) (hm : k.Multipoint = 0) :
    int8 ((k.byte1 &&& 0xC0) >>> 6) = k.State := by
  unfold ControlPacket.byte1
  rw [hc, hd, hm]
  rcases hs with h | h | h | h <;> rcases hp with h1 | h1 <;> rcases hf with h2 | h2 <;>
    rw [h, h1, h2] <;> decide

/-- The datagram of a packet built by NewPacket obeys the admission rule when
the session does. -/
theorem NewPacket_admissibleBytes (p : Peer) (poll final : Int)
    (h1 : p.localState.sessionState = AdminDown ∨ p.localState.sessionState = Down ∨
      p.localState.sessionState = Init ∨ p.localState.sessionState = Up)
    (h2 : p.localState.sessionState = Init ∨ p.localState.sessionState = Up →
      p.remoteState.discriminator ≠ 0)
    (h3 : p.remoteState.discriminator < 2 ^ 32)
    (hp : poll = No ∨ poll = Yes) (hf : final = No ∨ final = Yes) :
    admissibleBytes ((p.NewPacket poll final).header (p.NewPacket poll final).byte1 24) := by
  have hy : Uint32 ((p.NewPacket poll final).header (p.NewPacket poll final).byte1 24) 8
      = p.remoteState.discriminator := by
    have e : (2 : Nat) ^ 32 = 4294967296 := by norm_num
    rw [e] at h3
    simp only [Uint32, ControlPacket.header, PutUint32, List.cons_append, List.nil_append,
      List.getD_cons_succ, List.getD_cons_zero, Peer.NewPacket, Peer.GetRemote]
    omega
  have hb : ((p.NewPacket poll final).header (p.NewPacket poll final).byte1 24).getD 1 0
      = (p.NewPacket poll final).byte1 := by
    simp only [ControlPacket.header, List.cons_append, List.getD_cons_succ, List.getD_cons_zero]
  have hst := byte1_state_bits (p.NewPacket poll final) h1 hp hf rfl rfl rfl
  intro hz
  rw [hb, hst]
  rw [hy] at hz
  show p.localState.sessionState = Down ∨ p.localState.sessionState = AdminDown
  rcases h1 with h | h | h | h
  · exact Or.inr h
  · exact Or.inl h
  · exact absurd hz (h2 (Or.inl h))
  · exact absurd hz (h2 (Or.inr h))

/-- The condition carries over to a session with the same remote discriminator
and the same datagrams whose local state is the same, or Down, or AdminDown. -/
theorem sound_of_state (p q : Peer) (hp : p.sound)
    (hr : q.remoteState.discriminator = p.remoteState.discriminator) (hc : q.conn = p.conn)
    (hs : q.localState.sessionState = p.localState.sessionState ∨
      q.localState.sessionState = Down ∨ q.localState.sessionState = AdminDown) :
    q.sound := by
  obtain ⟨h1, h2, h3, h4⟩ := hp
  refine ⟨?_, ?_, by rw [hr]; exact h3, by rw [hc]; exact h4⟩
  · rcases hs with h | h | h
    · rw [h]
      exact h1
    · exact Or.inr (Or.inl h)
    · exact Or.inl h
  · rw [hr]
    rcases hs with h | h | h
    · rw [h]
      exact h2
    · intro hx
      rw [h] at hx
      rcases hx with hx | hx <;> exact absurd hx (by decide)
    · intro hx
      rw [h] at hx
      rcases hx with hx | hx <;> exact absurd hx (by decide)

/-- Sending the packet NewPacket builds keeps the condition `Peer.sound`. -/
theorem sound_Send (p : Peer) (poll final : Int) (hp : p.sound)
    (hpoll : poll = No ∨ poll = Yes) (hfinal : final = No ∨ final = Yes) :
    (p.Send (p.NewPacket poll final)).sound := by
  obtain ⟨h1, h2, h3, h4⟩ := hp
  refine ⟨h1, h2, h3, ?_⟩
  intro d hd
  unfold Peer.Send at hd
  rw [NewPacket_MarshalBinary] at hd
  rcases List.mem_append.mp hd with h | h
  · exact h4 d h
  · rw [List.mem_singleton] at h
    rw [h]
    exact NewPacket_admissibleBytes p poll final h1 h2 h3 hpoll hfinal

/-- The state the transition table leads to is the old one, Down, Init or Up. -/
theorem localUpdates_state (l : PeerState) (pkt : ControlPacket) :
    (l.Clone (localUpdates l pkt)).sessionState = l.sessionState ∨
    (l.Clone (localUpdates l pkt)).sessionState = Down ∨
    (l.Clone (localUpdates l pkt)).sessionState = Init ∨
    (l.Clone (localUpdates l pkt)).sessionState = Up := by
  unfold localUpdates
  split_ifs <;> simp only [Clone_diag_state, Clone_nil, true_or, or_true]

/-- A packet `handlePacket` rejects leaves both snapshots and the socket alone. -/
theorem handlePacket_rejected (peer : Peer) (pkt : ControlPacket)
    (h : (peer.handlePacket pkt).2 ≠ none) :
    (peer.handlePacket pkt).1.localState = peer.localState ∧
    (peer.handlePacket pkt).1.remoteState = peer.remoteState ∧
    (peer.handlePacket pkt).1.conn = peer.conn := by
  unfold Peer.handlePacket at h ⊢
  dsimp only at h ⊢
  split_ifs at h ⊢ <;> first | exact ⟨rfl, rfl, rfl⟩ | exact absurd rfl h

/-- The remote discriminator `handlePacket` commits on its accepting path. -/
theorem handlePacket_remote_discriminator (peer : Peer) (pkt : ControlPacket)
    (hA : peer.AuthType = Reserved) (hP : pkt.AuthenticationHeader = none)
    (hne : peer.localState.sessionState ≠ AdminDown) :
    (peer.handlePacket pkt).1.remoteState.discriminator = pkt.MyDiscriminator := by
  rw [handlePacket_remote peer pkt hA hP hne]
  rfl

/-- Run on its own, `handlePacket` keeps the condition `Peer.sound` for a
packet that passes checkPacket and whose myDiscriminator is a `uint32`. -/
theorem sound_handlePacket (peer : Peer) (pkt : ControlPacket) (hp : peer.sound)
    (hck : checkPacket pkt = none) (hmy : pkt.MyDiscriminator < 2 ^ 32) :
    (peer.handlePacket pkt).1.sound := by
  by_cases hacc : (peer.handlePacket pkt).2 = none
  · obtain ⟨hA, hP, hne⟩ := handlePacket_accepted peer pkt hacc
    have hloc := (handlePacket_local peer pkt hA hP hne).2
    have hrem := handlePacket_remote_discriminator peer pkt hA hP hne
    have hconn := handlePacket_conn peer pkt hA hP hne
    have hnz : pkt.MyDiscriminator ≠ 0 := by
      intro hz
      unfold checkPacket at hck
      split_ifs at hck
    have hst : (peer.handlePacket pkt).1.localState.sessionState
        = (peer.localState.Clone (localUpdates peer.localState pkt)).sessionState := by
      rw [hloc]
      split <;> rfl
    obtain ⟨h1, h2, h3, h4⟩ := hp
    have g1 : (peer.handlePacket pkt).1.localState.sessionState = AdminDown ∨
        (peer.handlePacket pkt).1.localState.sessionState = Down ∨
        (peer.handlePacket pkt).1.localState.sessionState = Init ∨
        (peer.handlePacket pkt).1.localState.sessionState = Up := by
      rw [hst]
      rcases localUpdates_state peer.localState pkt with h | h | h | h
      · rw [h]
        exact h1
      · exact Or.inr (Or.inl h)
      · exact Or.inr (Or.inr (Or.inl h))
      · exact Or.inr (Or.inr (Or.inr h))
    have g2 : (peer.handlePacket pkt).1.localState.sessionState = Init ∨
        (peer.handlePacket pkt).1.localState.sessionState = Up →
        (peer.handlePacket pkt).1.remoteState.discriminator ≠ 0 := by
      intro _
      rw [hrem]
      exact hnz
    have g3 : (peer.handlePacket pkt).1.remoteState.discriminator < 2 ^ 32 := by
      rw [hrem]
      exact hmy
    refine ⟨g1, g2, g3, ?_⟩
    intro d hd
    rw [hconn] at hd
    split at hd
    · rcases List.mem_append.mp hd with h | h
      · exact h4 d h
      · rw [List.mem_singleton] at h
        rw [h]
        exact NewPacket_admissibleBytes _ No Yes g1 g2 g3 (Or.inl rfl) (Or.inr rfl)
    · exact h4 d hd
  · obtain ⟨hl, hr, hc⟩ := handlePacket_rejected peer pkt hacc
    exact sound_of_state peer _ hp (by rw [hr]) hc (Or.inl (by rw [hl]))

/-- Run on its own, the detection-time expiry keeps the condition `Peer.sound`. -/
theorem sound_handleExpiry (peer : Peer) (hp : peer.sound) : peer.handleExpiry.sound := by
  unfold Peer.handleExpiry
  dsimp only [Peer.GetLocal]
  split
  · apply sound_of_state peer _ hp
    · show ((peer.ApplyLocalState _).remoteState.Clone _).discriminator = _
      rw [ApplyLocalState_remoteState]
      rfl
    · exact (ApplyLocalState_frame peer _).1
    · right
      left
      show (peer.ApplyLocalState _).localState.sessionState = Down
      rw [ApplyLocalState_sessionState]
      rfl
  · exact hp

/-- Run on their own, Enable and Disable keep the condition `Peer.sound`. -/
theorem sound_Enable_Disable (peer : Peer) (hp : peer.sound) :
    peer.Enable.sound ∧ peer.Disable.sound := by
  constructor
  · unfold Peer.Enable
    dsimp only [Peer.GetLocal]
    split
    · apply sound_of_state peer _ hp
      · rw [ApplyLocalState_remoteState]
      · exact (ApplyLocalState_frame peer _).1
      · right
        left
        rw [ApplyLocalState_sessionState]
        rfl
    · exact hp
  · unfold Peer.Disable
    dsimp only [Peer.GetLocal]
    split
    · apply sound_of_state peer _ hp
      · rw [ApplyLocalState_remoteState]
      · exact (ApplyLocalState_frame peer _).1
      · right
        right
        rw [ApplyLocalState_sessionState]
        rfl
    · exact hp

/-- Run on its own, the ticker branch returns and keeps the condition `Peer.sound`. -/
theorem sound_handleTicker (peer : Peer) (j : Nat) (hp : peer.sound) :
    ∃ q, peer.handleTicker j = Run.ret q none ∧ q.sound := by
  have h1 : (if peer.remoteState.requiredMinRxInterval > 0 then
      peer.Send (peer.NewPacket No No) else peer).sound := by
    split
    · exact sound_Send peer No No hp (Or.inl rfl) (Or.inl rfl)
    · exact hp
  have hq : (if peer.remoteState.requiredMinRxInterval > 0 then
      peer.Send (peer.NewPacket No No) else peer).localState = peer.localState := by
    split <;> rfl
  generalize hp1 : (if peer.remoteState.requiredMinRxInterval > 0 then
      peer.Send (peer.NewPacket No No) else peer) = peer1 at h1 hq
  unfold Peer.handleTicker
  simp only [Peer.GetLocal, Peer.GetRemote, hp1]
  by_cases hup : peer.localState.sessionState = Up
  · simp only [hup, ne_eq, not_true_eq_false, if_false]
    refine ⟨_, rfl, ?_⟩
    exact sound_of_state peer1 _ h1 rfl rfl (Or.inl rfl)
  · have hset : peer1.SetDesiredMinTxInterval 1000000
        = Run.ret (peer1.ApplyLocalState [setDesiredMinTxInterval 1000000]) none := by
      unfold Peer.SetDesiredMinTxInterval
      simp only [Peer.GetLocal, hq, hup, and_false, if_false]
    simp only [hup, ne_eq, not_false_eq_true, if_true, hset]
    refine ⟨_, rfl, ?_⟩
    apply sound_of_state peer1 _ h1
    · show (peer1.ApplyLocalState _).remoteState.discriminator = _
      rw [ApplyLocalState_remoteState]
    · exact (ApplyLocalState_frame peer1 _).1
    · left
      show (peer1.ApplyLocalState _).localState.sessionState = _
      rw [ApplyLocalState_sessionState]
      rfl

/-- Run without another goroutine in between, the two parts of `handlePacket`
make up the whole method. -/
theorem handlePacket_split (peer : Peer) (pkt : ControlPacket) :
    peer.handlePacket pkt =
      match peer.handlePacketBegin pkt with
      | Progress.returned p err => (p, some err)
      | Progress.localCommitted mid =>
        (Peer.handlePacketEnd peer.GetLocal peer.GetRemote mid pkt, none) := by
  unfold Peer.handlePacket Peer.handlePacketBegin Peer.handlePacketEnd
  dsimp only
  split_ifs <;> rfl

/-- C39 (code at the failing interleaving): the session AddPeer installs, Down
with remote discriminator 0, is handed its first packet, a Down packet that
passes checkPacket.  When `handlePacket` has committed the local updates and
not yet the remote ones, the session is in state Init with remote discriminator
0 and remote requiredMinRxInterval 1, and the packet NewPacket builds there is
rejected by checkPacket with ErrInvalidYourDiscriminator.  A transmit tick at
that point returns for every jitter value and writes exactly one datagram,
which decodes to a packet that checkPacket rejects in the same way; its bytes
8..11 are zero while the state bits of byte 1 say Init.  The call then goes on
and ends in state Init with remote discriminator 7. -/
theorem handlePacket_commit_gap :
    checkPacket (examplePacket Down) = none ∧
    addedPeer.localState.sessionState = Down ∧ addedPeer.remoteState.discriminator = 0 ∧
    addedPeer.conn = [] ∧
    (commitGap (addedPeer.handlePacketBegin (examplePacket Down))).map
      (fun mid => (mid.localState.sessionState, mid.remoteState.discriminator,
        mid.remoteState.requiredMinRxInterval)) = some (Init, 0, 1) ∧
    (commitGap (addedPeer.handlePacketBegin (examplePacket Down))).map
      (fun mid => ((mid.NewPacket No No).State, (mid.NewPacket No No).YourDiscriminator,
        checkPacket (mid.NewPacket No No)))
      = some (Init, 0, some Err.ErrInvalidYourDiscriminator) ∧
    (∀ j, j < 25 → written (addedPeer.handlePacketTick (examplePacket Down) j) = [gapBytes]) ∧
    checkDecoded gapBytes = some (some Err.ErrInvalidYourDiscriminator) ∧
    Uint32 gapBytes 8 = 0 ∧ int8 ((gapBytes.getD 1 0 &&& 0xC0) >>> 6) = Init ∧
    (sessionAfter (addedPeer.handlePacketTick (examplePacket Down) 0)).map
      (fun q => (q.localState.sessionState, q.remoteState.discriminator)) = some (Init, 7) := by
  refine ⟨by decide, by decide, by decide, by decide, by decide, by decide, by decide, by decide,
    by decide, by decide, by decide⟩

end Bfd
